import Mathlib
/-!
Verification of the sudoku-solver repository.

The development shallowly embeds the two source files that matter for the
claims, `src/sudoku.rs` (grid parsing and validity checking) and
`src/sudoku/solver.rs` (the iterative backtracking solver), and proves the
specification claims about them.

Modelling conventions:
* Rust `Vec<Vec<SudokuCell>>` becomes `List (List SudokuCell)`.
* Rust `u8` digits become `Nat`.
* Code that can panic (the `digit - 1` presence-table indexing, the
  `unwrap`s on the recursion stack) is modelled with `Option`: `none`
  means the Rust code would panic.
* The solver's recursion stack (`Vec<RecursionState>`, pushed/popped at the
  end) is modelled as a `List RecursionState` whose HEAD is the top of the
  stack (the most recently pushed frame).
* The `Iterator::next` loop is modelled by a single-iteration step function
  `solverStep` plus a fuel-indexed iteration `nextFuel`; a separate theorem
  shows the fuel `solverMeasure s + 1` always suffices, so
  `SudokuSolver.next` (which uses that fuel) is the loop's exact result.
-/
namespace Sudoku

/-- `SudokuCell` from src/sudoku.rs: `Empty` or `Filled(u8)`. -/
inductive SudokuCell where
  | Empty : SudokuCell
  | Filled : Nat → SudokuCell
deriving DecidableEq, Repr

/-- `CellLocation` from src/sudoku.rs: a (row, col) pair of indices. -/
structure CellLocation where
  row : Nat
  col : Nat
deriving DecidableEq, Repr

/-- The `contents` field of `SudokuTable`: a vector of rows of cells. -/
abbrev Table := List (List SudokuCell)

/-- Rust `self.contents[i][j]` (in-bounds under the 9x9 well-formedness
used everywhere; out-of-bounds access would panic in Rust and is never
reached by the verified code paths). -/
def getCell (t : Table) (i j : Nat) : SudokuCell :=
  (t.getD i []).getD j SudokuCell.Empty

/-- The digit stored at (i, j), `none` for an empty cell. -/
def digitAt (t : Table) (i j : Nat) : Option Nat :=
  match getCell t i j with
  | SudokuCell.Empty => none
  | SudokuCell.Filled d => some d

/-- Rust `table.contents_mut()[x][y] = c`. -/
def setCell (t : Table) (ℓ : CellLocation) (c : SudokuCell) : Table :=
  t.set ℓ.row ((t.getD ℓ.row []).set ℓ.col c)

/-- The parse errors of `SudokuTable::from_string`, one constructor per
distinct error string produced by the Rust code.  `TooFewLines` records the
number of lines found (the Rust message interpolates it), and
`IllegalCharacter` records the offending character. -/
inductive ParseError where
  | TooManyLines : ParseError
  | BadLineLength : ParseError
  | IllegalCharacter : Char → ParseError
  | TooFewLines : Nat → ParseError
  | InvalidPuzzle : ParseError
deriving DecidableEq, Repr

/-- The per-character match inside `extract_row_from_line`:
`'1'..='9'` maps to `Filled(digit)`, `'X'` to `Empty`, anything else is an
illegal character. -/
def charToCell (c : Char) : Except ParseError SudokuCell :=
  if '1' ≤ c ∧ c ≤ '9' then Except.ok (SudokuCell.Filled (c.toNat - '0'.toNat))
  else if c = 'X' then Except.ok SudokuCell.Empty
  else Except.error (ParseError.IllegalCharacter c)

/-- The character loop of `extract_row_from_line`: convert the characters
in order, returning the first error. -/
def extractCells : List Char → Except ParseError (List SudokuCell)
  | [] => Except.ok []
  | c :: cs =>
    match charToCell c with
    | Except.error e => Except.error e
    | Except.ok cell =>
      match extractCells cs with
      | Except.error e => Except.error e
      | Except.ok rest => Except.ok (cell :: rest)

/-- Rust `line.len()`: the UTF-8 byte length of the line. -/
def lineByteLength (line : List Char) : Nat :=
  (line.map Char.utf8Size).sum

/-- `SudokuTable::extract_row_from_line`. -/
def extractRowFromLine (line : List Char) : Except ParseError (List SudokuCell) :=
  if lineByteLength line ≠ 9 then Except.error ParseError.BadLineLength
  else extractCells line

/-- The iterator chain in `SudokuTable::from_string`:
`table_str.map(extract_row_from_line).enumerate().map(too-many-check).collect()`.
`collect` over `Result` stops at the first error; a line with index ≥ 9 is
turned into the too-many-lines error regardless of its own parse result. -/
def collectRows : List (List Char) → Nat → Except ParseError (List (List SudokuCell))
  | [], _ => Except.ok []
  | l :: ls, i =>
    match (if 9 ≤ i then Except.error ParseError.TooManyLines
           else extractRowFromLine l) with
    | Except.error e => Except.error e
    | Except.ok row =>
      match collectRows ls (i + 1) with
      | Except.error e => Except.error e
      | Except.ok rest => Except.ok (row :: rest)

/-- The digit-collecting pattern of `are_rows_valid`: the filled digits of
row `i`, scanning columns `0..9` in order. -/
def rowDigitsAt (t : Table) (i : Nat) : List Nat :=
  (List.range 9).filterMap (fun j => digitAt t i j)

/-- The digit-collecting pattern of `are_cols_valid`: the filled digits of
column `j`, scanning rows `0..9` in order. -/
def colDigitsAt (t : Table) (j : Nat) : List Nat :=
  (List.range 9).filterMap (fun i => digitAt t i j)

/-- The nested `for i in 0..3 { for j in 0..3 { ... } }` index pairs, in
loop order. -/
def boxOffsets : List (Nat × Nat) :=
  [(0, 0), (0, 1), (0, 2), (1, 0), (1, 1), (1, 2), (2, 0), (2, 1), (2, 2)]

/-- `SudokuTable::get_3_by_3_cell`: the filled digits of the 3x3 box with
box index (r, c), in loop order. -/
def boxDigitsAt (t : Table) (r c : Nat) : List Nat :=
  boxOffsets.filterMap (fun p => digitAt t (3 * r + p.1) (3 * c + p.2))

/-- `SudokuTable::are_distinct_digits`, presence-table loop.  `none` means
the Rust code panics: `*digit as usize - 1` underflows for digit 0, and
`digit_exists[digit]` is out of bounds for digits above 9. -/
def areDistinctDigitsAux : List Nat → List Bool → Option Bool
  | [], _ => some true
  | d :: ds, arr =>
    if 1 ≤ d ∧ d ≤ 9 then
      if arr.getD (d - 1) false then some false
      else areDistinctDigitsAux ds (arr.set (d - 1) true)
    else none

/-- `SudokuTable::are_distinct_digits` with its fresh `[false; 9]` table. -/
def areDistinctDigits (ds : List Nat) : Option Bool :=
  areDistinctDigitsAux ds (List.replicate 9 false)

/-- The shared shape of `are_rows_valid` / `are_cols_valid` /
`are_3_by_3_cells_valid`: check each unit's digit list in order, returning
`false` at the first duplicate (and propagating a panic). -/
def allUnitsDistinct : List (List Nat) → Option Bool
  | [] => some true
  | u :: us =>
    match areDistinctDigits u with
    | none => none
    | some false => some false
    | some true => allUnitsDistinct us

/-- `SudokuTable::are_rows_valid`. -/
def areRowsValid (t : Table) : Option Bool :=
  allUnitsDistinct ((List.range 9).map (fun i => rowDigitsAt t i))

/-- `SudokuTable::are_cols_valid`. -/
def areColsValid (t : Table) : Option Bool :=
  allUnitsDistinct ((List.range 9).map (fun j => colDigitsAt t j))

/-- `SudokuTable::are_3_by_3_cells_valid` (boxes scanned in the same nested
loop order as `boxOffsets`). -/
def are3By3CellsValid (t : Table) : Option Bool :=
  allUnitsDistinct (boxOffsets.map (fun p => boxDigitsAt t p.1 p.2))

/-- `SudokuTable::is_valid_sudoku`, with Rust's short-circuiting `&&`. -/
def isValidSudoku (t : Table) : Option Bool :=
  match areRowsValid t with
  | none => none
  | some false => some false
  | some true =>
    match areColsValid t with
    | none => none
    | some false => some false
    | some true => are3By3CellsValid t

/-- `SudokuTable::from_string`.  The outer `Option` models a panic (which
in fact never happens; see the safety claim); the `Except` carries the
parse errors the Rust function returns. -/
def fromString (lines : List (List Char)) : Option (Except ParseError Table) :=
  match collectRows lines 0 with
  | Except.error e => some (Except.error e)
  | Except.ok contents =>
    if contents.length < 9 then
      some (Except.error (ParseError.TooFewLines contents.length))
    else
      match isValidSudoku contents with
      | none => none
      | some false => some (Except.error ParseError.InvalidPuzzle)
      | some true => some (Except.ok contents)

/-- `RecursionState` from src/sudoku/solver.rs. -/
structure RecursionState where
  attempted_cell : CellLocation
  possible_values : List Nat
deriving DecidableEq, Repr

/-- `SudokuSolver` from src/sudoku/solver.rs.  The head of
`recursion_stack` is the top of the Rust `Vec` (its last element). -/
structure SudokuSolver where
  table : Table
  recursion_stack : List RecursionState
deriving DecidableEq, Repr

/-- The inner column loop of `next_empty_cell_starting_from`:
`for j in starting_col..self.table.contents().len()`. -/
def scanRowForEmpty (t : Table) (i sc : Nat) : Option CellLocation :=
  (List.range' sc (t.length - sc)).findSome?
    (fun j => if getCell t i j = SudokuCell.Empty then some ⟨i, j⟩ else none)

/-- `SudokuSolver::next_empty_cell_starting_from`: row-major scan for the
first empty cell at or after the given location (the starting column is
used only in the starting row). -/
def nextEmptyCellStartingFrom (t : Table) (ℓ : CellLocation) : Option CellLocation :=
  (List.range' ℓ.row (t.length - ℓ.row)).findSome?
    (fun i => scanRowForEmpty t i (if ℓ.row < i then 0 else ℓ.col))

/-- `mark_array[value - 1] = true` for one filled digit; `none` models the
panic for a digit outside 1..9 (usize underflow / index out of bounds). -/
def markDigit (d : Nat) (arr : List Bool) : Option (List Bool) :=
  if 1 ≤ d ∧ d ≤ 9 then some (arr.set (d - 1) true) else none

/-- The shared loop of the three `mark_existing_*` helpers: mark every
filled digit of the given cell sequence in the presence table. -/
def markCells : List SudokuCell → List Bool → Option (List Bool)
  | [], arr => some arr
  | SudokuCell.Empty :: cs, arr => markCells cs arr
  | SudokuCell.Filled d :: cs, arr =>
    match markDigit d arr with
    | none => none
    | some arr' => markCells cs arr'

/-- `SudokuSolver::index_of_3_by_3_cell`. -/
def indexOf3By3Cell (ℓ : CellLocation) : CellLocation :=
  ⟨ℓ.row / 3, ℓ.col / 3⟩

/-- `SudokuSolver::cells_inside_3_by_3_cell`, the explicit nine-element
array from the source, in the same order. -/
def cellsInside3By3Cell (b : CellLocation) : List CellLocation :=
  [⟨b.row * 3, b.col * 3⟩, ⟨b.row * 3, b.col * 3 + 1⟩, ⟨b.row * 3, b.col * 3 + 2⟩,
   ⟨b.row * 3 + 1, b.col * 3⟩, ⟨b.row * 3 + 1, b.col * 3 + 1⟩, ⟨b.row * 3 + 1, b.col * 3 + 2⟩,
   ⟨b.row * 3 + 2, b.col * 3⟩, ⟨b.row * 3 + 2, b.col * 3 + 1⟩, ⟨b.row * 3 + 2, b.col * 3 + 2⟩]

/-- The row cells visited by `mark_existing_row_values_in_array`. -/
def rowCellsOf (t : Table) (i : Nat) : List SudokuCell := t.getD i []

/-- The column cells visited by `mark_existing_col_values_in_array`
(`row[col_index]` for each row in order). -/
def colCellsOf (t : Table) (j : Nat) : List SudokuCell :=
  t.map (fun row => row.getD j SudokuCell.Empty)

/-- The box cells visited by
`mark_existing_values_spanning_3_by_3_cell_in_array`. -/
def boxCellsOf (t : Table) (ℓ : CellLocation) : List SudokuCell :=
  (cellsInside3By3Cell (indexOf3By3Cell ℓ)).map (fun c => getCell t c.row c.col)

/-- `SudokuSolver::possible_values`: mark the digits present in the cell's
row, column and 3x3 box, then collect the unmarked digits (ascending). -/
def possibleValues (t : Table) (ℓ : CellLocation) : Option (List Nat) :=
  match markCells (rowCellsOf t ℓ.row) (List.replicate 9 false) with
  | none => none
  | some a1 =>
    match markCells (colCellsOf t ℓ.col) a1 with
    | none => none
    | some a2 =>
      match markCells (boxCellsOf t ℓ) a2 with
      | none => none
      | some a3 =>
        some ((a3.enum.filter (fun x => !x.2)).map (fun x => x.1 + 1))

/-- `SudokuSolver::try_next_possible_value`: take the LAST remaining
candidate (the Vec is consumed from its high end), write it at the frame's
cell, and pop it from the pool; `none` is the `Err(())` case (pool empty). -/
def tryNextPossibleValue (t : Table) (st : RecursionState) :
    Option (Table × RecursionState) :=
  match st.possible_values.getLast? with
  | some v =>
    some (setCell t st.attempted_cell (SudokuCell.Filled v),
          ⟨st.attempted_cell, st.possible_values.dropLast⟩)
  | none => none

/-- `SudokuSolver::presolve_next_empty_cell`.  Outer `none` = panic inside
`possible_values`; `some none` = `Err(())` (no empty cell remains);
`some (some st)` = `Ok(st)`. -/
def presolveNextEmptyCell (t : Table) (st : RecursionState) :
    Option (Option RecursionState) :=
  match nextEmptyCellStartingFrom t ⟨st.attempted_cell.row, st.attempted_cell.col + 1⟩ with
  | none => some none
  | some cell =>
    match possibleValues t cell with
    | none => none
    | some pv => some (some ⟨cell, pv⟩)

/-- `SudokuSolver::clear_last_try`: pop the top frame and reset its cell to
`Empty`; `none` models the `pop().unwrap()` panic on an empty stack. -/
def clearLastTry (stack : List RecursionState) (t : Table) :
    Option (List RecursionState × Table) :=
  match stack with
  | [] => none
  | st :: rest => some (rest, setCell t st.attempted_cell SudokuCell.Empty)

/-- The outcome of one iteration of the `while let` loop in
`Iterator::next`. -/
inductive StepRes where
  | cont : SudokuSolver → StepRes
  | emit : Table → SudokuSolver → StepRes
  | stop : SudokuSolver → StepRes
deriving DecidableEq, Repr

/-- One iteration of the `while let Some(last_state) = ...` loop of
`Iterator::next` (`none` = panic inside the iteration):
exit the loop if the stack is empty; otherwise try the top frame's next
candidate, then either descend to the next empty cell, emit the completed
table, or backtrack when the candidate pool is exhausted. -/
def solverStep (s : SudokuSolver) : Option StepRes :=
  match s.recursion_stack with
  | [] => some (StepRes.stop s)
  | top :: rest =>
    match tryNextPossibleValue s.table top with
    | some (t', top') =>
      match (top' :: rest).head? with
      | none => none
      | some last_state =>
        match presolveNextEmptyCell t' last_state with
        | none => none
        | some (some presolved) =>
          some (StepRes.cont ⟨t', presolved :: top' :: rest⟩)
        | some none => some (StepRes.emit t' ⟨t', top' :: rest⟩)
    | none =>
      match clearLastTry (top :: rest) s.table with
      | none => none
      | some (stack', t') => some (StepRes.cont ⟨t', stack'⟩)

/-- Result of a whole `Iterator::next` call: a yielded table, loop exit
with an empty stack, a panic, or fuel exhaustion (shown unreachable for
the fuel used by `SudokuSolver.next`). -/
inductive NextRes where
  | emit : Table → SudokuSolver → NextRes
  | stop : SudokuSolver → NextRes
  | panic : NextRes
  | outOfFuel : NextRes
deriving DecidableEq, Repr

/-- The `Iterator::next` loop, iterated with explicit fuel. -/
def nextFuel : Nat → SudokuSolver → NextRes
  | 0, _ => NextRes.outOfFuel
  | n + 1, s =>
    match solverStep s with
    | none => NextRes.panic
    | some (StepRes.stop s') => NextRes.stop s'
    | some (StepRes.emit t s') => NextRes.emit t s'
    | some (StepRes.cont s') => nextFuel n s'

/-- Termination measure: the stack read bottom-first, each frame
contributing `(pool size + 1) * 11 ^ exponent` with exponents decreasing
from 81 towards the top of the stack. -/
def measAux : List RecursionState → Nat → Nat
  | [], _ => 0
  | f :: rest, e => (f.possible_values.length + 1) * 11 ^ e + measAux rest (e - 1)

/-- Termination measure of a solver state. -/
def solverMeasure (s : SudokuSolver) : Nat :=
  measAux s.recursion_stack.reverse 81

/-- `SudokuSolver::new`: clone the table; if it has an empty cell, push the
initial frame for the first one (row-major), with its candidate pool. -/
def SudokuSolver.new (t : Table) : Option SudokuSolver :=
  match nextEmptyCellStartingFrom t ⟨0, 0⟩ with
  | none => some ⟨t, []⟩
  | some cell =>
    match possibleValues t cell with
    | none => none
    | some pv => some ⟨t, [⟨cell, pv⟩]⟩

/-- One advancement (`Iterator::next` call).  The fuel `solverMeasure s + 1`
is proved sufficient, so this is the exact result of the Rust loop. -/
def SudokuSolver.next (s : SudokuSolver) : NextRes :=
  nextFuel (solverMeasure s + 1) s

/-! ### Specification-side predicates -/

/-- A cell is well formed when a filled digit lies in 1..9 (guaranteed for
every cell produced by parsing). -/
def cellWF : SudokuCell → Prop
  | SudokuCell.Empty => True
  | SudokuCell.Filled d => 1 ≤ d ∧ d ≤ 9

instance : DecidablePred cellWF := fun c =>
  match c with
  | SudokuCell.Empty => isTrue trivial
  | SudokuCell.Filled d => inferInstanceAs (Decidable (1 ≤ d ∧ d ≤ 9))

/-- Structural well-formedness: a 9x9 table whose filled digits are 1..9. -/
def wfTable (t : Table) : Prop :=
  t.length = 9 ∧ ∀ i < 9, (t.getD i []).length = 9 ∧ ∀ j < 9, cellWF (getCell t i j)

instance : DecidablePred wfTable := fun t => by unfold wfTable; infer_instance

/-- Row-major index of a location. -/
def rmIdx (ℓ : CellLocation) : Nat := ℓ.row * 9 + ℓ.col

/-- No cell of the 9x9 board is empty. -/
def noEmptyCell (t : Table) : Prop :=
  ∀ i < 9, ∀ j < 9, getCell t i j ≠ SudokuCell.Empty

instance : DecidablePred noEmptyCell := fun t => by unfold noEmptyCell; infer_instance

/-- No digit occurs twice in any row. -/
def RowsOK (t : Table) : Prop :=
  ∀ i < 9, ∀ j₁ < 9, ∀ j₂ < 9, j₁ ≠ j₂ → ∀ d, digitAt t i j₁ = some d →
    digitAt t i j₂ = some d → False

/-- No digit occurs twice in any column. -/
def ColsOK (t : Table) : Prop :=
  ∀ j < 9, ∀ i₁ < 9, ∀ i₂ < 9, i₁ ≠ i₂ → ∀ d, digitAt t i₁ j = some d →
    digitAt t i₂ j = some d → False

/-- No digit occurs twice in any 3x3 box. -/
def BoxesOK (t : Table) : Prop :=
  ∀ i₁ < 9, ∀ j₁ < 9, ∀ i₂ < 9, ∀ j₂ < 9, i₁ / 3 = i₂ / 3 → j₁ / 3 = j₂ / 3 →
    ¬(i₁ = i₂ ∧ j₁ = j₂) → ∀ d, digitAt t i₁ j₁ = some d →
    digitAt t i₂ j₂ = some d → False

/-- The mathematical reading of Sudoku validity: no digit repeated in any
row, column, or 3x3 box (empty cells ignored). -/
def TableOK (t : Table) : Prop := RowsOK t ∧ ColsOK t ∧ BoxesOK t

/-- (i, j) lies in the row, column, or 3x3 box of `ℓ`. -/
def inUnit (ℓ : CellLocation) (i j : Nat) : Prop :=
  i = ℓ.row ∨ j = ℓ.col ∨ (i / 3 = ℓ.row / 3 ∧ j / 3 = ℓ.col / 3)

/-! ### Layer 6: the solver invariant -/

/-- Pool freshness: processing the stack from the top, each frame's
remaining candidates are absent from the frame's row/column/box in the
current table, ignoring the cells of the frame itself and of all frames
above it (`excl` accumulates those). -/
def PoolsOK (t : Table) : List RecursionState → List CellLocation → Prop
  | [], _ => True
  | f :: rest, excl =>
    (∀ v ∈ f.possible_values, ∀ i j, i < 9 → j < 9 →
      inUnit f.attempted_cell i j →
      (∀ m ∈ (f.attempted_cell :: excl), CellLocation.mk i j ≠ m) →
      digitAt t i j ≠ some v) ∧
    PoolsOK t rest (f.attempted_cell :: excl)

/-- The inductive invariant of the solver, relative to the input table. -/
structure Inv (g : Table) (s : SudokuSolver) : Prop where
  wf : wfTable s.table
  givens : ∀ i j d, digitAt g i j = some d → digitAt s.table i j = some d
  valid : TableOK s.table
  locs : ∀ f ∈ s.recursion_stack, f.attempted_cell.row < 9 ∧
    f.attempted_cell.col < 9 ∧
    getCell g f.attempted_cell.row f.attempted_cell.col = SudokuCell.Empty
  desc : s.recursion_stack.Pairwise
    (fun a b => rmIdx b.attempted_cell < rmIdx a.attempted_cell)
  pools : ∀ f ∈ s.recursion_stack, ∀ v ∈ f.possible_values, 1 ≤ v ∧ v ≤ 9
  empties : ∀ top rest, s.recursion_stack = top :: rest → ∀ i j, i < 9 → j < 9 →
    getCell s.table i j = SudokuCell.Empty → rmIdx top.attempted_cell ≤ i * 9 + j
  fresh : PoolsOK s.table s.recursion_stack []

/-! ### Layer 9: reachability and the advancement loop -/

/-- States reachable from the solver constructed on `g`: the initial state
and everything produced by loop iterations across all advancement calls
(emission hands the post-emission state to the following call). -/
inductive Reaches (g : Table) : SudokuSolver → Prop where
  | init (s : SudokuSolver) : SudokuSolver.new g = some s → Reaches g s
  | cont (s s' : SudokuSolver) : Reaches g s →
      solverStep s = some (StepRes.cont s') → Reaches g s'
  | emit (s s' : SudokuSolver) (t : Table) : Reaches g s →
      solverStep s = some (StepRes.emit t s') → Reaches g s'

/-- `t` is one of the grids yielded by the solver built on input `g`. -/
def Emits (g t : Table) : Prop :=
  ∃ s s', Reaches g s ∧ solverStep s = some (StepRes.emit t s')

/-! ### Layer 10: the parser -/

/-- The legal puzzle characters, as the spec lists them: the digits
`'1'..'9'` and `'X'`. -/
def goodChar (c : Char) : Prop :=
  c ∈ ['1', '2', '3', '4', '5', '6', '7', '8', '9', 'X']

instance : DecidablePred goodChar := fun c => by unfold goodChar; infer_instance

/-- A structurally legal line: exactly 9 characters, all legal. -/
def goodLine (l : List Char) : Prop := l.length = 9 ∧ ∀ c ∈ l, goodChar c

instance : DecidablePred goodLine := fun l => by unfold goodLine; infer_instance

/-- The cell a legal character denotes, per the spec's wording (`'X'` maps
to Empty, a digit to the corresponding Filled cell).  Used to state the
parsing claim's "resulting grid". -/
def specCellOfChar (c : Char) : SudokuCell :=
  if c = 'X' then SudokuCell.Empty else SudokuCell.Filled (c.toNat - 48)

/-- The grid a structurally legal input denotes, row by row. -/
def specGridOfLines (lines : List (List Char)) : Table :=
  lines.map (fun l => l.map specCellOfChar)

/-! ### Concrete test data and claim witnesses -/

/-- The fully solved grid from the repository's tests (first row 391867542). -/
def fullSolutionGrid : Table := [
   [.Filled 3, .Filled 9, .Filled 1, .Filled 8, .Filled 6, .Filled 7, .Filled 5, .Filled 4, .Filled 2],
   [.Filled 2, .Filled 8, .Filled 6, .Filled 5, .Filled 3, .Filled 4, .Filled 7, .Filled 1, .Filled 9],
   [.Filled 4, .Filled 5, .Filled 7, .Filled 2, .Filled 9, .Filled 1, .Filled 3, .Filled 8, .Filled 6],
   [.Filled 1, .Filled 2, .Filled 9, .Filled 6, .Filled 4, .Filled 5, .Filled 8, .Filled 7, .Filled 3],
   [.Filled 6, .Filled 3, .Filled 8, .Filled 1, .Filled 7, .Filled 9, .Filled 2, .Filled 5, .Filled 4],
   [.Filled 7, .Filled 4, .Filled 5, .Filled 3, .Filled 2, .Filled 8, .Filled 6, .Filled 9, .Filled 1],
   [.Filled 9, .Filled 7, .Filled 2, .Filled 4, .Filled 8, .Filled 6, .Filled 1, .Filled 3, .Filled 5],
   [.Filled 5, .Filled 6, .Filled 4, .Filled 7, .Filled 1, .Filled 3, .Filled 9, .Filled 2, .Filled 8],
   [.Filled 8, .Filled 1, .Filled 3, .Filled 9, .Filled 5, .Filled 2, .Filled 4, .Filled 6, .Filled 7]]

/-- The solved grid with cell (0, 0) emptied: a puzzle with exactly one
empty cell whose unique candidate is 3. -/
def oneHoleGrid : Table := [
   [.Empty, .Filled 9, .Filled 1, .Filled 8, .Filled 6, .Filled 7, .Filled 5, .Filled 4, .Filled 2],
   [.Filled 2, .Filled 8, .Filled 6, .Filled 5, .Filled 3, .Filled 4, .Filled 7, .Filled 1, .Filled 9],
   [.Filled 4, .Filled 5, .Filled 7, .Filled 2, .Filled 9, .Filled 1, .Filled 3, .Filled 8, .Filled 6],
   [.Filled 1, .Filled 2, .Filled 9, .Filled 6, .Filled 4, .Filled 5, .Filled 8, .Filled 7, .Filled 3],
   [.Filled 6, .Filled 3, .Filled 8, .Filled 1, .Filled 7, .Filled 9, .Filled 2, .Filled 5, .Filled 4],
   [.Filled 7, .Filled 4, .Filled 5, .Filled 3, .Filled 2, .Filled 8, .Filled 6, .Filled 9, .Filled 1],
   [.Filled 9, .Filled 7, .Filled 2, .Filled 4, .Filled 8, .Filled 6, .Filled 1, .Filled 3, .Filled 5],
   [.Filled 5, .Filled 6, .Filled 4, .Filled 7, .Filled 1, .Filled 3, .Filled 9, .Filled 2, .Filled 8],
   [.Filled 8, .Filled 1, .Filled 3, .Filled 9, .Filled 5, .Filled 2, .Filled 4, .Filled 6, .Filled 7]]

/-- The well-formed puzzle input from the repository's parsing test. -/
def c7goodLines : List (List Char) := [
   ['3', 'X', '6', '5', 'X', '8', '4', 'X', 'X'],
   ['5', '2', 'X', 'X', 'X', 'X', 'X', 'X', 'X'],
   ['X', '8', '7', 'X', 'X', 'X', 'X', '3', '1'],
   ['X', 'X', '3', 'X', '1', 'X', 'X', '8', 'X'],
   ['9', 'X', 'X', '8', '6', '3', 'X', 'X', '5'],
   ['X', '5', 'X', 'X', '9', 'X', '6', 'X', 'X'],
   ['1', '3', 'X', 'X', 'X', 'X', '2', '5', 'X'],
   ['X', 'X', 'X', 'X', 'X', 'X', 'X', '7', '4'],
   ['X', 'X', '5', '2', 'X', '6', '3', 'X', 'X']]

/-- The first seven (well-formed) lines preceding a bad-length line. -/
def c7preLines : List (List Char) := [
   ['3', 'X', '6', '5', 'X', '8', '4', 'X', 'X'],
   ['5', '2', 'X', 'X', 'X', 'X', 'X', 'X', 'X'],
   ['X', '8', '7', 'X', 'X', 'X', 'X', '3', '1'],
   ['X', 'X', '3', 'X', '1', 'X', 'X', '8', 'X'],
   ['9', 'X', 'X', '8', '6', '3', 'X', 'X', '5'],
   ['X', '5', 'X', 'X', '9', 'X', '6', 'X', 'X'],
   ['1', '3', 'X', 'X', 'X', 'X', '2', '5', 'X']]

/-- An eight-character line (one character short). -/
def c7badLine : List Char := ['X', 'X', 'X', 'X', 'X', 'X', 'X', '7']

/-- The lines following the bad-length line. -/
def c7postLines : List (List Char) := [
   ['X', 'X', '5', '2', 'X', '6', '3', 'X', 'X']]

/-- A well-formed input with only 8 lines. -/
def c7eightLines : List (List Char) := [
   ['3', 'X', '6', '5', 'X', '8', '4', 'X', 'X'],
   ['5', '2', 'X', 'X', 'X', 'X', 'X', 'X', 'X'],
   ['X', '8', '7', 'X', 'X', 'X', 'X', '3', '1'],
   ['X', 'X', '3', 'X', '1', 'X', 'X', '8', 'X'],
   ['9', 'X', 'X', '8', '6', '3', 'X', 'X', '5'],
   ['X', '5', 'X', 'X', '9', 'X', '6', 'X', 'X'],
   ['1', '3', 'X', 'X', 'X', 'X', '2', '5', 'X'],
   ['X', 'X', '5', '2', 'X', '6', '3', 'X', 'X']]

/-- A structurally well-formed 9x9 input with a repeated digit (two 3s)
in its last row. -/
def c7dupLines : List (List Char) := [
   ['3', 'X', '6', '5', 'X', '8', '4', 'X', 'X'],
   ['5', '2', 'X', 'X', 'X', 'X', 'X', 'X', 'X'],
   ['X', '8', '7', 'X', 'X', 'X', 'X', '3', '1'],
   ['X', 'X', '3', 'X', '1', 'X', 'X', '8', 'X'],
   ['9', 'X', 'X', '8', '6', '3', 'X', 'X', '5'],
   ['X', '5', 'X', 'X', '9', 'X', '6', 'X', 'X'],
   ['1', '3', 'X', 'X', 'X', 'X', '2', '5', 'X'],
   ['X', 'X', 'X', 'X', 'X', 'X', 'X', '7', '4'],
   ['X', 'X', '5', '2', 'X', '6', '3', 'X', '3']]

/-! ### Layer 10: a packed fast model for the concrete C9 runs

The solver loop on the test puzzle takes about 163000 iterations, far too
many to evaluate on the list-based embedding.  This layer builds a packed
model whose state is a handful of `Nat`s (grid in 4-bit fields, empty-cell
bitset, row/column/box used-digit masks, and candidate pools as 9-bit
masks), proves it a step-by-step refinement of `solverStep` under the
invariant, and evaluates it in chunks on the concrete puzzle. -/

/-- The 4-bit digit field of packed grid `g` at cell position `p`. -/
def digAt (g p : Nat) : Nat := g >>> (4 * p) &&& 15

/-- Row index of a cell position. -/
def rowIx (p : Nat) : Nat := p / 9

/-- Column index of a cell position. -/
def colIx (p : Nat) : Nat := p % 9

/-- Box index of a cell position. -/
def boxIx (p : Nat) : Nat := p / 27 * 3 + p % 9 / 3

/-- Highest set bit of a 9-bit mask (0 for 0), by binary search. -/
def hiBit9 (m : Nat) : Nat :=
  if 16 ≤ m then
    (if 64 ≤ m then (if 256 ≤ m then 8 else if 128 ≤ m then 7 else 6)
     else if 32 ≤ m then 5 else 4)
  else
    (if 4 ≤ m then (if 8 ≤ m then 3 else 2)
     else if 2 ≤ m then 1 else 0)

/-- Scan a bitset for the first set bit at position ≥ `p`, with a
countdown of remaining positions. -/
def scanAux (e : Nat) : Nat → Nat → Option Nat
  | _, 0 => none
  | p, n + 1 => if e.testBit p then some p else scanAux e (p + 1) n

/-- First set bit of `e` at position in `[p, 81)`. -/
def fscan (e p : Nat) : Option Nat := scanAux e p (81 - p)

/-- Packed solver state: grid digits in 4-bit fields, empty cells as a
bitset, used-digit masks per row/column/box in 9-bit fields, and the
recursion stack as (cell position, candidate-pool mask) pairs. -/
structure FS where
  grid : Nat
  emp : Nat
  rows : Nat
  cols : Nat
  boxes : Nat
  stack : List (Nat × Nat)
deriving DecidableEq, Repr

/-- Candidate-pool mask at position `p` from the three used-digit masks. -/
def poolAt (r c b p : Nat) : Nat :=
  511 ^^^ (((r >>> (9 * rowIx p)) &&& 511) |||
           ((c >>> (9 * colIx p)) &&& 511) |||
           ((b >>> (9 * boxIx p)) &&& 511))

/-- Packed analogue of writing digit `d` at position `p` (stack replaced
by `st`): toggle the old digit out of, and the new digit into, the grid
field, the empty bitset and the three masks. -/
def fwrite (fs : FS) (st : List (Nat × Nat)) (p d : Nat) : FS :=
  match digAt fs.grid p with
  | 0 =>
    { grid := fs.grid ^^^ (d <<< (4 * p)),
      emp := fs.emp ^^^ (1 <<< p),
      rows := fs.rows ^^^ (1 <<< (9 * rowIx p + (d - 1))),
      cols := fs.cols ^^^ (1 <<< (9 * colIx p + (d - 1))),
      boxes := fs.boxes ^^^ (1 <<< (9 * boxIx p + (d - 1))),
      stack := st }
  | o + 1 =>
    { grid := fs.grid ^^^ ((o + 1) <<< (4 * p)) ^^^ (d <<< (4 * p)),
      emp := fs.emp,
      rows := fs.rows ^^^ (1 <<< (9 * rowIx p + o)) ^^^ (1 <<< (9 * rowIx p + (d - 1))),
      cols := fs.cols ^^^ (1 <<< (9 * colIx p + o)) ^^^ (1 <<< (9 * colIx p + (d - 1))),
      boxes := fs.boxes ^^^ (1 <<< (9 * boxIx p + o)) ^^^ (1 <<< (9 * boxIx p + (d - 1))),
      stack := st }

/-- Packed analogue of `clear_last_try` at position `p` with remaining
stack `rest`. -/
def fclear (fs : FS) (rest : List (Nat × Nat)) (p : Nat) : FS :=
  match digAt fs.grid p with
  | 0 =>
    { grid := fs.grid, emp := fs.emp, rows := fs.rows, cols := fs.cols,
      boxes := fs.boxes, stack := rest }
  | o + 1 =>
    { grid := fs.grid ^^^ ((o + 1) <<< (4 * p)),
      emp := fs.emp ^^^ (1 <<< p),
      rows := fs.rows ^^^ (1 <<< (9 * rowIx p + o)),
      cols := fs.cols ^^^ (1 <<< (9 * colIx p + o)),
      boxes := fs.boxes ^^^ (1 <<< (9 * boxIx p + o)),
      stack := rest }

/-- Outcome of one packed loop iteration. -/
inductive FStep where
  | cont : FS → FStep
  | emit : Nat → FS → FStep
  | stop : FS → FStep

/-- One packed loop iteration, mirroring `solverStep`. -/
def fstep (fs : FS) : FStep :=
  match fs.stack with
  | [] => FStep.stop fs
  | (p, m) :: rest =>
    if m = 0 then FStep.cont (fclear fs rest p)
    else
      match hiBit9 m with
      | h =>
        match fwrite fs ((p, m ^^^ (1 <<< h)) :: rest) p (h + 1) with
        | fs1 =>
          match fscan fs1.emp (p + 1) with
          | some p2 =>
            FStep.cont ⟨fs1.grid, fs1.emp, fs1.rows, fs1.cols, fs1.boxes,
              (p2, poolAt fs1.rows fs1.cols fs1.boxes p2) :: fs1.stack⟩
          | none => FStep.emit fs1.grid fs1

/-- Result of a fuelled packed run; `oof` carries the state reached so
that runs compose. -/
inductive FRes where
  | emit : Nat → FS → FRes
  | stop : FS → FRes
  | oof : FS → FRes
deriving DecidableEq, Repr

/-- Fuelled packed run (plain `Nat.rec` so that the kernel evaluates it
iteratively). -/
def ffuel (n : Nat) : FS → FRes :=
  Nat.rec (motive := fun _ => FS → FRes)
    (fun fs => FRes.oof fs)
    (fun _ ih fs =>
      match fstep fs with
      | FStep.cont fs2 => ih fs2
      | FStep.emit g fs2 => FRes.emit g fs2
      | FStep.stop fs2 => FRes.stop fs2)
    n

/-- Concatenate field values of width `W` into one number, first entry in
the lowest bits. -/
def packUnits (W : Nat) : List Nat → Nat
  | [] => 0
  | m :: ms => m ^^^ (packUnits W ms <<< W)

/-- Numeric value of a cell digit (0 for empty). -/
def cellDig : SudokuCell → Nat
  | SudokuCell.Empty => 0
  | SudokuCell.Filled d => d

/-- Empty-cell indicator bit of a cell. -/
def cellEmp : SudokuCell → Nat
  | SudokuCell.Empty => 1
  | SudokuCell.Filled _ => 0

/-- Used-digit mask bit of a cell. -/
def cellMask : SudokuCell → Nat
  | SudokuCell.Empty => 0
  | SudokuCell.Filled d => 1 <<< (d - 1)

/-- Packed grid of a table: 4 bits per cell, 36 per row. -/
def encGrid (t : Table) : Nat :=
  packUnits 36 (t.map (fun r => packUnits 4 (r.map cellDig)))

/-- Packed empty-cell bitset of a table. -/
def encEmp (t : Table) : Nat :=
  packUnits 9 (t.map (fun r => packUnits 1 (r.map cellEmp)))

/-- The cell positions of row unit `i`. -/
def unitCellsRow (i : Nat) : List (Nat × Nat) :=
  (List.range 9).map (fun j => (i, j))

/-- The cell positions of column unit `j`. -/
def unitCellsCol (j : Nat) : List (Nat × Nat) :=
  (List.range 9).map (fun i => (i, j))

/-- The cell positions of box unit `b`, in the loop order of the source. -/
def unitCellsBox (b : Nat) : List (Nat × Nat) :=
  boxOffsets.map (fun q => (b / 3 * 3 + q.1, b % 3 * 3 + q.2))

/-- Used-digit mask of the cells at the given positions. -/
def unitMaskAt (t : Table) (pl : List (Nat × Nat)) : Nat :=
  packUnits 0 (pl.map (fun q => cellMask (getCell t q.1 q.2)))

/-- Packed per-row used-digit masks of a table. -/
def rowsM (t : Table) : Nat :=
  packUnits 9 ((List.range 9).map (fun i => unitMaskAt t (unitCellsRow i)))

/-- Packed per-column used-digit masks of a table. -/
def colsM (t : Table) : Nat :=
  packUnits 9 ((List.range 9).map (fun j => unitMaskAt t (unitCellsCol j)))

/-- Packed per-box used-digit masks of a table. -/
def boxesM (t : Table) : Nat :=
  packUnits 9 ((List.range 9).map (fun b => unitMaskAt t (unitCellsBox b)))

/-- Pool mask of a candidate list. -/
def dmask : List Nat → Nat
  | [] => 0
  | d :: ds => (1 <<< (d - 1)) ^^^ dmask ds

/-- Packed image of a recursion frame. -/
def absFrame (f : RecursionState) : Nat × Nat :=
  (rmIdx f.attempted_cell, dmask f.possible_values)

/-- Packed image of a solver state. -/
def absFS (s : SudokuSolver) : FS :=
  ⟨encGrid s.table, encEmp s.table, rowsM s.table, colsM s.table,
    boxesM s.table, s.recursion_stack.map absFrame⟩

/-! ### Layer 10i: the concrete single-solution puzzle (claim C9 data) -/

/-- The concrete puzzle of the claim, row strings as character lists. -/
def c9lines : List (List Char) := [
  ['X', 'X', '1', 'X', 'X', 'X', 'X', 'X', '2'],
  ['X', 'X', 'X', 'X', '3', '4', 'X', 'X', 'X'],
  ['X', '5', 'X', 'X', 'X', '1', 'X', 'X', '6'],
  ['X', '2', 'X', '6', 'X', 'X', 'X', 'X', '3'],
  ['X', '3', 'X', 'X', 'X', 'X', 'X', '5', 'X'],
  ['7', 'X', 'X', 'X', 'X', '8', 'X', '9', 'X'],
  ['9', 'X', 'X', '4', 'X', 'X', 'X', '3', 'X'],
  ['X', 'X', 'X', '7', '1', 'X', 'X', 'X', 'X'],
  ['8', 'X', 'X', 'X', 'X', 'X', '4', 'X', 'X']]

/-- The parsed table of the concrete puzzle. -/
def c9grid : Table := [
  [SudokuCell.Empty, SudokuCell.Empty, SudokuCell.Filled 1, SudokuCell.Empty, SudokuCell.Empty, SudokuCell.Empty, SudokuCell.Empty, SudokuCell.Empty, SudokuCell.Filled 2],
  [SudokuCell.Empty, SudokuCell.Empty, SudokuCell.Empty, SudokuCell.Empty, SudokuCell.Filled 3, SudokuCell.Filled 4, SudokuCell.Empty, SudokuCell.Empty, SudokuCell.Empty],
  [SudokuCell.Empty, SudokuCell.Filled 5, SudokuCell.Empty, SudokuCell.Empty, SudokuCell.Empty, SudokuCell.Filled 1, SudokuCell.Empty, SudokuCell.Empty, SudokuCell.Filled 6],
  [SudokuCell.Empty, SudokuCell.Filled 2, SudokuCell.Empty, SudokuCell.Filled 6, SudokuCell.Empty, SudokuCell.Empty, SudokuCell.Empty, SudokuCell.Empty, SudokuCell.Filled 3],
  [SudokuCell.Empty, SudokuCell.Filled 3, SudokuCell.Empty, SudokuCell.Empty, SudokuCell.Empty, SudokuCell.Empty, SudokuCell.Empty, SudokuCell.Filled 5, SudokuCell.Empty],
  [SudokuCell.Filled 7, SudokuCell.Empty, SudokuCell.Empty, SudokuCell.Empty, SudokuCell.Empty, SudokuCell.Filled 8, SudokuCell.Empty, SudokuCell.Filled 9, SudokuCell.Empty],
  [SudokuCell.Filled 9, SudokuCell.Empty, SudokuCell.Empty, SudokuCell.Filled 4, SudokuCell.Empty, SudokuCell.Empty, SudokuCell.Empty, SudokuCell.Filled 3, SudokuCell.Empty],
  [SudokuCell.Empty, SudokuCell.Empty, SudokuCell.Empty, SudokuCell.Filled 7, SudokuCell.Filled 1, SudokuCell.Empty, SudokuCell.Empty, SudokuCell.Empty, SudokuCell.Empty],
  [SudokuCell.Filled 8, SudokuCell.Empty, SudokuCell.Empty, SudokuCell.Empty, SudokuCell.Empty, SudokuCell.Empty, SudokuCell.Filled 4, SudokuCell.Empty, SudokuCell.Empty]]

/-- The solver state produced by `SudokuSolver::new` on the concrete
puzzle: first empty cell (0, 0), candidate pool [3, 4, 6]. -/
def c9s0 : SudokuSolver := ⟨c9grid, [⟨⟨0, 0⟩, [3, 4, 6]⟩]⟩

/-- Packed state after 0 steps of the first advancement. -/
def c9fA0 : FS := ⟨33374801414850793099621591105213365962440754124736955262468098245535317902301468302666744463616, 2110673983267597880631035, 642846204475446049118211, 181995725967023044570560, 57348631204044999236113,
  [(0, 44)]⟩

/-- Packed state after 2500 steps of the first advancement. -/
def c9fA1 : FS := ⟨33374801414850793099621591105213365962440754124736955262468432180912903055598655503493051613588, 2110673983267597151371264, 642846204475449391710207, 787136914476615523020254, 57348631204048345759743,
  [(31, 256), (29, 0), (27, 1), (25, 0), (24, 0), (22, 0), (21, 0), (20, 0), (18, 0), (17, 0), (16, 0), (15, 1), (12, 0), (11, 0), (10, 32), (9, 0), (7, 0), (6, 0), (5, 0), (4, 16), (3, 16), (1, 224), (0, 4)]⟩

/-- Packed state after 5000 steps of the first advancement. -/
def c9fA2 : FS := ⟨33374801414850793099621591105213365962440754127802817847774757106315537181601088169422455406996, 2110673983265572074291200, 642846204495507023200255, 259415631692600560758255, 57348637978382284357631,
  [(41, 64), (40, 0), (39, 0), (38, 0), (36, 0), (34, 0), (33, 0), (32, 0), (31, 0), (29, 0), (27, 0), (25, 0), (24, 0), (22, 0), (21, 0), (20, 0), (18, 0), (17, 0), (16, 0), (15, 17), (12, 0), (11, 0), (10, 32), (9, 0), (7, 0), (6, 0), (5, 0), (4, 0), (3, 16), (1, 224), (0, 4)]⟩

/-- Packed state after 7500 steps of the first advancement. -/
def c9fA3 : FS := ⟨33374801414850793099621591105213365962440754124736955262468098245535317904686865472268307812756, 2110673983267597880393728, 642846204475446049374207, 787058516379435889765864, 57348631204045055294331,
  [(18, 4), (17, 0), (16, 0), (15, 1), (12, 0), (11, 0), (10, 0), (9, 2), (7, 0), (6, 0), (5, 0), (4, 96), (3, 0), (1, 224), (0, 4)]⟩

/-- Packed state after 10000 steps of the first advancement. -/
def c9fA4 : FS := ⟨33374801414850793099621591105213365962440754124736955918979454912833759018986988445967793475988, 2110673983267564939116544, 642846204475509655470079, 1392779272560973647392237, 57348637978137471221759,
  [(36, 0), (34, 0), (33, 0), (32, 64), (31, 0), (29, 0), (27, 0), (25, 0), (24, 0), (22, 0), (21, 128), (20, 0), (18, 2), (17, 0), (16, 0), (15, 1), (12, 0), (11, 2), (10, 64), (9, 2), (7, 0), (6, 0), (5, 0), (4, 32), (3, 0), (1, 224), (0, 4)]⟩

/-- Packed state after 12500 steps of the first advancement. -/
def c9fA5 : FS := ⟨33374801414850793099621591105213365962440754124736955264935893426606447721024975148105276543380, 2110673983267590708920320, 642846204475490328117247, 1392186664160435526610411, 57348631209027420815359,
  [(33, 128), (32, 16), (31, 0), (29, 24), (27, 0), (25, 0), (24, 0), (22, 0), (21, 0), (20, 0), (18, 0), (17, 0), (16, 0), (15, 1), (12, 0), (11, 2), (10, 0), (9, 2), (7, 0), (6, 0), (5, 0), (4, 32), (3, 0), (1, 224), (0, 4)]⟩

/-- Packed state after 15000 steps of the first advancement. -/
def c9fA6 : FS := ⟨33374801414850793099621591105213365962441139927691822678334925608908857707598101966658904478100, 2110673983241382818480128, 642846204509250918547455, 297194583328626974338558, 57348638298908043247615,
  [(44, 0), (42, 0), (41, 0), (40, 0), (39, 0), (38, 8), (36, 1), (34, 0), (33, 0), (32, 0), (31, 0), (29, 136), (27, 1), (25, 0), (24, 0), (22, 0), (21, 2), (20, 0), (18, 0), (17, 0), (16, 0), (15, 0), (12, 0), (11, 0), (10, 96), (9, 0), (7, 0), (6, 0), (5, 0), (4, 32), (3, 0), (1, 224), (0, 4)]⟩

/-- Packed state after 17500 steps of the first advancement. -/
def c9fA7 : FS := ⟨33374801414850793099621591105213365962440754124736955302366953788067714324487330359360581226900, 2110673983267582118985728, 642846204475492475600895, 259404120482454553652687, 57348633457528699617279,
  [(33, 0), (32, 0), (31, 0), (29, 24), (27, 0), (25, 0), (24, 0), (22, 0), (21, 0), (20, 0), (18, 0), (17, 0), (16, 0), (15, 0), (12, 0), (11, 64), (10, 0), (9, 0), (7, 0), (6, 0), (5, 0), (4, 32), (3, 0), (1, 224), (0, 4)]⟩

/-- Packed state after 20000 steps of the first advancement. -/
def c9fA8 : FS := ⟨33374801414850793099621591105213365962440754124736955262468098251319755957105404326202414879124, 2110673983267597822459904, 642846204475446170484735, 485495757067908040044012, 57348631204045124534271,
  [(27, 17), (25, 0), (24, 0), (22, 0), (21, 2), (20, 0), (18, 0), (17, 0), (16, 0), (15, 1), (12, 0), (11, 0), (10, 64), (9, 2), (7, 0), (6, 0), (5, 0), (4, 0), (3, 0), (1, 224), (0, 4)]⟩

/-- Packed state after 22500 steps of the first advancement. -/
def c9fA9 : FS := ⟨33374801414850793099621591105213365962440754124736955264361251548836716900107633483718667424148, 2110673983267590708920320, 642846204475483885666303, 258823031170477416984015, 57348631222738030166015,
  [(33, 128), (32, 0), (31, 80), (29, 0), (27, 0), (25, 0), (24, 0), (22, 0), (21, 0), (20, 0), (18, 0), (17, 0), (16, 0), (15, 17), (12, 0), (11, 0), (10, 96), (9, 0), (7, 0), (6, 0), (5, 0), (4, 0), (3, 0), (1, 224), (0, 4)]⟩

/-- Packed state after 25000 steps of the first advancement. -/
def c9fA10 : FS := ⟨33374801414850793099621591105213365962440754124736955307811471658644584109882958889513429389716, 2110673983267582118985728, 642846204475501065535487, 1392188969438295770967503, 57348635709328513302527,
  [(33, 0), (32, 0), (31, 0), (29, 24), (27, 0), (25, 0), (24, 0), (22, 0), (21, 0), (20, 0), (18, 0), (17, 0), (16, 0), (15, 1), (12, 0), (11, 0), (10, 32), (9, 0), (7, 0), (6, 0), (5, 0), (4, 0), (3, 0), (1, 224), (0, 4)]⟩

/-- Packed state after 27500 steps of the first advancement. -/
def c9fA11 : FS := ⟨33374801414850793099621591105213365962440754124736955308598042325308254233774380317406785868164, 2110673983267582118985728, 642846204475508581728255, 188570047513252328320493, 57348635729637266161663,
  [(33, 0), (32, 0), (31, 8), (29, 8), (27, 0), (25, 0), (24, 0), (22, 0), (21, 0), (20, 0), (18, 2), (17, 0), (16, 1), (15, 1), (12, 0), (11, 2), (10, 64), (9, 2), (7, 0), (6, 0), (5, 0), (4, 16), (3, 16), (1, 96), (0, 4)]⟩

/-- Packed state after 30000 steps of the first advancement. -/
def c9fA12 : FS := ⟨33374801414850793099621591105213365962440754124736955264935810349935211556500163209048056304004, 2110673983267590708920320, 642846204475473148248063, 258233888260197963886031, 57348631209010240946175,
  [(33, 0), (32, 0), (31, 0), (29, 24), (27, 0), (25, 0), (24, 0), (22, 0), (21, 0), (20, 0), (18, 0), (17, 0), (16, 0), (15, 17), (12, 0), (11, 0), (10, 0), (9, 0), (7, 0), (6, 0), (5, 0), (4, 16), (3, 16), (1, 96), (0, 4)]⟩

/-- Packed state after 32500 steps of the first advancement. -/
def c9fA13 : FS := ⟨33374801414850793099621591105213365962440754124736955265041816282599058597364241735518874079620, 2110673983267590708920320, 642846204475490328117247, 258233888839090788216301, 57348631226036565049343,
  [(33, 0), (32, 16), (31, 0), (29, 0), (27, 0), (25, 0), (24, 0), (22, 0), (21, 0), (20, 0), (18, 0), (17, 0), (16, 0), (15, 17), (12, 0), (11, 0), (10, 0), (9, 2), (7, 0), (6, 0), (5, 0), (4, 0), (3, 16), (1, 96), (0, 4)]⟩

/-- Packed state after 35000 steps of the first advancement. -/
def c9fA14 : FS := ⟨33374801414850793099621591105213365962440754124736955262574769122501591699251269466803250221444, 2110673983267595003887616, 642846204475449525927935, 787136915056025964752363, 57348631205145844121599,
  [(31, 0), (29, 0), (27, 0), (25, 0), (24, 0), (22, 0), (21, 0), (20, 0), (18, 0), (17, 0), (16, 0), (15, 1), (12, 0), (11, 2), (10, 0), (9, 2), (7, 0), (6, 0), (5, 0), (4, 96), (3, 0), (1, 96), (0, 4)]⟩

/-- Packed state after 37500 steps of the first advancement. -/
def c9fA15 : FS := ⟨33374801414850793099621591105213365962440754124736955264956745690948159737354530459326598238596, 2110673983267590708920320, 642846204475458115862527, 188567750097967577411053, 57348631209543890632703,
  [(33, 128), (32, 0), (31, 0), (29, 0), (27, 0), (25, 0), (24, 0), (22, 0), (21, 0), (20, 0), (18, 2), (17, 0), (16, 1), (15, 1), (12, 0), (11, 2), (10, 0), (9, 2), (7, 0), (6, 0), (5, 64), (4, 0), (3, 0), (1, 96), (0, 4)]⟩

/-- Packed state after 40000 steps of the first advancement. -/
def c9fA16 : FS := ⟨33374801414850793099621591105213365962440754124771231640974465190247300070059938346029614010740, 2110673983267221341732864, 642846204477777398202367, 259414497895313876889085, 57348635747817862725631,
  [(39, 0), (38, 8), (36, 0), (34, 0), (33, 0), (32, 0), (31, 0), (29, 8), (27, 1), (25, 0), (24, 0), (22, 0), (21, 0), (20, 0), (18, 0), (17, 0), (16, 0), (15, 0), (12, 0), (11, 0), (10, 128), (9, 2), (7, 0), (6, 0), (5, 0), (4, 16), (3, 144), (1, 32), (0, 4)]⟩

/-- Packed state after 42500 steps of the first advancement. -/
def c9fA17 : FS := ⟨33374801414850793099621591105213365962440754124736955918958270341809065623081334857088664703348, 2110673983267564939116544, 642846204475509655470079, 486088366606284301446635, 57348637977588789149695,
  [(36, 0), (34, 0), (33, 64), (32, 64), (31, 0), (29, 8), (27, 0), (25, 0), (24, 0), (22, 0), (21, 0), (20, 0), (18, 0), (17, 0), (16, 0), (15, 1), (12, 0), (11, 2), (10, 128), (9, 2), (7, 0), (6, 0), (5, 0), (4, 0), (3, 144), (1, 32), (0, 4)]⟩

/-- Packed state after 45000 steps of the first advancement. -/
def c9fA18 : FS := ⟨33374801414850793099621591105213365962440754124736955262468098245535317903803725737167034077556, 2110673983267597880393728, 642846204475446049374207, 258744630808284821368296, 57348631204045055229945,
  [(18, 6), (17, 0), (16, 0), (15, 17), (12, 0), (11, 2), (10, 128), (9, 2), (7, 0), (6, 0), (5, 0), (4, 160), (3, 0), (1, 32), (0, 4)]⟩

/-- Packed state after 47500 steps of the first advancement. -/
def c9fA19 : FS := ⟨33374801414850793099621591105213365962440754124736955262468098245535317903907490375450283823476, 2110673983267597880393728, 642846204475446049374207, 259324568339517519752650, 57348631204045055294331,
  [(18, 4), (17, 0), (16, 0), (15, 0), (12, 0), (11, 128), (10, 0), (9, 0), (7, 0), (6, 0), (5, 0), (4, 160), (3, 0), (1, 32), (0, 4)]⟩

/-- Packed state after 50000 steps of the first advancement. -/
def c9fA20 : FS := ⟨33374801414850793099621591105213365962440754124736955264935893426764175067916348530000592785780, 2110673983267590708920320, 642846204475490328117247, 485495766079883658571215, 57348631209027420815359,
  [(33, 128), (32, 16), (31, 0), (29, 24), (27, 0), (25, 0), (24, 0), (22, 0), (21, 0), (20, 0), (18, 0), (17, 0), (16, 0), (15, 1), (12, 0), (11, 0), (10, 160), (9, 0), (7, 0), (6, 0), (5, 0), (4, 0), (3, 0), (1, 32), (0, 4)]⟩

/-- Packed state after 52500 steps of the first advancement. -/
def c9fA21 : FS := ⟨33374801414850793099621591105213365962440754124736955262468098245775836131308003539691277615507, 2110673983267597856014336, 642846204475446153707519, 187977444168803325750764, 57348631204045107757055,
  [(24, 0), (22, 0), (21, 0), (20, 0), (18, 0), (17, 0), (16, 1), (15, 129), (12, 0), (11, 0), (10, 0), (9, 2), (7, 0), (6, 0), (5, 16), (4, 48), (3, 16), (1, 232), (0, 0)]⟩

/-- Packed state after 55000 steps of the first advancement. -/
def c9fA22 : FS := ⟨33374801414850793099621591105213365962440754124874104978575286959393024535898824644732461220243, 2110673983266671585918976, 642846204486573491224575, 1392778130889276851170814, 57348635747903627853823,
  [(39, 0), (38, 8), (36, 1), (34, 0), (33, 0), (32, 0), (31, 0), (29, 136), (27, 1), (25, 0), (24, 0), (22, 0), (21, 2), (20, 0), (18, 0), (17, 0), (16, 0), (15, 0), (12, 0), (11, 0), (10, 96), (9, 0), (7, 0), (6, 0), (5, 16), (4, 48), (3, 16), (1, 232), (0, 0)]⟩

/-- Packed state after 57500 steps of the first advancement. -/
def c9fA23 : FS := ⟨33374801414850793099621591105213365962440754124879814492700057518247453623667872868519081640339, 2110673983266671585918976, 642846204495369584246783, 1392779272551782385348079, 57348637977696163332095,
  [(39, 0), (38, 8), (36, 0), (34, 0), (33, 0), (32, 64), (31, 0), (29, 8), (27, 0), (25, 0), (24, 0), (22, 0), (21, 2), (20, 0), (18, 0), (17, 0), (16, 0), (15, 1), (12, 0), (11, 64), (10, 0), (9, 0), (7, 0), (6, 0), (5, 16), (4, 48), (3, 16), (1, 232), (0, 0)]⟩

/-- Packed state after 60000 steps of the first advancement. -/
def c9fA24 : FS := ⟨33374801414850793099621591105213365962440754124736955309235989989205234319199186837144207786387, 2110673983267582118985728, 642846204475509521252351, 485498071939935212875260, 57348635729638205685759,
  [(33, 1), (32, 0), (31, 0), (29, 0), (27, 1), (25, 0), (24, 0), (22, 0), (21, 0), (20, 0), (18, 0), (17, 0), (16, 0), (15, 65), (12, 0), (11, 0), (10, 64), (9, 2), (7, 0), (6, 0), (5, 16), (4, 16), (3, 16), (1, 232), (0, 0)]⟩

/-- Packed state after 62500 steps of the first advancement. -/
def c9fA25 : FS := ⟨33374801414850793099621591105213365962440754124737089723450646101324447122859337779569185161619, 2110673983267496219639808, 642846204477708678725631, 486088367729574735719919, 57348637978141766189055,
  [(36, 0), (34, 0), (33, 64), (32, 0), (31, 0), (29, 0), (27, 0), (25, 0), (24, 0), (22, 0), (21, 2), (20, 0), (18, 0), (17, 0), (16, 0), (15, 65), (12, 0), (11, 0), (10, 96), (9, 0), (7, 0), (6, 0), (5, 16), (4, 16), (3, 16), (1, 232), (0, 0)]⟩

/-- Packed state at the emission of the solution (step 63487). -/
def c9fE : FS := ⟨15787503840108419503209679305304666650965468270889574376220791971527446633313288598627807493783955, 0, 2417851639229258349412351, 2417851639229258349412351, 2417851639229258349412351,
  [(80, 0), (79, 0), (77, 0), (76, 0), (75, 0), (74, 0), (73, 0), (71, 0), (70, 0), (69, 0), (68, 2), (65, 4), (64, 0), (63, 0), (62, 0), (60, 0), (59, 0), (58, 16), (56, 0), (55, 33), (53, 0), (51, 1), (49, 0), (48, 0), (47, 0), (46, 0), (44, 0), (42, 0), (41, 2), (40, 2), (39, 0), (38, 8), (36, 0), (34, 0), (33, 0), (32, 0), (31, 0), (29, 152), (27, 0), (25, 0), (24, 0), (22, 0), (21, 0), (20, 0), (18, 0), (17, 0), (16, 0), (15, 1), (12, 0), (11, 0), (10, 96), (9, 0), (7, 0), (6, 0), (5, 16), (4, 16), (3, 16), (1, 232), (0, 0)]⟩

/-- Packed state after 2500 steps of the second advancement. -/
def c9fB1 : FS := ⟨33374801414850793099621591105213365962440754135812531817466913046471147519554695744912933421459, 2110673983265572074291200, 642846204500248667095039, 486088359306628832849391, 57348637983123928252415,
  [(41, 2), (40, 2), (39, 1), (38, 0), (36, 0), (34, 0), (33, 64), (32, 0), (31, 0), (29, 24), (27, 0), (25, 0), (24, 0), (22, 0), (21, 0), (20, 0), (18, 0), (17, 0), (16, 0), (15, 65), (12, 0), (11, 64), (10, 0), (9, 0), (7, 0), (6, 0), (5, 16), (4, 16), (3, 16), (1, 232), (0, 0)]⟩

/-- Packed state after 5000 steps of the second advancement. -/
def c9fB2 : FS := ⟨33374801414850793099621591105213365962440754124736955262575184510845526054916058543205800903059, 2110673983267595003887616, 642846204475482811924479, 1392186661330874547514861, 57348631205179130118143,
  [(31, 8), (29, 152), (27, 0), (25, 0), (24, 0), (22, 0), (21, 0), (20, 0), (18, 2), (17, 0), (16, 0), (15, 1), (12, 0), (11, 2), (10, 64), (9, 2), (7, 0), (6, 0), (5, 0), (4, 16), (3, 16), (1, 232), (0, 0)]⟩

/-- Packed state after 7500 steps of the second advancement. -/
def c9fB3 : FS := ⟨33374801414850793099621591105213365962440754124736955262468098246250586136369336401583145320851, 2110673983267597856014336, 642846204475446169436159, 187978525016253448744398, 57348631204045123485695,
  [(24, 4), (22, 0), (21, 0), (20, 0), (18, 0), (17, 0), (16, 1), (15, 1), (12, 0), (11, 0), (10, 0), (9, 0), (7, 0), (6, 0), (5, 0), (4, 0), (3, 16), (1, 232), (0, 0)]⟩

/-- Packed state after 10000 steps of the second advancement. -/
def c9fB4 : FS := ⟨33374801414850793099621591105213365962440754127797064223421072160465222562887350703302040310163, 2110673983265572074291200, 642846204485061662736383, 259414498473762364009982, 57348635748037845581823,
  [(41, 256), (40, 0), (39, 0), (38, 32), (36, 1), (34, 0), (33, 0), (32, 0), (31, 0), (29, 128), (27, 9), (25, 0), (24, 0), (22, 0), (21, 0), (20, 0), (18, 0), (17, 0), (16, 0), (15, 17), (12, 0), (11, 2), (10, 64), (9, 2), (7, 0), (6, 0), (5, 0), (4, 32), (3, 0), (1, 232), (0, 0)]⟩

/-- Packed state after 12500 steps of the second advancement. -/
def c9fB5 : FS := ⟨33374801414850793099621591105213365962440754124736955262468846269913542012185357204408546840979, 2110673983267597151371264, 642846204475480664440831, 258233886568738626383341, 57348631204079618490367,
  [(31, 24), (29, 24), (27, 0), (25, 0), (24, 0), (22, 0), (21, 2), (20, 0), (18, 0), (17, 0), (16, 0), (15, 17), (12, 0), (11, 0), (10, 0), (9, 2), (7, 0), (6, 0), (5, 0), (4, 32), (3, 0), (1, 232), (0, 0)]⟩

/-- Packed state after 15000 steps of the second advancement. -/
def c9fB6 : FS := ⟨33374801414850793099621591105213365962440754124736955302473209927864146606047373398499533410707, 2110673983267582118985728, 642846204475509521252351, 258235041203127950192110, 57348633474554889502719,
  [(33, 1), (32, 0), (31, 80), (29, 16), (27, 1), (25, 0), (24, 0), (22, 0), (21, 128), (20, 0), (18, 0), (17, 0), (16, 0), (15, 17), (12, 0), (11, 2), (10, 64), (9, 2), (7, 0), (6, 0), (5, 0), (4, 0), (3, 0), (1, 232), (0, 0)]⟩

/-- Packed state after 17500 steps of the second advancement. -/
def c9fB7 : FS := ⟨33374801414850793099621591105213365962440754124736955262468098245538151644816675783537071640979, 2110673983267597872791552, 642846204475446152658943, 257643519841907355069932, 57348631204045106708479,
  [(24, 68), (22, 0), (21, 0), (20, 0), (18, 0), (17, 0), (16, 0), (15, 17), (12, 0), (11, 0), (10, 0), (9, 2), (7, 0), (6, 0), (5, 0), (4, 0), (3, 0), (1, 232), (0, 0)]⟩

/-- Packed state after 20000 steps of the second advancement. -/
def c9fB8 : FS := ⟨33374801414850793099621591105213365962440754124736955270380329522151562082415153061827503952259, 2110673983267582118985728, 642846204475475295731711, 188567760237131264273916, 57348631244196626300927,
  [(33, 0), (32, 0), (31, 0), (29, 8), (27, 1), (25, 0), (24, 0), (22, 0), (21, 0), (20, 0), (18, 0), (17, 0), (16, 1), (15, 129), (12, 0), (11, 0), (10, 0), (9, 2), (7, 0), (6, 0), (5, 16), (4, 48), (3, 16), (1, 104), (0, 0)]⟩

/-- Packed state after 22500 steps of the second advancement. -/
def c9fB9 : FS := ⟨33374801414850793099621591105213365962440754124736955262659841015633824465973575643446026670467, 2110673983267595003887616, 642846204475483751448575, 1392766599448114959330782, 57348631221640531804159,
  [(31, 0), (29, 0), (27, 1), (25, 0), (24, 0), (22, 0), (21, 0), (20, 0), (18, 0), (17, 0), (16, 0), (15, 0), (12, 0), (11, 0), (10, 32), (9, 0), (7, 0), (6, 0), (5, 16), (4, 48), (3, 16), (1, 104), (0, 0)]⟩

/-- Packed state after 25000 steps of the second advancement. -/
def c9fB10 : FS := ⟨33374801414850793099621591105213365962440754124736955302473208954308356286034671720351564992899, 2110673983267582118985728, 642846204475508581728255, 787138069671895200804333, 57348633474553949978623,
  [(33, 0), (32, 0), (31, 88), (29, 24), (27, 0), (25, 0), (24, 0), (22, 0), (21, 0), (20, 0), (18, 0), (17, 0), (16, 0), (15, 129), (12, 0), (11, 0), (10, 0), (9, 2), (7, 0), (6, 0), (5, 16), (4, 16), (3, 16), (1, 104), (0, 0)]⟩

/-- Packed state after 27500 steps of the second advancement. -/
def c9fB11 : FS := ⟨33374801414850793099621591105213365962440754124736955262468098246250894414496313947470461047171, 2110673983267597856014336, 642846204475446169436159, 787127638754616053951950, 57348631204045123485695,
  [(24, 4), (22, 0), (21, 0), (20, 0), (18, 0), (17, 0), (16, 0), (15, 0), (12, 0), (11, 64), (10, 0), (9, 0), (7, 0), (6, 0), (5, 16), (4, 16), (3, 16), (1, 104), (0, 0)]⟩

/-- Packed state after 30000 steps of the second advancement. -/
def c9fB12 : FS := ⟨33374801414850793099621591105213365962440754124736955880846895779582506651979072194060601430403, 2110673983267564939116544, 642846204475509655470079, 259413351729208718880222, 57348633509190579519487,
  [(36, 33), (34, 0), (33, 0), (32, 64), (31, 0), (29, 8), (27, 1), (25, 0), (24, 0), (22, 0), (21, 0), (20, 0), (18, 0), (17, 0), (16, 0), (15, 17), (12, 0), (11, 0), (10, 0), (9, 0), (7, 0), (6, 0), (5, 0), (4, 16), (3, 16), (1, 104), (0, 0)]⟩

/-- Packed state after 32500 steps of the second advancement. -/
def c9fB13 : FS := ⟨33374801414850793099621591105213365962440754124736955262468099878509191466401094869848664134019, 2110673983267597688242176, 642846204475448317968383, 1392186661908085939203550, 57348631204047272017919,
  [(27, 1), (25, 0), (24, 0), (22, 0), (21, 0), (20, 0), (18, 0), (17, 0), (16, 0), (15, 1), (12, 0), (11, 0), (10, 0), (9, 0), (7, 0), (6, 0), (5, 0), (4, 96), (3, 0), (1, 104), (0, 0)]⟩

/-- Packed state after 35000 steps of the second advancement. -/
def c9fB14 : FS := ⟨33374801414850793099621591105213365962440754124736955264255328696250608744949622217894300963203, 2110673983267590708920320, 642846204475483885666303, 787136915618426176613869, 57348631205728885932031,
  [(33, 192), (32, 0), (31, 0), (29, 152), (27, 0), (25, 0), (24, 0), (22, 0), (21, 0), (20, 0), (18, 2), (17, 0), (16, 0), (15, 1), (12, 0), (11, 2), (10, 64), (9, 2), (7, 0), (6, 0), (5, 0), (4, 32), (3, 0), (1, 104), (0, 0)]⟩

/-- Packed state after 37500 steps of the second advancement. -/
def c9fB15 : FS := ⟨33374801414850793099621591105213365962440754124736955264935561124361080028931436680310289813891, 2110673983267590708920320, 642846204475458115862527, 188567742231511588351469, 57348631208995208560639,
  [(33, 128), (32, 0), (31, 0), (29, 8), (27, 0), (25, 0), (24, 0), (22, 0), (21, 0), (20, 0), (18, 0), (17, 0), (16, 1), (15, 1), (12, 0), (11, 0), (10, 64), (9, 2), (7, 0), (6, 0), (5, 0), (4, 32), (3, 0), (1, 104), (0, 0)]⟩

/-- Packed state after 40000 steps of the second advancement. -/
def c9fB16 : FS := ⟨33374801414850793099621591105213365962440754124736955262468098579167765062037667729868069491075, 2110673983267597688242176, 642846204475446304702463, 259402966997450189286887, 57348631204045258751999,
  [(27, 0), (25, 0), (24, 0), (22, 0), (21, 128), (20, 0), (18, 0), (17, 0), (16, 0), (15, 0), (12, 0), (11, 2), (10, 0), (9, 2), (7, 0), (6, 0), (5, 0), (4, 32), (3, 0), (1, 104), (0, 0)]⟩

/-- Packed state after 42500 steps of the second advancement. -/
def c9fB17 : FS := ⟨33374801414850793099621591105213365962440754124942613389818322592329210580845777335729160409475, 2110673983266671585918976, 642846204478395873492991, 486088358161075130543599, 57348637961271134650367,
  [(39, 1), (38, 0), (36, 0), (34, 0), (33, 64), (32, 0), (31, 0), (29, 152), (27, 0), (25, 0), (24, 0), (22, 0), (21, 2), (20, 0), (18, 0), (17, 0), (16, 0), (15, 1), (12, 0), (11, 0), (10, 96), (9, 0), (7, 0), (6, 0), (5, 0), (4, 32), (3, 0), (1, 104), (0, 0)]⟩

/-- Packed state after 45000 steps of the second advancement. -/
def c9fB18 : FS := ⟨33374801414850793099621591105213365962440754124942501849341752533076626924086817218102009745795, 2110673983266671585918976, 642846204476265569714175, 259413352290099237580255, 57348633509329226432511,
  [(39, 0), (38, 0), (36, 0), (34, 0), (33, 0), (32, 64), (31, 0), (29, 8), (27, 1), (25, 0), (24, 0), (22, 0), (21, 2), (20, 0), (18, 0), (17, 0), (16, 0), (15, 17), (12, 0), (11, 64), (10, 0), (9, 0), (7, 0), (6, 0), (5, 0), (4, 32), (3, 0), (1, 104), (0, 0)]⟩

/-- Packed state after 47500 steps of the second advancement. -/
def c9fB19 : FS := ⟨33374801414850793099621591105213365962440754124736955262468430886164841092207684749805234901379, 2110673983267597151371264, 642846204475447378444287, 259402966988808463412687, 57348631204046332493823,
  [(31, 272), (29, 0), (27, 0), (25, 0), (24, 0), (22, 0), (21, 2), (20, 0), (18, 0), (17, 0), (16, 0), (15, 0), (12, 128), (11, 0), (10, 0), (9, 0), (7, 0), (6, 0), (5, 0), (4, 32), (3, 0), (1, 104), (0, 0)]⟩

/-- Packed state after 50000 steps of the second advancement. -/
def c9fB20 : FS := ⟨33374801414850793099621591105213365962440754124736977695732760041867169452056597833193945977219, 2110673983267496219639808, 642846204475578374946815, 188579270876478122175983, 57348635748362249830399,
  [(36, 0), (34, 0), (33, 1), (32, 0), (31, 16), (29, 144), (27, 1), (25, 0), (24, 0), (22, 0), (21, 128), (20, 0), (18, 0), (17, 0), (16, 1), (15, 1), (12, 0), (11, 2), (10, 64), (9, 2), (7, 0), (6, 0), (5, 0), (4, 0), (3, 0), (1, 104), (0, 0)]⟩

/-- Packed state after 52500 steps of the second advancement. -/
def c9fB21 : FS := ⟨33374801414850793099621591105213365962440754124971046313189263364546405255144155300227183956355, 2110673983266671585918976, 642846204493307999944703, 188578126386733083733501, 57348633509362512429055,
  [(39, 0), (38, 40), (36, 0), (34, 0), (33, 1), (32, 0), (31, 0), (29, 8), (27, 1), (25, 0), (24, 0), (22, 0), (21, 2), (20, 0), (18, 0), (17, 0), (16, 1), (15, 1), (12, 0), (11, 0), (10, 64), (9, 2), (7, 0), (6, 0), (5, 0), (4, 0), (3, 0), (1, 104), (0, 0)]⟩

/-- Packed state after 55000 steps of the second advancement. -/
def c9fB22 : FS := ⟨33374801414850793099621591105213365962440754124736955271082161579407863494628605437525353714051, 2110673983267582118985728, 642846204475501065535487, 787136943201324645068270, 57348631257939447906303,
  [(33, 0), (32, 0), (31, 0), (29, 16), (27, 1), (25, 0), (24, 0), (22, 0), (21, 0), (20, 0), (18, 0), (17, 0), (16, 0), (15, 1), (12, 0), (11, 2), (10, 0), (9, 2), (7, 0), (6, 0), (5, 0), (4, 0), (3, 0), (1, 104), (0, 0)]⟩

/-- Packed state after 57500 steps of the second advancement. -/
def c9fB23 : FS := ⟨33374801414850793099621591105213365962440754124736955309235988691131019684899678966770581262723, 2110673983267582118985728, 642846204475507507986431, 258825345453320705617359, 57348635729636192419839,
  [(33, 0), (32, 16), (31, 16), (29, 0), (27, 0), (25, 0), (24, 0), (22, 0), (21, 0), (20, 0), (18, 0), (17, 0), (16, 0), (15, 17), (12, 0), (11, 0), (10, 96), (9, 0), (7, 0), (6, 0), (5, 0), (4, 0), (3, 0), (1, 104), (0, 0)]⟩

/-- Packed state after 60000 steps of the second advancement. -/
def c9fB24 : FS := ⟨33374801414850793099621591105213365962440754124736955265680178030981884922115773674027537027459, 2110673983267590708920320, 642846204475506434244607, 188567750105681377996239, 57348631226052671176703,
  [(33, 0), (32, 16), (31, 24), (29, 24), (27, 0), (25, 0), (24, 0), (22, 0), (21, 0), (20, 0), (18, 0), (17, 0), (16, 1), (15, 1), (12, 128), (11, 0), (10, 32), (9, 0), (7, 0), (6, 0), (5, 0), (4, 0), (3, 0), (1, 104), (0, 0)]⟩

/-- Packed state after 62500 steps of the second advancement. -/
def c9fB25 : FS := ⟨33374801414850793099621591105213365962440754124736955262468098246092440506331371862809256546691, 2110673983267597856014336, 642846204475446169436159, 257644672754633098489294, 57348631204045123485695,
  [(24, 4), (22, 0), (21, 0), (20, 0), (18, 0), (17, 0), (16, 0), (15, 17), (12, 128), (11, 0), (10, 0), (9, 0), (7, 0), (6, 0), (5, 0), (4, 0), (3, 0), (1, 104), (0, 0)]⟩

/-- Packed state after 65000 steps of the second advancement. -/
def c9fB26 : FS := ⟨33374801414850793099621591105213365962440754124736955262468430887433923061076728704831247126899, 2110673983267597151371264, 642846204475447378444287, 485495755952848959286735, 57348631204046332493823,
  [(31, 272), (29, 0), (27, 0), (25, 0), (24, 0), (22, 0), (21, 0), (20, 0), (18, 0), (17, 0), (16, 0), (15, 65), (12, 0), (11, 0), (10, 32), (9, 0), (7, 0), (6, 0), (5, 16), (4, 48), (3, 144), (1, 40), (0, 0)]⟩

/-- Packed state after 67500 steps of the second advancement. -/
def c9fB27 : FS := ⟨33374801414850793099621591105213365962440754124736955262468098246250586138014554248463524659571, 2110673983267597856014336, 642846204475446169436159, 484317398126325601316302, 57348631204045123485695,
  [(24, 4), (22, 0), (21, 0), (20, 0), (18, 0), (17, 0), (16, 0), (15, 65), (12, 0), (11, 0), (10, 160), (9, 0), (7, 0), (6, 0), (5, 16), (4, 48), (3, 16), (1, 40), (0, 0)]⟩

/-- Packed state after 70000 steps of the second advancement. -/
def c9fB28 : FS := ⟨33374801414850793099621591105213365962440754124736955265041817585347734825417159241907536560499, 2110673983267590708920320, 642846204475492341383167, 1392766609574599896395230, 57348631226038578315263,
  [(33, 128), (32, 0), (31, 0), (29, 0), (27, 1), (25, 0), (24, 0), (22, 0), (21, 0), (20, 0), (18, 0), (17, 0), (16, 0), (15, 0), (12, 0), (11, 0), (10, 0), (9, 0), (7, 0), (6, 0), (5, 16), (4, 16), (3, 16), (1, 40), (0, 0)]⟩

/-- Packed state after 72500 steps of the second advancement. -/
def c9fB29 : FS := ⟨33374801414850793099621591105213365962440754124736955264935561124360463477939413434505637560691, 2110673983267590708920320, 642846204475458115862527, 259402968680267770605037, 57348631208995208560639,
  [(33, 128), (32, 0), (31, 0), (29, 8), (27, 0), (25, 0), (24, 0), (22, 0), (21, 0), (20, 0), (18, 0), (17, 0), (16, 0), (15, 0), (12, 0), (11, 0), (10, 0), (9, 2), (7, 0), (6, 0), (5, 0), (4, 16), (3, 16), (1, 40), (0, 0)]⟩

/-- Packed state after 75000 steps of the second advancement. -/
def c9fB30 : FS := ⟨33374801414850793099621591105213365962440754124736955265616125858202467342561447370187860181363, 2110673983267590708920320, 642846204475483885666303, 485495764952916415065581, 57348631222189348093951,
  [(33, 192), (32, 64), (31, 0), (29, 8), (27, 0), (25, 0), (24, 0), (22, 0), (21, 0), (20, 0), (18, 2), (17, 0), (16, 0), (15, 1), (12, 0), (11, 2), (10, 0), (9, 2), (7, 0), (6, 0), (5, 0), (4, 0), (3, 16), (1, 40), (0, 0)]⟩

/-- Packed state after 77500 steps of the second advancement. -/
def c9fB31 : FS := ⟨33374801414850793099621591105213365962440754124736955270380412600168769101542741238298660327795, 2110673983267582118985728, 642846204475492475600895, 258823049732982548377078, 57348631244213806170111,
  [(33, 0), (32, 0), (31, 0), (29, 0), (27, 9), (25, 0), (24, 0), (22, 0), (21, 0), (20, 0), (18, 0), (17, 0), (16, 0), (15, 17), (12, 0), (11, 2), (10, 128), (9, 2), (7, 0), (6, 0), (5, 0), (4, 32), (3, 0), (1, 40), (0, 0)]⟩

/-- Packed state after 80000 steps of the second advancement. -/
def c9fB32 : FS := ⟨33374801414850793099621591105213365962440754124736955262468098245535317902302623801840155251059, 2110673983267597880590336, 642846204475446049333247, 182074143778467327356388, 57348631204045068925687,
  [(16, 64), (15, 0), (12, 0), (11, 0), (10, 0), (9, 2), (7, 0), (6, 0), (5, 0), (4, 32), (3, 0), (1, 40), (0, 0)]⟩

/-- Packed state after 82500 steps of the second advancement. -/
def c9fB33 : FS := ⟨33374801414850793099621591105213365962440754124736955262468098245535317902301469033156751954243, 2110673983267597880623104, 642846204475446049332735, 182586311142488597151204, 57348631204045020422077,
  [(12, 0), (11, 66), (10, 64), (9, 2), (7, 0), (6, 0), (5, 16), (4, 112), (3, 144), (1, 0), (0, 0)]⟩

/-- Packed state after 85000 steps of the second advancement. -/
def c9fB34 : FS := ⟨33374801414850793099621591105213365962440754124736955262468098245535317902301468417155663302979, 2110673983267597880627200, 642846204475446049201663, 183177471074428407594438, 57348631204045049723583,
  [(12, 0), (11, 0), (10, 96), (9, 0), (7, 0), (6, 0), (5, 0), (4, 16), (3, 144), (1, 0), (0, 0)]⟩

/-- Packed state after 87500 steps of the second advancement. -/
def c9fB35 : FS := ⟨33374801414850793099621591105213365962440754124736955265041899358952788527022509579551490081091, 2110673983267590708920320, 642846204475491401859071, 188567741670243147595239, 57348631226037638791167,
  [(33, 128), (32, 0), (31, 8), (29, 8), (27, 0), (25, 0), (24, 0), (22, 0), (21, 0), (20, 0), (18, 0), (17, 0), (16, 1), (15, 1), (12, 0), (11, 2), (10, 192), (9, 2), (7, 0), (6, 64), (5, 0), (4, 16), (3, 16), (1, 0), (0, 0)]⟩

/-- Packed state after 90000 steps of the second advancement. -/
def c9fB36 : FS := ⟨33374801414850793099621591105213365962440754124736955265616375083381063724187885505798109483331, 2110673983267590708920320, 642846204475498918051839, 1391597528026980884495847, 57348631222204380479487,
  [(33, 64), (32, 80), (31, 0), (29, 24), (27, 0), (25, 0), (24, 0), (22, 0), (21, 0), (20, 0), (18, 0), (17, 0), (16, 0), (15, 1), (12, 0), (11, 2), (10, 64), (9, 2), (7, 0), (6, 64), (5, 0), (4, 224), (3, 0), (1, 0), (0, 0)]⟩

/-- Packed state after 92500 steps of the second advancement. -/
def c9fB37 : FS := ⟨33374801414850793099621591105213365962440754124736955262553916857842680519052580717714418913603, 2110673983267595003887616, 642846204475481738182655, 258823029466784239861223, 57348631204629374304255,
  [(31, 0), (29, 24), (27, 0), (25, 0), (24, 0), (22, 0), (21, 128), (20, 0), (18, 0), (17, 0), (16, 0), (15, 17), (12, 0), (11, 66), (10, 192), (9, 2), (7, 0), (6, 128), (5, 0), (4, 32), (3, 0), (1, 0), (0, 0)]⟩

/-- Packed state after 95000 steps of the second advancement. -/
def c9fB38 : FS := ⟨33374801414850793099621591105213365962440754124736955262468430882364053259276925089059359379779, 2110673983267597151371264, 642846204475447378444287, 259402967006229119188455, 57348631204046332493823,
  [(31, 16), (29, 0), (27, 0), (25, 0), (24, 0), (22, 0), (21, 0), (20, 0), (18, 0), (17, 0), (16, 0), (15, 0), (12, 0), (11, 66), (10, 64), (9, 2), (7, 0), (6, 128), (5, 0), (4, 32), (3, 0), (1, 0), (0, 0)]⟩

/-- Packed state after 97500 steps of the second advancement. -/
def c9fB39 : FS := ⟨33374801414850793099621591105213365962440754124736955307811471658327786302466100984491013460291, 2110673983267582118985728, 642846204475501065535487, 485498063491837718838759, 57348635709328513302527,
  [(33, 64), (32, 0), (31, 0), (29, 24), (27, 0), (25, 0), (24, 0), (22, 0), (21, 0), (20, 0), (18, 0), (17, 0), (16, 0), (15, 1), (12, 0), (11, 66), (10, 192), (9, 2), (7, 0), (6, 128), (5, 0), (4, 0), (3, 0), (1, 0), (0, 0)]⟩

/-- Packed state at loop exit of the second advancement (step 99778). -/
def c9fZ : FS := ⟨33374801414850793099621591105213365962440754124736955262468098245535317902301468302666744463616, 2110673983267597880631035, 642846204475446049118211, 181995725967023044570560, 57348631204044999236113,
  []⟩

/-! ### Theorems -/

/-! ### Layer 1: cell access and update -/

theorem getD_of_lt {α : Type} {l : List α} {n : Nat} (d : α) (h : n < l.length) :
    l.getD n d = l[n] := by
  rw [List.getD_eq_getElem?_getD, List.getElem?_eq_getElem h]
  rfl

theorem getCell_setCell (t : Table) (ℓ : CellLocation) (c : SudokuCell)
    (hlen : t.length = 9) (hrow : (t.getD ℓ.row []).length = 9)
    (hr : ℓ.row < 9) (hc : ℓ.col < 9) (i j : Nat) :
    getCell (setCell t ℓ c) i j =
      if i = ℓ.row ∧ j = ℓ.col then c else getCell t i j := by
  have hrl : ℓ.row < t.length := by omega
  have hrowD : t.getD ℓ.row [] = t[ℓ.row] := getD_of_lt [] hrl
  have hrlen : (t[ℓ.row]).length = 9 := by rw [← hrowD]; exact hrow
  unfold getCell setCell
  rw [hrowD]
  rcases eq_or_ne i ℓ.row with rfl | hi
  · have o1 : (t.set ℓ.row ((t[ℓ.row]).set ℓ.col c)).getD ℓ.row [] =
        (t[ℓ.row]).set ℓ.col c := by
      rw [List.getD_eq_getElem?_getD, List.getElem?_set_self hrl]
      rfl
    rw [o1]
    rcases eq_or_ne j ℓ.col with rfl | hj
    · have o2 : ((t[ℓ.row]).set ℓ.col c).getD ℓ.col SudokuCell.Empty = c := by
        rw [List.getD_eq_getElem?_getD, List.getElem?_set_self (by omega)]
        rfl
      rw [o2, if_pos ⟨rfl, rfl⟩]
    · have o2 : ((t[ℓ.row]).set ℓ.col c).getD j SudokuCell.Empty =
          (t[ℓ.row]).getD j SudokuCell.Empty := by
        rw [List.getD_eq_getElem?_getD, List.getElem?_set_ne (Ne.symm hj),
          ← List.getD_eq_getElem?_getD]
      rw [o2, if_neg (by simp [hj]), hrowD]
  · have o1 : (t.set ℓ.row ((t[ℓ.row]).set ℓ.col c)).getD i [] = t.getD i [] := by
      rw [List.getD_eq_getElem?_getD, List.getElem?_set_ne (Ne.symm hi),
        ← List.getD_eq_getElem?_getD]
    rw [o1, if_neg (by simp [hi])]

theorem wfTable_setCell {t : Table} {ℓ : CellLocation} {c : SudokuCell}
    (h : wfTable t) (hr : ℓ.row < 9) (hc : ℓ.col < 9) (hcwf : cellWF c) :
    wfTable (setCell t ℓ c) := by
  obtain ⟨hlen, hrows⟩ := h
  have hrowlen := (hrows ℓ.row hr).1
  refine ⟨by simp [setCell, hlen], fun i hi => ?_⟩
  constructor
  · rcases eq_or_ne i ℓ.row with rfl | hi'
    · rw [setCell, List.getD_eq_getElem?_getD, List.getElem?_set_self (by omega),
        Option.getD_some, List.length_set]
      exact hrowlen
    · rw [setCell, List.getD_eq_getElem?_getD, List.getElem?_set_ne (Ne.symm hi'),
        ← List.getD_eq_getElem?_getD]
      exact (hrows i hi).1
  · intro j hj
    rw [getCell_setCell t ℓ c hlen hrowlen hr hc i j]
    split
    · exact hcwf
    · exact (hrows i hi).2 j hj

theorem digitAt_eq_none {t : Table} {i j : Nat} :
    digitAt t i j = none ↔ getCell t i j = SudokuCell.Empty := by
  unfold digitAt
  cases getCell t i j <;> simp

theorem digitAt_eq_some {t : Table} {i j : Nat} {d : Nat} :
    digitAt t i j = some d ↔ getCell t i j = SudokuCell.Filled d := by
  unfold digitAt
  cases getCell t i j <;> simp

theorem digitAt_setCell (t : Table) (ℓ : CellLocation) (c : SudokuCell)
    (hlen : t.length = 9) (hrow : (t.getD ℓ.row []).length = 9)
    (hr : ℓ.row < 9) (hc : ℓ.col < 9) (i j : Nat) :
    digitAt (setCell t ℓ c) i j =
      if i = ℓ.row ∧ j = ℓ.col then
        (match c with
         | SudokuCell.Empty => none
         | SudokuCell.Filled d => some d)
      else digitAt t i j := by
  unfold digitAt
  rw [getCell_setCell t ℓ c hlen hrow hr hc i j]
  by_cases h : i = ℓ.row ∧ j = ℓ.col
  · rw [if_pos h, if_pos h]
  · rw [if_neg h, if_neg h]

theorem table_ext {t₁ t₂ : Table} (h₁ : wfTable t₁) (h₂ : wfTable t₂)
    (h : ∀ i < 9, ∀ j < 9, getCell t₁ i j = getCell t₂ i j) : t₁ = t₂ := by
  obtain ⟨hl₁, hr₁⟩ := h₁
  obtain ⟨hl₂, hr₂⟩ := h₂
  apply List.ext_getElem (by omega)
  intro i hi₁ hi₂
  have hi : i < 9 := by omega
  rw [← getD_of_lt [] hi₁, ← getD_of_lt [] hi₂]
  apply List.ext_getElem (by rw [(hr₁ i hi).1, (hr₂ i hi).1])
  intro j hj₁ hj₂
  have hj : j < 9 := by
    have := (hr₁ i hi).1
    omega
  have g := h i hi j hj
  unfold getCell at g
  rw [getD_of_lt _ hj₁, getD_of_lt _ hj₂] at g
  exact g

theorem getD_set_self {α : Type} {l : List α} {n : Nat} {a d : α}
    (h : n < l.length) : (l.set n a).getD n d = a := by
  rw [List.getD_eq_getElem?_getD, List.getElem?_set_self h]
  rfl

theorem getD_set_ne {α : Type} {l : List α} {m n : Nat} {a d : α}
    (h : m ≠ n) : (l.set m a).getD n d = l.getD n d := by
  rw [List.getD_eq_getElem?_getD, List.getElem?_set_ne h,
    ← List.getD_eq_getElem?_getD]

theorem replicate_false_getD (k : Nat) :
    (List.replicate 9 false).getD k false = false := by
  rw [List.getD_eq_getElem?_getD, List.getElem?_replicate]
  split <;> rfl

/-! ### Layer 2: the presence-table duplicate check -/

theorem areDistinctDigitsAux_isSome {ds : List Nat} (h : ∀ d ∈ ds, 1 ≤ d ∧ d ≤ 9) :
    ∀ arr, (areDistinctDigitsAux ds arr).isSome = true := by
  induction ds with
  | nil => intro arr; rfl
  | cons d ds ih =>
    intro arr
    have hd := h d (List.mem_cons_self d ds)
    rw [areDistinctDigitsAux, if_pos hd]
    by_cases hb : arr.getD (d - 1) false = true
    · rw [if_pos hb]; rfl
    · rw [if_neg hb]
      exact ih (fun e he => h e (List.mem_cons_of_mem _ he)) _

theorem areDistinctDigitsAux_eq_true_iff {ds : List Nat} :
    ∀ arr : List Bool, arr.length = 9 → (∀ d ∈ ds, 1 ≤ d ∧ d ≤ 9) →
    (areDistinctDigitsAux ds arr = some true ↔
      ds.Nodup ∧ ∀ d ∈ ds, arr.getD (d - 1) false = false) := by
  induction ds with
  | nil => intro arr _ _; simp [areDistinctDigitsAux]
  | cons d ds ih =>
    intro arr hlen hall
    have hd := hall d (List.mem_cons_self d ds)
    rw [areDistinctDigitsAux, if_pos hd]
    by_cases hb : arr.getD (d - 1) false = true
    · rw [if_pos hb]
      constructor
      · intro h; cases h
      · rintro ⟨-, hfor⟩
        have hcontra := hfor d (List.mem_cons_self d ds)
        rw [hb] at hcontra
        cases hcontra
    · rw [if_neg hb]
      have hbf : arr.getD (d - 1) false = false := by
        revert hb; cases arr.getD (d - 1) false <;> simp
      rw [ih (arr.set (d - 1) true) (by simp [hlen])
        (fun e he => hall e (List.mem_cons_of_mem _ he))]
      constructor
      · rintro ⟨hnd, hfor⟩
        refine ⟨List.nodup_cons.mpr ⟨?_, hnd⟩, ?_⟩
        · intro hmem
          have hx := hfor d hmem
          rw [getD_set_self (by omega)] at hx
          cases hx
        · intro e he
          rcases List.mem_cons.mp he with rfl | he'
          · exact hbf
          · have hx := hfor e he'
            by_cases hde : d - 1 = e - 1
            · rw [hde, getD_set_self (by have := hall e (List.mem_cons_of_mem _ he'); omega)] at hx
              cases hx
            · rw [getD_set_ne hde] at hx
              exact hx
      · rintro ⟨hnd, hfor⟩
        obtain ⟨hdnot, hnd'⟩ := List.nodup_cons.mp hnd
        refine ⟨hnd', fun e he => ?_⟩
        have hde : d ≠ e := fun h => hdnot (h ▸ he)
        have hde' : d - 1 ≠ e - 1 := by
          have h1 := hall e (List.mem_cons_of_mem _ he)
          omega
        rw [getD_set_ne hde']
        exact hfor e (List.mem_cons_of_mem _ he)

theorem areDistinctDigits_eq_true_iff {ds : List Nat}
    (h : ∀ d ∈ ds, 1 ≤ d ∧ d ≤ 9) :
    areDistinctDigits ds = some true ↔ ds.Nodup := by
  rw [areDistinctDigits,
    areDistinctDigitsAux_eq_true_iff (List.replicate 9 false) (by simp) h]
  constructor
  · exact fun hx => hx.1
  · exact fun hx => ⟨hx, fun d _ => replicate_false_getD (d - 1)⟩

/-! ### Layer 3: the validity checker against the mathematical validity -/

theorem nodup_filterMap_iff {α : Type} {l : List α} (hl : l.Nodup)
    (f : α → Option Nat) :
    (l.filterMap f).Nodup ↔
      ∀ a ∈ l, ∀ b ∈ l, ∀ d, f a = some d → f b = some d → a = b := by
  induction l with
  | nil => simp
  | cons a l ih =>
    obtain ⟨hal, hl'⟩ := List.nodup_cons.mp hl
    rw [List.filterMap_cons]
    cases hfa : f a with
    | none =>
      rw [ih hl']
      constructor
      · intro h b hb c hc d hfb hfc
        rcases List.mem_cons.mp hb with rfl | hb'
        · rw [hfa] at hfb; cases hfb
        · rcases List.mem_cons.mp hc with rfl | hc'
          · rw [hfa] at hfc; cases hfc
          · exact h b hb' c hc' d hfb hfc
      · intro h b hb c hc d hfb hfc
        exact h b (List.mem_cons_of_mem _ hb) c (List.mem_cons_of_mem _ hc) d hfb hfc
    | some d₀ =>
      rw [List.nodup_cons, ih hl']
      constructor
      · rintro ⟨hnotmem, h⟩ b hb c hc d hfb hfc
        rcases List.mem_cons.mp hb with rfl | hb' <;>
          rcases List.mem_cons.mp hc with rfl | hc'
        · rfl
        · exfalso
          apply hnotmem
          rw [hfa] at hfb
          injection hfb with hdd
          subst hdd
          exact List.mem_filterMap.mpr ⟨c, hc', hfc⟩
        · exfalso
          apply hnotmem
          rw [hfa] at hfc
          injection hfc with hdd
          subst hdd
          exact List.mem_filterMap.mpr ⟨b, hb', hfb⟩
        · exact h b hb' c hc' d hfb hfc
      · intro h
        refine ⟨?_, fun b hb c hc d hfb hfc =>
          h b (List.mem_cons_of_mem _ hb) c (List.mem_cons_of_mem _ hc) d hfb hfc⟩
        intro hmem
        obtain ⟨b, hb, hfb⟩ := List.mem_filterMap.mp hmem
        have hab := h a (List.mem_cons_self a l) b (List.mem_cons_of_mem _ hb) d₀ hfa hfb
        subst hab
        exact hal hb

theorem rowsOK_iff (t : Table) :
    RowsOK t ↔ ∀ i < 9, (rowDigitsAt t i).Nodup := by
  unfold RowsOK rowDigitsAt
  constructor
  · intro h i hi
    rw [nodup_filterMap_iff (List.nodup_range 9)]
    intro a ha b hb d hfa hfb
    by_contra hab
    exact h i hi a (List.mem_range.mp ha) b (List.mem_range.mp hb) hab d hfa hfb
  · intro h i hi j₁ hj₁ j₂ hj₂ hne d hd₁ hd₂
    have hx := (nodup_filterMap_iff (List.nodup_range 9) _).mp (h i hi)
      j₁ (List.mem_range.mpr hj₁) j₂ (List.mem_range.mpr hj₂) d hd₁ hd₂
    exact hne hx

theorem colsOK_iff (t : Table) :
    ColsOK t ↔ ∀ j < 9, (colDigitsAt t j).Nodup := by
  unfold ColsOK colDigitsAt
  constructor
  · intro h j hj
    rw [nodup_filterMap_iff (List.nodup_range 9)]
    intro a ha b hb d hfa hfb
    by_contra hab
    exact h j hj a (List.mem_range.mp ha) b (List.mem_range.mp hb) hab d hfa hfb
  · intro h j hj i₁ hi₁ i₂ hi₂ hne d hd₁ hd₂
    have hx := (nodup_filterMap_iff (List.nodup_range 9) _).mp (h j hj)
      i₁ (List.mem_range.mpr hi₁) i₂ (List.mem_range.mpr hi₂) d hd₁ hd₂
    exact hne hx

theorem mem_boxOffsets {p : Nat × Nat} : p ∈ boxOffsets ↔ p.1 < 3 ∧ p.2 < 3 := by
  obtain ⟨x, y⟩ := p
  constructor
  · intro h
    simp only [boxOffsets, List.mem_cons, List.not_mem_nil, or_false,
      Prod.mk.injEq] at h
    rcases h with h | h | h | h | h | h | h | h | h <;> omega
  · rintro ⟨hx, hy⟩
    simp only [boxOffsets, List.mem_cons, List.not_mem_nil, or_false,
      Prod.mk.injEq]
    interval_cases x <;> interval_cases y <;> simp

theorem nodup_boxOffsets : boxOffsets.Nodup := by decide

theorem boxesOK_iff (t : Table) :
    BoxesOK t ↔ ∀ p ∈ boxOffsets, (boxDigitsAt t p.1 p.2).Nodup := by
  unfold BoxesOK boxDigitsAt
  constructor
  · intro h p hp
    obtain ⟨hp1, hp2⟩ := mem_boxOffsets.mp hp
    rw [nodup_filterMap_iff nodup_boxOffsets]
    intro a ha b hb d hfa hfb
    obtain ⟨ha1, ha2⟩ := mem_boxOffsets.mp ha
    obtain ⟨hb1, hb2⟩ := mem_boxOffsets.mp hb
    by_contra hab
    refine h (3 * p.1 + a.1) (by omega) (3 * p.2 + a.2) (by omega)
      (3 * p.1 + b.1) (by omega) (3 * p.2 + b.2) (by omega)
      (by omega) (by omega) ?_ d hfa hfb
    intro ⟨h1, h2⟩
    apply hab
    have : a.1 = b.1 := by omega
    have : a.2 = b.2 := by omega
    exact Prod.ext (by omega) (by omega)
  · intro h i₁ hi₁ j₁ hj₁ i₂ hi₂ j₂ hj₂ hbi hbj hne d hd₁ hd₂
    have hp : (i₁ / 3, j₁ / 3) ∈ boxOffsets := mem_boxOffsets.mpr (by constructor <;> [omega; omega])
    have hx := (nodup_filterMap_iff nodup_boxOffsets _).mp (h _ hp)
      (i₁ % 3, j₁ % 3) (mem_boxOffsets.mpr (by constructor <;> [omega; omega]))
      (i₂ % 3, j₂ % 3) (mem_boxOffsets.mpr (by constructor <;> [omega; omega])) d
      (by
        have e1 : 3 * (i₁ / 3) + i₁ % 3 = i₁ := by omega
        have e2 : 3 * (j₁ / 3) + j₁ % 3 = j₁ := by omega
        simpa [e1, e2] using hd₁)
      (by
        have e1 : 3 * (i₁ / 3) + i₂ % 3 = i₂ := by omega
        have e2 : 3 * (j₁ / 3) + j₂ % 3 = j₂ := by omega
        simpa [e1, e2] using hd₂)
    apply hne
    have h1 := congrArg Prod.fst hx
    have h2 := congrArg Prod.snd hx
    simp only at h1 h2
    exact ⟨by omega, by omega⟩

theorem allUnitsDistinct_eq_true_iff {us : List (List Nat)}
    (h : ∀ u ∈ us, ∀ d ∈ u, 1 ≤ d ∧ d ≤ 9) :
    allUnitsDistinct us = some true ↔ ∀ u ∈ us, u.Nodup := by
  induction us with
  | nil => simp [allUnitsDistinct]
  | cons u us ih =>
    rw [allUnitsDistinct]
    have hu := h u (List.mem_cons_self u us)
    have hsome := areDistinctDigitsAux_isSome hu (List.replicate 9 false)
    have hiff := areDistinctDigits_eq_true_iff hu
    cases hval : areDistinctDigits u with
    | none => rw [areDistinctDigits] at hval; rw [hval] at hsome; cases hsome
    | some b =>
      cases b with
      | false =>
        simp only [List.mem_cons]
        constructor
        · intro hx; cases hx
        · intro hx
          have : u.Nodup := hx u (Or.inl rfl)
          rw [hval] at hiff
          have := hiff.mpr this
          cases this
      | true =>
        rw [ih (fun v hv => h v (List.mem_cons_of_mem _ hv))]
        rw [hval] at hiff
        constructor
        · intro hx v hv
          rcases List.mem_cons.mp hv with rfl | hv'
          · exact hiff.mp rfl
          · exact hx v hv'
        · intro hx v hv
          exact hx v (List.mem_cons_of_mem _ hv)

theorem allUnitsDistinct_isSome {us : List (List Nat)}
    (h : ∀ u ∈ us, ∀ d ∈ u, 1 ≤ d ∧ d ≤ 9) :
    (allUnitsDistinct us).isSome = true := by
  induction us with
  | nil => rfl
  | cons u us ih =>
    rw [allUnitsDistinct]
    have hu := h u (List.mem_cons_self u us)
    have hsome := areDistinctDigitsAux_isSome hu (List.replicate 9 false)
    cases hval : areDistinctDigits u with
    | none => rw [areDistinctDigits] at hval; rw [hval] at hsome; cases hsome
    | some b =>
      cases b with
      | false => rfl
      | true => exact ih (fun v hv => h v (List.mem_cons_of_mem _ hv))

theorem rowDigitsAt_range {t : Table} (hwf : wfTable t) {i : Nat} (hi : i < 9) :
    ∀ d ∈ rowDigitsAt t i, 1 ≤ d ∧ d ≤ 9 := by
  intro d hd
  obtain ⟨j, hj, hdig⟩ := List.mem_filterMap.mp hd
  have hcell := (hwf.2 i hi).2 j (List.mem_range.mp hj)
  rw [digitAt_eq_some.mp hdig] at hcell
  exact hcell

theorem colDigitsAt_range {t : Table} (hwf : wfTable t) {j : Nat} (hj : j < 9) :
    ∀ d ∈ colDigitsAt t j, 1 ≤ d ∧ d ≤ 9 := by
  intro d hd
  obtain ⟨i, hi, hdig⟩ := List.mem_filterMap.mp hd
  have hcell := (hwf.2 i (List.mem_range.mp hi)).2 j hj
  rw [digitAt_eq_some.mp hdig] at hcell
  exact hcell

theorem boxDigitsAt_range {t : Table} (hwf : wfTable t) {p : Nat × Nat}
    (hp : p ∈ boxOffsets) : ∀ d ∈ boxDigitsAt t p.1 p.2, 1 ≤ d ∧ d ≤ 9 := by
  intro d hd
  obtain ⟨q, hq, hdig⟩ := List.mem_filterMap.mp hd
  obtain ⟨hp1, hp2⟩ := mem_boxOffsets.mp hp
  obtain ⟨hq1, hq2⟩ := mem_boxOffsets.mp hq
  have hcell := (hwf.2 (3 * p.1 + q.1) (by omega)).2 (3 * p.2 + q.2) (by omega)
  rw [digitAt_eq_some.mp hdig] at hcell
  exact hcell

theorem areRowsValid_eq_true_iff {t : Table} (hwf : wfTable t) :
    areRowsValid t = some true ↔ RowsOK t := by
  rw [areRowsValid, allUnitsDistinct_eq_true_iff, rowsOK_iff]
  · constructor
    · intro h i hi
      exact h _ (List.mem_map.mpr ⟨i, List.mem_range.mpr hi, rfl⟩)
    · intro h u hu
      obtain ⟨i, hi, rfl⟩ := List.mem_map.mp hu
      exact h i (List.mem_range.mp hi)
  · intro u hu
    obtain ⟨i, hi, rfl⟩ := List.mem_map.mp hu
    exact rowDigitsAt_range hwf (List.mem_range.mp hi)

theorem areColsValid_eq_true_iff {t : Table} (hwf : wfTable t) :
    areColsValid t = some true ↔ ColsOK t := by
  rw [areColsValid, allUnitsDistinct_eq_true_iff, colsOK_iff]
  · constructor
    · intro h j hj
      exact h _ (List.mem_map.mpr ⟨j, List.mem_range.mpr hj, rfl⟩)
    · intro h u hu
      obtain ⟨j, hj, rfl⟩ := List.mem_map.mp hu
      exact h j (List.mem_range.mp hj)
  · intro u hu
    obtain ⟨j, hj, rfl⟩ := List.mem_map.mp hu
    exact colDigitsAt_range hwf (List.mem_range.mp hj)

theorem are3By3CellsValid_eq_true_iff {t : Table} (hwf : wfTable t) :
    are3By3CellsValid t = some true ↔ BoxesOK t := by
  rw [are3By3CellsValid, allUnitsDistinct_eq_true_iff, boxesOK_iff]
  · constructor
    · intro h p hp
      exact h _ (List.mem_map.mpr ⟨p, hp, rfl⟩)
    · intro h u hu
      obtain ⟨p, hp, rfl⟩ := List.mem_map.mp hu
      exact h p hp
  · intro u hu
    obtain ⟨p, hp, rfl⟩ := List.mem_map.mp hu
    exact boxDigitsAt_range hwf hp

theorem areRowsValid_isSome {t : Table} (hwf : wfTable t) :
    (areRowsValid t).isSome = true := by
  apply allUnitsDistinct_isSome
  intro u hu
  obtain ⟨i, hi, rfl⟩ := List.mem_map.mp hu
  exact rowDigitsAt_range hwf (List.mem_range.mp hi)

theorem areColsValid_isSome {t : Table} (hwf : wfTable t) :
    (areColsValid t).isSome = true := by
  apply allUnitsDistinct_isSome
  intro u hu
  obtain ⟨j, hj, rfl⟩ := List.mem_map.mp hu
  exact colDigitsAt_range hwf (List.mem_range.mp hj)

theorem are3By3CellsValid_isSome {t : Table} (hwf : wfTable t) :
    (are3By3CellsValid t).isSome = true := by
  apply allUnitsDistinct_isSome
  intro u hu
  obtain ⟨p, hp, rfl⟩ := List.mem_map.mp hu
  exact boxDigitsAt_range hwf hp

theorem isValidSudoku_isSome {t : Table} (hwf : wfTable t) :
    (isValidSudoku t).isSome = true := by
  rw [isValidSudoku]
  have h1 := areRowsValid_isSome hwf
  have h2 := areColsValid_isSome hwf
  have h3 := are3By3CellsValid_isSome hwf
  cases hv1 : areRowsValid t with
  | none => rw [hv1] at h1; cases h1
  | some b1 =>
    cases b1
    · rfl
    · cases hv2 : areColsValid t with
      | none => rw [hv2] at h2; cases h2
      | some b2 =>
        cases b2
        · rfl
        · exact h3

theorem isValidSudoku_eq_true_iff {t : Table} (hwf : wfTable t) :
    isValidSudoku t = some true ↔ TableOK t := by
  rw [isValidSudoku]
  have h1 := areRowsValid_isSome hwf
  have h2 := areColsValid_isSome hwf
  have h3 := are3By3CellsValid_isSome hwf
  have e1 := areRowsValid_eq_true_iff hwf
  have e2 := areColsValid_eq_true_iff hwf
  have e3 := are3By3CellsValid_eq_true_iff hwf
  cases hv1 : areRowsValid t with
  | none => rw [hv1] at h1; cases h1
  | some b1 =>
    rw [hv1] at e1
    cases b1 with
    | false =>
      constructor
      · intro hx; cases hx
      · intro hok
        have := e1.mpr hok.1
        cases this
    | true =>
      cases hv2 : areColsValid t with
      | none => rw [hv2] at h2; cases h2
      | some b2 =>
        rw [hv2] at e2
        cases b2 with
        | false =>
          constructor
          · intro hx; cases hx
          · intro hok
            have := e2.mpr hok.2.1
            cases this
        | true =>
          rw [are3By3CellsValid_eq_true_iff hwf]
          constructor
          · intro hb
            exact ⟨e1.mp rfl, e2.mp rfl, hb⟩
          · intro hok
            exact hok.2.2

/-! ### Layer 4: the empty-cell scan -/

theorem findSome?_range'_eq_some {β : Type} (f : Nat → Option β) :
    ∀ (n a : Nat) (b : β),
      ((List.range' a n).findSome? f = some b ↔
        ∃ k, a ≤ k ∧ k < a + n ∧ f k = some b ∧
          ∀ m, a ≤ m → m < k → f m = none) := by
  intro n
  induction n with
  | zero =>
    intro a b
    constructor
    · intro h; cases h
    · rintro ⟨k, hk1, hk2, -, -⟩; omega
  | succ n ih =>
    intro a b
    rw [List.range'_succ, List.findSome?_cons]
    cases hfa : f a with
    | some b₀ =>
      constructor
      · intro h
        injection h with hb
        exact ⟨a, Nat.le_refl a, by omega, by rw [hfa, hb], fun m h1 h2 => by omega⟩
      · rintro ⟨k, hk1, hk2, hk3, hk4⟩
        rcases Nat.eq_or_lt_of_le hk1 with rfl | hlt
        · rw [hfa] at hk3
          exact hk3
        · have := hk4 a (Nat.le_refl a) hlt
          rw [hfa] at this
          cases this
    | none =>
      rw [ih (a + 1) b]
      constructor
      · rintro ⟨k, hk1, hk2, hk3, hk4⟩
        refine ⟨k, by omega, by omega, hk3, fun m h1 h2 => ?_⟩
        rcases Nat.eq_or_lt_of_le h1 with rfl | hlt
        · exact hfa
        · exact hk4 m hlt h2
      · rintro ⟨k, hk1, hk2, hk3, hk4⟩
        have hka : k ≠ a := by
          rintro rfl
          rw [hfa] at hk3
          cases hk3
        exact ⟨k, by omega, by omega, hk3, fun m h1 h2 => hk4 m (by omega) h2⟩

theorem findSome?_range'_eq_none {β : Type} (f : Nat → Option β) :
    ∀ (n a : Nat),
      ((List.range' a n).findSome? f = none ↔
        ∀ k, a ≤ k → k < a + n → f k = none) := by
  intro n
  induction n with
  | zero =>
    intro a
    constructor
    · intro _ k h1 h2; omega
    · intro _; rfl
  | succ n ih =>
    intro a
    rw [List.range'_succ, List.findSome?_cons]
    cases hfa : f a with
    | some b₀ =>
      constructor
      · intro h; cases h
      · intro h
        have := h a (Nat.le_refl a) (by omega)
        rw [hfa] at this
        cases this
    | none =>
      rw [ih (a + 1)]
      constructor
      · intro h k h1 h2
        rcases Nat.eq_or_lt_of_le h1 with rfl | hlt
        · exact hfa
        · exact h k hlt (by omega)
      · intro h k h1 h2
        exact h k (by omega) (by omega)

theorem scanRowForEmpty_eq_some {t : Table} (ht : t.length = 9) {i sc : Nat}
    {ℓ' : CellLocation} (h : scanRowForEmpty t i sc = some ℓ') :
    ℓ'.row = i ∧ sc ≤ ℓ'.col ∧ ℓ'.col < 9 ∧
    getCell t i ℓ'.col = SudokuCell.Empty ∧
    ∀ j, sc ≤ j → j < ℓ'.col → getCell t i j ≠ SudokuCell.Empty := by
  unfold scanRowForEmpty at h
  rw [ht] at h
  obtain ⟨k, hk1, hk2, hk3, hk4⟩ := (findSome?_range'_eq_some _ _ _ _).mp h
  by_cases hek : getCell t i k = SudokuCell.Empty
  · rw [if_pos hek] at hk3
    injection hk3 with hℓ
    subst hℓ
    refine ⟨rfl, hk1, by show k < 9; omega, hek, fun j h1 h2 => ?_⟩
    have := hk4 j h1 h2
    by_cases he : getCell t i j = SudokuCell.Empty
    · rw [if_pos he] at this; cases this
    · exact he
  · rw [if_neg hek] at hk3
    cases hk3

theorem scanRowForEmpty_eq_none {t : Table} (ht : t.length = 9) {i sc : Nat}
    (h : scanRowForEmpty t i sc = none) :
    ∀ j, sc ≤ j → j < 9 → getCell t i j ≠ SudokuCell.Empty := by
  unfold scanRowForEmpty at h
  rw [ht] at h
  intro j h1 h2
  have := (findSome?_range'_eq_none _ _ _).mp h j h1 (by omega)
  by_cases he : getCell t i j = SudokuCell.Empty
  · rw [if_pos he] at this; cases this
  · exact he

theorem nextEmpty_some_props {t : Table} (ht : t.length = 9) {ℓ ℓ' : CellLocation}
    (hy : ℓ.col ≤ 9) (h : nextEmptyCellStartingFrom t ℓ = some ℓ') :
    getCell t ℓ'.row ℓ'.col = SudokuCell.Empty ∧ ℓ'.row < 9 ∧ ℓ'.col < 9 ∧
    rmIdx ℓ ≤ rmIdx ℓ' ∧
    ∀ i j, i < 9 → j < 9 → rmIdx ℓ ≤ i * 9 + j → i * 9 + j < rmIdx ℓ' →
      getCell t i j ≠ SudokuCell.Empty := by
  unfold nextEmptyCellStartingFrom at h
  rw [ht] at h
  obtain ⟨i₀, hi1, hi2, hi3, hi4⟩ := (findSome?_range'_eq_some _ _ _ _).mp h
  have hi0 : i₀ < 9 := by omega
  obtain ⟨hrow, hsc, hcol, hemp, hpre⟩ := scanRowForEmpty_eq_some ht hi3
  have hscval : (if ℓ.row < i₀ then 0 else ℓ.col) ≤ ℓ'.col := hsc
  subst hrow
  refine ⟨hemp, hi0, hcol, ?_, ?_⟩
  · unfold rmIdx
    by_cases hlt : ℓ.row < ℓ'.row
    · omega
    · have heq : ℓ'.row = ℓ.row := by omega
      rw [if_neg (by omega)] at hscval
      omega
  · intro i j hilt hjlt hge hless
    unfold rmIdx at hge hless
    rcases Nat.lt_trichotomy i ℓ'.row with hir | hir | hir
    · -- a row strictly before the found row: that row's scan returned none
      have hige : ℓ.row ≤ i := by omega
      have hnone := hi4 i hige hir
      have := scanRowForEmpty_eq_none ht hnone j ?_ hjlt
      · exact this
      · by_cases hieq : ℓ.row < i
        · rw [if_pos hieq]; omega
        · rw [if_neg hieq]
          have : i = ℓ.row := by omega
          omega
    · subst hir
      have hjless : j < ℓ'.col := by omega
      apply hpre j ?_ hjless
      by_cases hieq : ℓ.row < ℓ'.row
      · rw [if_pos hieq]; omega
      · rw [if_neg hieq]
        have : ℓ'.row = ℓ.row := by omega
        omega
    · omega

theorem nextEmpty_none_props {t : Table} (ht : t.length = 9) {ℓ : CellLocation}
    (h : nextEmptyCellStartingFrom t ℓ = none) :
    ∀ i j, i < 9 → j < 9 → rmIdx ℓ ≤ i * 9 + j →
      getCell t i j ≠ SudokuCell.Empty := by
  unfold nextEmptyCellStartingFrom at h
  rw [ht] at h
  intro i j hilt hjlt hge
  unfold rmIdx at hge
  have hirow : ℓ.row ≤ i := by omega
  have hnone := (findSome?_range'_eq_none _ _ _).mp h i hirow (by omega)
  apply scanRowForEmpty_eq_none ht hnone j ?_ hjlt
  by_cases hieq : ℓ.row < i
  · rw [if_pos hieq]; omega
  · rw [if_neg hieq]
    have : i = ℓ.row := by omega
    omega

/-! ### Layer 5: the candidate pool -/

theorem getCell_wf {t : Table} (hwf : wfTable t) (i j : Nat) :
    cellWF (getCell t i j) := by
  by_cases hi : i < 9
  · by_cases hj : j < 9
    · exact (hwf.2 i hi).2 j hj
    · have hlen := (hwf.2 i hi).1
      unfold getCell
      rw [List.getD_eq_getElem?_getD (t.getD i []),
        List.getElem?_eq_none (by omega)]
      trivial
  · unfold getCell
    rw [List.getD_eq_getElem?_getD t,
      List.getElem?_eq_none (by have := hwf.1; omega)]
    trivial

theorem markCells_spec (cells : List SudokuCell) (h : ∀ c ∈ cells, cellWF c) :
    ∀ arr : List Bool, arr.length = 9 →
    ∃ arr', markCells cells arr = some arr' ∧ arr'.length = 9 ∧
      ∀ k, k < 9 → (arr'.getD k false = true ↔
        arr.getD k false = true ∨ SudokuCell.Filled (k + 1) ∈ cells) := by
  induction cells with
  | nil =>
    intro arr hlen
    exact ⟨arr, rfl, hlen, fun k _ => by simp⟩
  | cons c cs ih =>
    intro arr hlen
    cases c with
    | Empty =>
      obtain ⟨arr', h1, h2, h3⟩ := ih (fun x hx => h x (List.mem_cons_of_mem _ hx)) arr hlen
      refine ⟨arr', h1, h2, fun k hk => ?_⟩
      rw [h3 k hk]
      constructor
      · rintro (hx | hx)
        · exact Or.inl hx
        · exact Or.inr (List.mem_cons_of_mem _ hx)
      · rintro (hx | hx)
        · exact Or.inl hx
        · rcases List.mem_cons.mp hx with hc | hc
          · cases hc
          · exact Or.inr hc
    | Filled d =>
      have hd : 1 ≤ d ∧ d ≤ 9 := h _ (List.mem_cons_self _ _)
      obtain ⟨arr', h1, h2, h3⟩ := ih (fun x hx => h x (List.mem_cons_of_mem _ hx))
        (arr.set (d - 1) true) (by simp [hlen])
      refine ⟨arr', ?_, h2, fun k hk => ?_⟩
      · rw [markCells, markDigit, if_pos hd]
        exact h1
      · rw [h3 k hk]
        constructor
        · rintro (hx | hx)
          · by_cases hkd : d - 1 = k
            · refine Or.inr (by rw [List.mem_cons]; left; congr 1; omega)
            · rw [getD_set_ne hkd] at hx
              exact Or.inl hx
          · exact Or.inr (List.mem_cons_of_mem _ hx)
        · rintro (hx | hx)
          · by_cases hkd : d - 1 = k
            · left; rw [← hkd, getD_set_self (by omega)]
            · left; rw [getD_set_ne hkd]; exact hx
          · rcases List.mem_cons.mp hx with hc | hc
            · injection hc with hdk
              left
              have hdk1 : d - 1 = k := by omega
              rw [← hdk1, getD_set_self (by omega)]
            · exact Or.inr hc

theorem markCells_length {cells : List SudokuCell} :
    ∀ {arr arr' : List Bool}, markCells cells arr = some arr' →
      arr'.length = arr.length := by
  induction cells with
  | nil => intro arr arr' h; cases h; rfl
  | cons c cs ih =>
    intro arr arr' h
    cases c with
    | Empty => exact ih h
    | Filled d =>
      rw [markCells] at h
      cases hmd : markDigit d arr with
      | none => rw [hmd] at h; cases h
      | some arr₂ =>
        rw [hmd] at h
        have := ih h
        rw [markDigit] at hmd
        by_cases hd : 1 ≤ d ∧ d ≤ 9
        · rw [if_pos hd] at hmd
          injection hmd with harr
          rw [this, ← harr, List.length_set]
        · rw [if_neg hd] at hmd; cases hmd

theorem filterMap_congr_mem {α β : Type} {l : List α} {f g : α → Option β}
    (h : ∀ a ∈ l, f a = g a) : l.filterMap f = l.filterMap g := by
  induction l with
  | nil => rfl
  | cons a l ih =>
    rw [List.filterMap_cons, List.filterMap_cons, h a (List.mem_cons_self a l),
      ih (fun b hb => h b (List.mem_cons_of_mem _ hb))]

theorem enumFrom_filter_map_form : ∀ (arr : List Bool) (n : Nat),
    (((List.enumFrom n arr).filter (fun x => !x.2)).map (fun x => x.1 + 1)) =
      (List.range' n arr.length).filterMap
        (fun k => if arr.getD (k - n) false then none else some (k + 1)) := by
  intro arr
  induction arr with
  | nil => intro n; rfl
  | cons a arr ih =>
    intro n
    rw [List.enumFrom_cons, List.length_cons, List.range'_succ,
      List.filterMap_cons]
    have hcongr : (List.range' (n + 1) arr.length).filterMap
          (fun k => if arr.getD (k - (n + 1)) false then none else some (k + 1)) =
        (List.range' (n + 1) arr.length).filterMap
          (fun k => if (a :: arr).getD (k - n) false then none else some (k + 1)) := by
      apply filterMap_congr_mem
      intro k hk
      obtain ⟨i, hi, rfl⟩ := List.mem_range'.mp hk
      have hsub : n + 1 + 1 * i - n = (n + 1 + 1 * i - (n + 1)) + 1 := by omega
      rw [hsub, List.getD_cons_succ]
    cases a with
    | true =>
      have hnone : (if (true :: arr).getD (n - n) false = true then none
          else some (n + 1)) = (none : Option Nat) := by simp
      rw [hnone]
      have hfil : List.filter (fun x => !x.2) ((n, true) :: List.enumFrom (n + 1) arr)
          = List.filter (fun x => !x.2) (List.enumFrom (n + 1) arr) := by
        rw [List.filter_cons]
        simp
      rw [hfil, ih (n + 1), hcongr]
    | false =>
      have hsome : (if (false :: arr).getD (n - n) false = true then none
          else some (n + 1)) = some (n + 1) := by simp
      rw [hsome]
      have hfil : List.filter (fun x => !x.2) ((n, false) :: List.enumFrom (n + 1) arr)
          = (n, false) :: List.filter (fun x => !x.2) (List.enumFrom (n + 1) arr) := by
        rw [List.filter_cons]
        simp
      rw [hfil, List.map_cons, ih (n + 1), hcongr]

theorem possibleValues_spec {t : Table} (hwf : wfTable t) (ℓ : CellLocation) :
    ∃ pv, possibleValues t ℓ = some pv ∧ pv.length ≤ 9 ∧
      ∀ v, v ∈ pv ↔ (1 ≤ v ∧ v ≤ 9 ∧
        SudokuCell.Filled v ∉ rowCellsOf t ℓ.row ∧
        SudokuCell.Filled v ∉ colCellsOf t ℓ.col ∧
        SudokuCell.Filled v ∉ boxCellsOf t ℓ) := by
  have hrowwf : ∀ c ∈ rowCellsOf t ℓ.row, cellWF c := by
    intro c hc
    obtain ⟨j, hj, rfl⟩ := List.getElem_of_mem hc
    rw [← getD_of_lt SudokuCell.Empty hj]
    exact getCell_wf hwf ℓ.row j
  have hcolwf : ∀ c ∈ colCellsOf t ℓ.col, cellWF c := by
    intro c hc
    obtain ⟨row, hrow, rfl⟩ := List.mem_map.mp hc
    obtain ⟨i, hi, rfl⟩ := List.getElem_of_mem hrow
    rw [← getD_of_lt [] hi]
    exact getCell_wf hwf i ℓ.col
  have hboxwf : ∀ c ∈ boxCellsOf t ℓ, cellWF c := by
    intro c hc
    obtain ⟨q, _, rfl⟩ := List.mem_map.mp hc
    exact getCell_wf hwf q.row q.col
  obtain ⟨a1, e1, l1, m1⟩ :=
    markCells_spec _ hrowwf (List.replicate 9 false) (by simp)
  obtain ⟨a2, e2, l2, m2⟩ := markCells_spec _ hcolwf a1 l1
  obtain ⟨a3, e3, l3, m3⟩ := markCells_spec _ hboxwf a2 l2
  refine ⟨(a3.enum.filter (fun x => !x.2)).map (fun x => x.1 + 1),
    by simp only [possibleValues, e1, e2, e3], ?_, ?_⟩
  · calc ((a3.enum.filter (fun x => !x.2)).map (fun x => x.1 + 1)).length
        = (a3.enum.filter (fun x => !x.2)).length := List.length_map _ _
      _ ≤ a3.enum.length := List.length_filter_le _ _
      _ = 9 := by rw [List.enum_length, l3]
  · intro v
    have henum : a3.enum = List.enumFrom 0 a3 := rfl
    rw [henum, enumFrom_filter_map_form a3 0, List.mem_filterMap]
    constructor
    · rintro ⟨k, hk, hif⟩
      obtain ⟨i, hi, rfl⟩ := List.mem_range'.mp hk
      rw [l3] at hi
      simp only [Nat.zero_add, Nat.one_mul, Nat.sub_zero] at hif ⊢
      by_cases hb : a3.getD i false = true
      · rw [if_pos hb] at hif; cases hif
      · rw [if_neg hb] at hif
        injection hif with hv
        subst hv
        have hfalse : a3.getD i false = false := by
          revert hb; cases a3.getD i false <;> simp
        rw [m3 i hi] at hb
        obtain ⟨hb2, hnb⟩ := not_or.mp hb
        rw [m2 i hi] at hb2
        obtain ⟨hb1, hnc⟩ := not_or.mp hb2
        rw [m1 i hi] at hb1
        obtain ⟨-, hnr⟩ := not_or.mp hb1
        exact ⟨by omega, by omega, hnr, hnc, hnb⟩
    · rintro ⟨hv1, hv2, hnr, hnc, hnb⟩
      refine ⟨v - 1, ?_, ?_⟩
      · apply List.mem_range'.mpr
        exact ⟨v - 1, by omega, by omega⟩
      · have hk : v - 1 < 9 := by omega
        simp only [Nat.sub_zero]
        have hb : ¬(a3.getD (v - 1) false = true) := by
          rw [m3 _ hk, m2 _ hk, m1 _ hk]
          have hrep := replicate_false_getD (v - 1)
          have hveq : v - 1 + 1 = v := by omega
          rw [hveq, hrep]
          rintro (((hx | hx) | hx) | hx)
          · cases hx
          · exact hnr hx
          · exact hnc hx
          · exact hnb hx
        rw [if_neg hb]
        congr 1
        omega

theorem poolsOK_mono_excl {t : Table} :
    ∀ (fs : List RecursionState) (excl excl' : List CellLocation),
      (∀ m ∈ excl, m ∈ excl') → PoolsOK t fs excl → PoolsOK t fs excl' := by
  intro fs
  induction fs with
  | nil => intro _ _ _ _; trivial
  | cons f rest ih =>
    intro excl excl' hsub ⟨hhead, htail⟩
    refine ⟨?_, ih _ _ ?_ htail⟩
    · intro v hv i j hi hj hu hnm
      apply hhead v hv i j hi hj hu
      intro m hm
      rcases List.mem_cons.mp hm with rfl | hm'
      · exact hnm _ (List.mem_cons_self _ _)
      · exact hnm m (List.mem_cons_of_mem _ (hsub m hm'))
    · intro m hm
      rcases List.mem_cons.mp hm with rfl | hm'
      · exact List.mem_cons_self _ _
      · exact List.mem_cons_of_mem _ (hsub m hm')

theorem poolsOK_of_eq_outside {t t' : Table} :
    ∀ (fs : List RecursionState) (excl : List CellLocation),
      (∀ i j, i < 9 → j < 9 → (∀ m ∈ excl, CellLocation.mk i j ≠ m) →
        digitAt t' i j = digitAt t i j) →
      PoolsOK t fs excl → PoolsOK t' fs excl := by
  intro fs
  induction fs with
  | nil => intro _ _ _; trivial
  | cons f rest ih =>
    intro excl heq ⟨hhead, htail⟩
    refine ⟨?_, ih _ ?_ htail⟩
    · intro v hv i j hi hj hu hnm
      rw [heq i j hi hj (fun m hm => hnm m (List.mem_cons_of_mem _ hm))]
      exact hhead v hv i j hi hj hu hnm
    · intro i j hi hj hnm
      exact heq i j hi hj (fun m hm => hnm m (List.mem_cons_of_mem _ hm))

theorem poolsOK_clear {t t' : Table} {ℓ₀ : CellLocation}
    (ht' : ∀ i j, i < 9 → j < 9 → digitAt t' i j =
      if i = ℓ₀.row ∧ j = ℓ₀.col then none else digitAt t i j) :
    ∀ (fs : List RecursionState) (excl excl' : List CellLocation),
      (∀ x, x ∈ excl ↔ x = ℓ₀ ∨ x ∈ excl') →
      PoolsOK t fs excl → PoolsOK t' fs excl' := by
  intro fs
  induction fs with
  | nil => intro _ _ _ _; trivial
  | cons f rest ih =>
    intro excl excl' hiff ⟨hhead, htail⟩
    constructor
    · intro v hv i j hi hj hu hnm
      rw [ht' i j hi hj]
      by_cases hpos : i = ℓ₀.row ∧ j = ℓ₀.col
      · rw [if_pos hpos]
        intro hx
        cases hx
      · rw [if_neg hpos]
        apply hhead v hv i j hi hj hu
        intro m hm
        rcases List.mem_cons.mp hm with rfl | hm'
        · exact hnm _ (List.mem_cons_self _ _)
        · rcases (hiff m).mp hm' with rfl | hmm
          · intro hx
            exact hpos ⟨congrArg CellLocation.row hx, congrArg CellLocation.col hx⟩
          · exact hnm m (List.mem_cons_of_mem _ hmm)
    · apply ih (f.attempted_cell :: excl) (f.attempted_cell :: excl')
      · intro x
        constructor
        · intro hx
          rcases List.mem_cons.mp hx with rfl | hx'
          · exact Or.inr (List.mem_cons_self _ _)
          · rcases (hiff x).mp hx' with rfl | hxx
            · exact Or.inl rfl
            · exact Or.inr (List.mem_cons_of_mem _ hxx)
        · intro hx
          rcases hx with rfl | hx'
          · exact List.mem_cons_of_mem _ ((hiff x).mpr (Or.inl rfl))
          · rcases List.mem_cons.mp hx' with rfl | hxx
            · exact List.mem_cons_self _ _
            · exact List.mem_cons_of_mem _ ((hiff x).mpr (Or.inr hxx))
      · exact htail

theorem filled_mem_rowCells {t : Table} (hwf : wfTable t) {i j v : Nat}
    (hi : i < 9) (hj : j < 9) (h : getCell t i j = SudokuCell.Filled v) :
    SudokuCell.Filled v ∈ rowCellsOf t i := by
  have hlen := (hwf.2 i hi).1
  have hjj : j < (t.getD i []).length := by omega
  rw [← h]
  unfold rowCellsOf getCell
  rw [getD_of_lt _ hjj]
  exact List.getElem_mem _

theorem filled_mem_colCells {t : Table} (hwf : wfTable t) {i j v : Nat}
    (hi : i < 9) (_hj : j < 9) (h : getCell t i j = SudokuCell.Filled v) :
    SudokuCell.Filled v ∈ colCellsOf t j := by
  have hlen := hwf.1
  have hii : i < t.length := by omega
  rw [← h]
  unfold colCellsOf getCell
  apply List.mem_map.mpr
  refine ⟨t.getD i [], ?_, rfl⟩
  rw [getD_of_lt _ hii]
  exact List.getElem_mem _

theorem mem_cellsInside3By3 {b : CellLocation} {i j : Nat}
    (hi : i / 3 = b.row) (hj : j / 3 = b.col) (hi9 : i < 9) (hj9 : j < 9) :
    (⟨i, j⟩ : CellLocation) ∈ cellsInside3By3Cell b := by
  have hi' : i = b.row * 3 ∨ i = b.row * 3 + 1 ∨ i = b.row * 3 + 2 := by omega
  have hj' : j = b.col * 3 ∨ j = b.col * 3 + 1 ∨ j = b.col * 3 + 2 := by omega
  rcases hi' with rfl | rfl | rfl <;> rcases hj' with rfl | rfl | rfl <;>
    simp [cellsInside3By3Cell]

theorem filled_mem_boxCells {t : Table} {cell : CellLocation} {i j v : Nat}
    (hi9 : i < 9) (hj9 : j < 9) (hbr : i / 3 = cell.row / 3)
    (hbc : j / 3 = cell.col / 3) (h : getCell t i j = SudokuCell.Filled v) :
    SudokuCell.Filled v ∈ boxCellsOf t cell := by
  rw [← h]
  unfold boxCellsOf
  apply List.mem_map.mpr
  exact ⟨⟨i, j⟩, mem_cellsInside3By3 (by simp [indexOf3By3Cell, hbr])
    (by simp [indexOf3By3Cell, hbc]) hi9 hj9, rfl⟩

/-- The candidate pool computed by `possible_values` is conflict-free at
every cell of the location's row, column, and box. -/
theorem poolsOK_head_of_possibleValues {t : Table} (hwf : wfTable t)
    {cell : CellLocation} {pv : List Nat}
    (hmem : ∀ v, v ∈ pv ↔ (1 ≤ v ∧ v ≤ 9 ∧
      SudokuCell.Filled v ∉ rowCellsOf t cell.row ∧
      SudokuCell.Filled v ∉ colCellsOf t cell.col ∧
      SudokuCell.Filled v ∉ boxCellsOf t cell)) :
    ∀ v ∈ pv, ∀ i j, i < 9 → j < 9 → inUnit cell i j →
      digitAt t i j ≠ some v := by
  intro v hv i j hi hj hu hdig
  obtain ⟨-, -, hnr, hnc, hnb⟩ := (hmem v).mp hv
  have hcell := digitAt_eq_some.mp hdig
  rcases hu with rfl | rfl | ⟨hbr, hbc⟩
  · exact hnr (filled_mem_rowCells hwf hi hj hcell)
  · exact hnc (filled_mem_colCells hwf hi hj hcell)
  · exact hnb (filled_mem_boxCells hi hj hbr hbc hcell)

theorem tableOK_set_empty {t : Table} {ℓ : CellLocation}
    (hwf : wfTable t) (hr : ℓ.row < 9) (hc : ℓ.col < 9) (hok : TableOK t) :
    TableOK (setCell t ℓ SudokuCell.Empty) := by
  have hrowlen := (hwf.2 ℓ.row hr).1
  have hdig := digitAt_setCell t ℓ SudokuCell.Empty hwf.1 hrowlen hr hc
  obtain ⟨hrows, hcols, hboxes⟩ := hok
  refine ⟨?_, ?_, ?_⟩
  · intro i hi j₁ hj₁ j₂ hj₂ hne d hd₁ hd₂
    rw [hdig] at hd₁ hd₂
    split at hd₁
    · cases hd₁
    · split at hd₂
      · cases hd₂
      · exact hrows i hi j₁ hj₁ j₂ hj₂ hne d hd₁ hd₂
  · intro j hj i₁ hi₁ i₂ hi₂ hne d hd₁ hd₂
    rw [hdig] at hd₁ hd₂
    split at hd₁
    · cases hd₁
    · split at hd₂
      · cases hd₂
      · exact hcols j hj i₁ hi₁ i₂ hi₂ hne d hd₁ hd₂
  · intro i₁ hi₁ j₁ hj₁ i₂ hi₂ j₂ hj₂ hbr hbc hne d hd₁ hd₂
    rw [hdig] at hd₁ hd₂
    split at hd₁
    · cases hd₁
    · split at hd₂
      · cases hd₂
      · exact hboxes i₁ hi₁ j₁ hj₁ i₂ hi₂ j₂ hj₂ hbr hbc hne d hd₁ hd₂

theorem tableOK_set_filled {t : Table} {ℓ : CellLocation} {v : Nat}
    (hwf : wfTable t) (hr : ℓ.row < 9) (hc : ℓ.col < 9) (hok : TableOK t)
    (hfree : ∀ i j, i < 9 → j < 9 → inUnit ℓ i j → ¬(i = ℓ.row ∧ j = ℓ.col) →
      digitAt t i j ≠ some v) :
    TableOK (setCell t ℓ (SudokuCell.Filled v)) := by
  have hrowlen := (hwf.2 ℓ.row hr).1
  have hdig := digitAt_setCell t ℓ (SudokuCell.Filled v) hwf.1 hrowlen hr hc
  obtain ⟨hrows, hcols, hboxes⟩ := hok
  refine ⟨?_, ?_, ?_⟩
  · intro i hi j₁ hj₁ j₂ hj₂ hne d hd₁ hd₂
    rw [hdig] at hd₁ hd₂
    by_cases h₁ : i = ℓ.row ∧ j₁ = ℓ.col
    · rw [if_pos h₁] at hd₁
      injection hd₁ with hdv
      subst hdv
      by_cases h₂ : i = ℓ.row ∧ j₂ = ℓ.col
      · exact hne (by omega)
      · rw [if_neg h₂] at hd₂
        exact hfree i j₂ hi hj₂ (Or.inl h₁.1) h₂ hd₂
    · rw [if_neg h₁] at hd₁
      by_cases h₂ : i = ℓ.row ∧ j₂ = ℓ.col
      · rw [if_pos h₂] at hd₂
        injection hd₂ with hdv
        subst hdv
        exact hfree i j₁ hi hj₁ (Or.inl h₂.1) h₁ hd₁
      · rw [if_neg h₂] at hd₂
        exact hrows i hi j₁ hj₁ j₂ hj₂ hne d hd₁ hd₂
  · intro j hj i₁ hi₁ i₂ hi₂ hne d hd₁ hd₂
    rw [hdig] at hd₁ hd₂
    by_cases h₁ : i₁ = ℓ.row ∧ j = ℓ.col
    · rw [if_pos h₁] at hd₁
      injection hd₁ with hdv
      subst hdv
      by_cases h₂ : i₂ = ℓ.row ∧ j = ℓ.col
      · exact hne (by omega)
      · rw [if_neg h₂] at hd₂
        exact hfree i₂ j hi₂ hj (Or.inr (Or.inl h₁.2)) h₂ hd₂
    · rw [if_neg h₁] at hd₁
      by_cases h₂ : i₂ = ℓ.row ∧ j = ℓ.col
      · rw [if_pos h₂] at hd₂
        injection hd₂ with hdv
        subst hdv
        exact hfree i₁ j hi₁ hj (Or.inr (Or.inl h₂.2)) h₁ hd₁
      · rw [if_neg h₂] at hd₂
        exact hcols j hj i₁ hi₁ i₂ hi₂ hne d hd₁ hd₂
  · intro i₁ hi₁ j₁ hj₁ i₂ hi₂ j₂ hj₂ hbr hbc hne d hd₁ hd₂
    rw [hdig] at hd₁ hd₂
    by_cases h₁ : i₁ = ℓ.row ∧ j₁ = ℓ.col
    · rw [if_pos h₁] at hd₁
      injection hd₁ with hdv
      subst hdv
      by_cases h₂ : i₂ = ℓ.row ∧ j₂ = ℓ.col
      · exact hne ⟨by omega, by omega⟩
      · rw [if_neg h₂] at hd₂
        refine hfree i₂ j₂ hi₂ hj₂ (Or.inr (Or.inr ⟨?_, ?_⟩)) h₂ hd₂
        · omega
        · omega
    · rw [if_neg h₁] at hd₁
      by_cases h₂ : i₂ = ℓ.row ∧ j₂ = ℓ.col
      · rw [if_pos h₂] at hd₂
        injection hd₂ with hdv
        subst hdv
        refine hfree i₁ j₁ hi₁ hj₁ (Or.inr (Or.inr ⟨?_, ?_⟩)) h₁ hd₁
        · omega
        · omega
      · rw [if_neg h₂] at hd₂
        exact hboxes i₁ hi₁ j₁ hj₁ i₂ hi₂ j₂ hj₂ hbr hbc hne d hd₁ hd₂

/-! ### Layer 7: the termination measure -/

theorem measAux_append (f : RecursionState) :
    ∀ (l : List RecursionState) (e : Nat), l.length ≤ e →
      measAux (l ++ [f]) e =
        measAux l e + (f.possible_values.length + 1) * 11 ^ (e - l.length) := by
  intro l
  induction l with
  | nil =>
    intro e _
    simp [measAux]
  | cons x l ih =>
    intro e he
    rw [List.cons_append, measAux, measAux,
      ih (e - 1) (by simp at he ⊢; omega)]
    have hexp : e - 1 - l.length = e - (x :: l).length := by
      simp
      omega
    rw [hexp]
    omega

theorem stack_length_le {g : Table} {s : SudokuSolver} (hInv : Inv g s) :
    s.recursion_stack.length ≤ 81 := by
  set l := s.recursion_stack.map (fun f => rmIdx f.attempted_cell) with hl
  have hpw : l.Pairwise (fun a b => b < a) := by
    rw [hl, List.pairwise_map]
    exact hInv.desc
  have hnd : l.Nodup := hpw.imp (fun h => by omega)
  have hmem : ∀ x ∈ l, x < 81 := by
    intro x hx
    rw [hl] at hx
    obtain ⟨f, hf, rfl⟩ := List.mem_map.mp hx
    have := hInv.locs f hf
    unfold rmIdx
    omega
  have hcard : l.toFinset.card = l.length := List.toFinset_card_of_nodup hnd
  have hsub : l.toFinset ⊆ Finset.range 81 := by
    intro x hx
    exact Finset.mem_range.mpr (hmem x (List.mem_toFinset.mp hx))
  have := Finset.card_le_card hsub
  rw [hcard, Finset.card_range] at this
  calc s.recursion_stack.length = l.length := (List.length_map _ _).symm
    _ ≤ 81 := this

theorem measure_pop_lt {top : RecursionState} {rest : List RecursionState}
    {t t' : Table} (hlen : rest.length ≤ 80) :
    solverMeasure ⟨t', rest⟩ < solverMeasure ⟨t, top :: rest⟩ := by
  unfold solverMeasure
  simp only [List.reverse_cons]
  rw [measAux_append top rest.reverse 81 (by simp; omega)]
  have hpos : 0 < (top.possible_values.length + 1) *
      11 ^ (81 - rest.reverse.length) :=
    Nat.mul_pos (by omega) (Nat.pos_pow_of_pos _ (by omega))
  omega

theorem measure_push_lt {top top' f' : RecursionState}
    {rest : List RecursionState} {t t' : Table} (hlen : rest.length ≤ 80)
    (hdrop : top'.possible_values.length + 1 = top.possible_values.length)
    (hf : f'.possible_values.length ≤ 9) :
    solverMeasure ⟨t', f' :: top' :: rest⟩ < solverMeasure ⟨t, top :: rest⟩ := by
  unfold solverMeasure
  simp only [List.reverse_cons]
  rw [measAux_append top rest.reverse 81 (by simp; omega),
    measAux_append f' (rest.reverse ++ [top']) 81 (by simp; omega),
    measAux_append top' rest.reverse 81 (by simp; omega)]
  have h1 : (rest.reverse ++ [top']).length = rest.length + 1 := by simp
  have h2 : rest.reverse.length = rest.length := by simp
  rw [h1, h2]
  have hexp : 81 - rest.length = (81 - (rest.length + 1)) + 1 := by omega
  rw [hexp, pow_succ]
  have hpow : 1 ≤ 11 ^ (81 - (rest.length + 1)) := Nat.one_le_pow _ _ (by omega)
  set X := 11 ^ (81 - (rest.length + 1)) with hXdef
  have key : (top'.possible_values.length + 1) * (X * 11) +
      (f'.possible_values.length + 1) * X <
      (top.possible_values.length + 1) * (X * 11) := by
    rw [← hdrop]
    calc (top'.possible_values.length + 1) * (X * 11) +
          (f'.possible_values.length + 1) * X
        ≤ (top'.possible_values.length + 1) * (X * 11) + 10 * X := by
          have := Nat.mul_le_mul_right X
            (show f'.possible_values.length + 1 ≤ 10 by omega)
          omega
      _ < (top'.possible_values.length + 1) * (X * 11) + X * 11 := by
          have h2 : 10 * X < 11 * X := by
            have := (Nat.mul_lt_mul_right (show 0 < X by omega)).mpr
              (show 10 < 11 by omega)
            omega
          omega
      _ = (top'.possible_values.length + 1 + 1) * (X * 11) := by ring
  omega

theorem measure_emit_lt {top top' : RecursionState}
    {rest : List RecursionState} {t t' : Table} (hlen : rest.length ≤ 80)
    (hdrop : top'.possible_values.length + 1 = top.possible_values.length) :
    solverMeasure ⟨t', top' :: rest⟩ < solverMeasure ⟨t, top :: rest⟩ := by
  unfold solverMeasure
  simp only [List.reverse_cons]
  rw [measAux_append top rest.reverse 81 (by simp; omega),
    measAux_append top' rest.reverse 81 (by simp; omega)]
  have hpow : 1 ≤ 11 ^ (81 - rest.reverse.length) :=
    Nat.one_le_pow _ _ (by omega)
  have hmul : (top'.possible_values.length + 1) * 11 ^ (81 - rest.reverse.length) +
      11 ^ (81 - rest.reverse.length) =
      (top.possible_values.length + 1) * 11 ^ (81 - rest.reverse.length) := by
    rw [← hdrop]
    ring
  omega

/-! ### Layer 8: invariant preservation through one loop iteration -/

theorem mem_of_getLast? {α : Type} {l : List α} {a : α}
    (h : l.getLast? = some a) : a ∈ l := by
  obtain ⟨ys, rfl⟩ := List.getLast?_eq_some_iff.mp h
  exact List.mem_append.mpr (Or.inr (List.mem_cons_self _ _))

theorem solverStep_cases {g : Table} {s : SudokuSolver} (hInv : Inv g s) :
    (s.recursion_stack = [] ∧ solverStep s = some (StepRes.stop s)) ∨
    (∃ s', solverStep s = some (StepRes.cont s') ∧ Inv g s' ∧
      solverMeasure s' < solverMeasure s) ∨
    (∃ t' s', solverStep s = some (StepRes.emit t' s') ∧ Inv g s' ∧
      s'.table = t' ∧ noEmptyCell t') := by
  obtain ⟨t, stack⟩ := s
  cases stack with
  | nil => exact Or.inl ⟨rfl, rfl⟩
  | cons top rest =>
    have hwf : wfTable t := hInv.wf
    have hlen81 : (top :: rest).length ≤ 81 := stack_length_le hInv
    have hrest80 : rest.length ≤ 80 := by simp at hlen81; omega
    have hloc := hInv.locs top (List.mem_cons_self _ _)
    have hrlen := (hwf.2 top.attempted_cell.row hloc.1).1
    cases hlast : top.possible_values.getLast? with
    | none =>
      right; left
      have hdig := digitAt_setCell t top.attempted_cell SudokuCell.Empty
        hwf.1 hrlen hloc.1 hloc.2.1
      have hget := getCell_setCell t top.attempted_cell SudokuCell.Empty
        hwf.1 hrlen hloc.1 hloc.2.1
      refine ⟨⟨setCell t top.attempted_cell SudokuCell.Empty, rest⟩, ?_, ?_, ?_⟩
      · simp only [solverStep, tryNextPossibleValue, hlast, clearLastTry]
      · constructor
        case wf => exact wfTable_setCell hwf hloc.1 hloc.2.1 trivial
        case givens =>
          intro i j d hg
          rw [hdig i j]
          split
          case isTrue h =>
            exfalso
            rw [h.1, h.2, digitAt_eq_none.mpr hloc.2.2] at hg
            cases hg
          case isFalse h => exact hInv.givens i j d hg
        case valid => exact tableOK_set_empty hwf hloc.1 hloc.2.1 hInv.valid
        case locs =>
          intro f hf
          exact hInv.locs f (List.mem_cons_of_mem _ hf)
        case desc => exact (List.pairwise_cons.mp hInv.desc).2
        case pools =>
          intro f hf
          exact hInv.pools f (List.mem_cons_of_mem _ hf)
        case empties =>
          intro top₂ rest₂ hstack i j hi hj hempty
          have hstack' : rest = top₂ :: rest₂ := hstack
          have hempty' : getCell (setCell t top.attempted_cell SudokuCell.Empty) i j
              = SudokuCell.Empty := hempty
          have hpair : rmIdx top₂.attempted_cell < rmIdx top.attempted_cell :=
            (List.pairwise_cons.mp hInv.desc).1 top₂
              (by rw [hstack']; exact List.mem_cons_self _ _)
          have hpair' : top₂.attempted_cell.row * 9 + top₂.attempted_cell.col <
              top.attempted_cell.row * 9 + top.attempted_cell.col := hpair
          show top₂.attempted_cell.row * 9 + top₂.attempted_cell.col ≤ i * 9 + j
          rw [hget i j] at hempty'
          split at hempty'
          case isTrue h => omega
          case isFalse h =>
            have h0 : rmIdx top.attempted_cell ≤ i * 9 + j :=
              hInv.empties top rest rfl i j hi hj hempty'
            have h0' : top.attempted_cell.row * 9 + top.attempted_cell.col ≤
              i * 9 + j := h0
            omega
        case fresh =>
          exact poolsOK_clear (fun i j hi hj => hdig i j) rest
            [top.attempted_cell] [] (by intro x; simp) hInv.fresh.2
      · exact measure_pop_lt hrest80
    | some v =>
      have hvmem : v ∈ top.possible_values := mem_of_getLast? hlast
      have hv19 := hInv.pools top (List.mem_cons_self _ _) v hvmem
      have hdig := digitAt_setCell t top.attempted_cell (SudokuCell.Filled v)
        hwf.1 hrlen hloc.1 hloc.2.1
      have hget := getCell_setCell t top.attempted_cell (SudokuCell.Filled v)
        hwf.1 hrlen hloc.1 hloc.2.1
      have hwf' : wfTable (setCell t top.attempted_cell (SudokuCell.Filled v)) :=
        wfTable_setCell hwf hloc.1 hloc.2.1 hv19
      have hfreshHead := hInv.fresh.1
      have hpoolne : top.possible_values ≠ [] := by
        intro h
        rw [h] at hlast
        cases hlast
      have hfree : ∀ i j, i < 9 → j < 9 → inUnit top.attempted_cell i j →
          ¬(i = top.attempted_cell.row ∧ j = top.attempted_cell.col) →
          digitAt t i j ≠ some v := by
        intro i j hi hj hu hne
        apply hfreshHead v hvmem i j hi hj hu
        intro m hm
        rcases List.mem_cons.mp hm with rfl | hm'
        · intro hx
          exact hne ⟨congrArg CellLocation.row hx, congrArg CellLocation.col hx⟩
        · cases hm'
      have hInvMid : Inv g ⟨setCell t top.attempted_cell (SudokuCell.Filled v),
          ⟨top.attempted_cell, top.possible_values.dropLast⟩ :: rest⟩ := by
        constructor
        case wf => exact hwf'
        case givens =>
          intro i j d hg
          rw [hdig i j]
          split
          case isTrue h =>
            exfalso
            rw [h.1, h.2, digitAt_eq_none.mpr hloc.2.2] at hg
            cases hg
          case isFalse h => exact hInv.givens i j d hg
        case valid =>
          exact tableOK_set_filled hwf hloc.1 hloc.2.1 hInv.valid hfree
        case locs =>
          intro f hf
          rcases List.mem_cons.mp hf with rfl | hf'
          · exact hloc
          · exact hInv.locs f (List.mem_cons_of_mem _ hf')
        case desc =>
          obtain ⟨hhead, htail⟩ := List.pairwise_cons.mp hInv.desc
          exact List.pairwise_cons.mpr ⟨hhead, htail⟩
        case pools =>
          intro f hf
          rcases List.mem_cons.mp hf with rfl | hf'
          · intro v' hv'
            exact hInv.pools top (List.mem_cons_self _ _) v'
              ((List.dropLast_sublist top.possible_values).subset hv')
          · exact hInv.pools f (List.mem_cons_of_mem _ hf')
        case empties =>
          intro top₂ rest₂ hstack i j hi hj hempty
          have hstack' : (⟨top.attempted_cell, top.possible_values.dropLast⟩ :
              RecursionState) :: rest = top₂ :: rest₂ := hstack
          injection hstack' with h1 h2
          subst h1
          have hempty' : getCell (setCell t top.attempted_cell
              (SudokuCell.Filled v)) i j = SudokuCell.Empty := hempty
          rw [hget i j] at hempty'
          split at hempty'
          case isTrue h => cases hempty'
          case isFalse h =>
            exact hInv.empties top rest rfl i j hi hj hempty'
        case fresh =>
          constructor
          · intro v' hv' i j hi hj hu hnm
            rw [hdig i j]
            have hne : ¬(i = top.attempted_cell.row ∧ j = top.attempted_cell.col) := by
              rintro ⟨h1, h2⟩
              exact hnm top.attempted_cell (List.mem_cons_self _ _) (by rw [h1, h2])
            rw [if_neg hne]
            apply hfreshHead v' ((List.dropLast_sublist top.possible_values).subset hv') i j hi hj hu
            intro m hm
            rcases List.mem_cons.mp hm with rfl | hm'
            · exact hnm _ (List.mem_cons_self _ _)
            · cases hm'
          · apply poolsOK_of_eq_outside rest [top.attempted_cell] ?_ hInv.fresh.2
            intro i j hi hj hnm
            rw [hdig i j]
            have hne : ¬(i = top.attempted_cell.row ∧ j = top.attempted_cell.col) := by
              rintro ⟨h1, h2⟩
              exact hnm top.attempted_cell (List.mem_cons_self _ _) (by rw [h1, h2])
            rw [if_neg hne]
      cases hscan : nextEmptyCellStartingFrom
          (setCell t top.attempted_cell (SudokuCell.Filled v))
          ⟨top.attempted_cell.row, top.attempted_cell.col + 1⟩ with
      | none =>
        right; right
        refine ⟨setCell t top.attempted_cell (SudokuCell.Filled v),
          ⟨setCell t top.attempted_cell (SudokuCell.Filled v),
            ⟨top.attempted_cell, top.possible_values.dropLast⟩ :: rest⟩,
          ?_, hInvMid, rfl, ?_⟩
        · simp only [solverStep, tryNextPossibleValue, hlast, List.head?_cons,
            presolveNextEmptyCell, hscan]
        · intro i hi j hj hempty
          have h9 : rmIdx top.attempted_cell ≤ i * 9 + j :=
            hInvMid.empties ⟨top.attempted_cell, top.possible_values.dropLast⟩
              rest rfl i j hi hj hempty
          have h9' : top.attempted_cell.row * 9 + top.attempted_cell.col ≤
            i * 9 + j := h9
          have hne : ¬(i = top.attempted_cell.row ∧ j = top.attempted_cell.col) := by
            rintro ⟨h1, h2⟩
            rw [hget i j, if_pos ⟨h1, h2⟩] at hempty
            cases hempty
          have hneidx : ¬(i * 9 + j =
              top.attempted_cell.row * 9 + top.attempted_cell.col) := by
            intro he
            exact hne ⟨by omega, by omega⟩
          have hgt : rmIdx ⟨top.attempted_cell.row, top.attempted_cell.col + 1⟩ ≤
              i * 9 + j := by
            show top.attempted_cell.row * 9 + (top.attempted_cell.col + 1) ≤
              i * 9 + j
            omega
          exact nextEmpty_none_props hwf'.1 hscan i j hi hj hgt hempty
      | some cell' =>
        right; left
        obtain ⟨pv, hpv, hpvlen, hpvmem⟩ := possibleValues_spec hwf' cell'
        obtain ⟨hemp', hrow', hcol', hge', hbetween'⟩ :=
          nextEmpty_some_props hwf'.1 (by show top.attempted_cell.col + 1 ≤ 9; omega)
            hscan
        have hge'' : rmIdx top.attempted_cell < rmIdx cell' := by
          have hge2 : top.attempted_cell.row * 9 + (top.attempted_cell.col + 1) ≤
              cell'.row * 9 + cell'.col := hge'
          show top.attempted_cell.row * 9 + top.attempted_cell.col <
            cell'.row * 9 + cell'.col
          omega
        have hgempty : getCell g cell'.row cell'.col = SudokuCell.Empty := by
          cases hgc : getCell g cell'.row cell'.col with
          | Empty => rfl
          | Filled d =>
            exfalso
            have hx := hInvMid.givens cell'.row cell'.col d (digitAt_eq_some.mpr hgc)
            rw [digitAt_eq_none.mpr hemp'] at hx
            cases hx
        refine ⟨⟨setCell t top.attempted_cell (SudokuCell.Filled v),
          ⟨cell', pv⟩ :: ⟨top.attempted_cell, top.possible_values.dropLast⟩ :: rest⟩,
          ?_, ?_, ?_⟩
        · simp only [solverStep, tryNextPossibleValue, hlast, List.head?_cons,
            presolveNextEmptyCell, hscan, hpv]
        · constructor
          case wf => exact hwf'
          case givens => exact hInvMid.givens
          case valid => exact hInvMid.valid
          case locs =>
            intro f hf
            rcases List.mem_cons.mp hf with rfl | hf'
            · exact ⟨hrow', hcol', hgempty⟩
            · exact hInvMid.locs f hf'
          case desc =>
            apply List.pairwise_cons.mpr
            refine ⟨?_, hInvMid.desc⟩
            intro b hb
            show rmIdx b.attempted_cell < rmIdx cell'
            rcases List.mem_cons.mp hb with rfl | hb'
            · exact hge''
            · have := (List.pairwise_cons.mp hInv.desc).1 b hb'
              omega
          case pools =>
            intro f hf
            rcases List.mem_cons.mp hf with rfl | hf'
            · intro v' hv'
              have := (hpvmem v').mp hv'
              exact ⟨this.1, this.2.1⟩
            · exact hInvMid.pools f hf'
          case empties =>
            intro top₂ rest₂ hstack i j hi hj hempty
            have hstack' : (⟨cell', pv⟩ : RecursionState) ::
                (⟨top.attempted_cell, top.possible_values.dropLast⟩ :
                  RecursionState) :: rest = top₂ :: rest₂ := hstack
            injection hstack' with h1 h2
            subst h1
            have hempty' : getCell (setCell t top.attempted_cell
                (SudokuCell.Filled v)) i j = SudokuCell.Empty := hempty
            have h9 := hInvMid.empties
              ⟨top.attempted_cell, top.possible_values.dropLast⟩ rest rfl
              i j hi hj hempty'
            have h9' : top.attempted_cell.row * 9 + top.attempted_cell.col ≤
              i * 9 + j := h9
            have hne : ¬(i = top.attempted_cell.row ∧
                j = top.attempted_cell.col) := by
              rintro ⟨hh1, hh2⟩
              rw [hget i j, if_pos ⟨hh1, hh2⟩] at hempty'
              cases hempty'
            have hneidx : ¬(i * 9 + j =
                top.attempted_cell.row * 9 + top.attempted_cell.col) := by
              intro he
              exact hne ⟨by omega, by omega⟩
            show cell'.row * 9 + cell'.col ≤ i * 9 + j
            by_contra hlt
            apply hbetween' i j hi hj ?_ ?_ hempty'
            · show top.attempted_cell.row * 9 + (top.attempted_cell.col + 1) ≤
                i * 9 + j
              omega
            · show i * 9 + j < cell'.row * 9 + cell'.col
              omega
          case fresh =>
            constructor
            · intro v' hv' i j hi hj hu hnm
              exact poolsOK_head_of_possibleValues hwf' hpvmem v' hv' i j hi hj hu
            · exact poolsOK_mono_excl _ [] [cell'] (by intro m hm; cases hm)
                hInvMid.fresh
        · apply measure_push_lt hrest80 ?_ hpvlen
          have hpos : 0 < top.possible_values.length := List.length_pos.mpr hpoolne
          show top.possible_values.dropLast.length + 1 = top.possible_values.length
          rw [List.length_dropLast]
          omega

/-- `SudokuSolver::new` establishes the invariant for a valid input. -/
theorem new_inv {g : Table} (hwfg : wfTable g) (hok : TableOK g) :
    ∃ s, SudokuSolver.new g = some s ∧ Inv g s ∧ s.table = g := by
  cases hscan : nextEmptyCellStartingFrom g ⟨0, 0⟩ with
  | none =>
    refine ⟨⟨g, []⟩, by simp only [SudokuSolver.new, hscan], ?_, rfl⟩
    constructor
    case wf => exact hwfg
    case givens => intro i j d h; exact h
    case valid => exact hok
    case locs => intro f hf; cases hf
    case desc => exact List.Pairwise.nil
    case pools => intro f hf; cases hf
    case empties => intro top rest h; cases h
    case fresh => trivial
  | some cell =>
    obtain ⟨pv, hpv, hpvlen, hpvmem⟩ := possibleValues_spec hwfg cell
    obtain ⟨hemp, hrow, hcol, -, hbetween⟩ :=
      nextEmpty_some_props hwfg.1 (by show (0 : Nat) ≤ 9; omega) hscan
    refine ⟨⟨g, [⟨cell, pv⟩]⟩, by simp only [SudokuSolver.new, hscan, hpv], ?_, rfl⟩
    constructor
    case wf => exact hwfg
    case givens => intro i j d h; exact h
    case valid => exact hok
    case locs =>
      intro f hf
      rcases List.mem_cons.mp hf with rfl | hf'
      · exact ⟨hrow, hcol, hemp⟩
      · cases hf'
    case desc => exact List.pairwise_cons.mpr ⟨(fun b hb => by cases hb), List.Pairwise.nil⟩
    case pools =>
      intro f hf
      rcases List.mem_cons.mp hf with rfl | hf'
      · intro v hv
        have := (hpvmem v).mp hv
        exact ⟨this.1, this.2.1⟩
      · cases hf'
    case empties =>
      intro top rest hstack i j hi hj hempty
      have hstack' : (⟨cell, pv⟩ : RecursionState) :: ([] : List RecursionState)
          = top :: rest := hstack
      injection hstack' with h1 h2
      subst h1
      have hempty' : getCell g i j = SudokuCell.Empty := hempty
      show cell.row * 9 + cell.col ≤ i * 9 + j
      by_contra hlt
      apply hbetween i j hi hj ?_ ?_ hempty'
      · show 0 * 9 + 0 ≤ i * 9 + j
        omega
      · show i * 9 + j < cell.row * 9 + cell.col
        omega
    case fresh =>
      constructor
      · intro v hv i j hi hj hu hnm
        exact poolsOK_head_of_possibleValues hwfg hpvmem v hv i j hi hj hu
      · trivial

theorem reaches_inv {g : Table} (hwfg : wfTable g) (hok : TableOK g)
    {s : SudokuSolver} (h : Reaches g s) : Inv g s := by
  induction h with
  | init s hnew =>
    obtain ⟨s₀, hs₀, hinv, -⟩ := new_inv hwfg hok
    rw [hnew] at hs₀
    injection hs₀ with he
    exact he ▸ hinv
  | cont s s' hr hstep ih =>
    rcases solverStep_cases ih with ⟨-, hstop⟩ | ⟨s'', hs'', hinv', -⟩ |
      ⟨t'', s'', hs'', -, -, -⟩
    · rw [hstop] at hstep
      simp at hstep
    · rw [hs''] at hstep
      injection hstep with h
      injection h with h1
      exact h1 ▸ hinv'
    · rw [hs''] at hstep
      simp at hstep
  | emit s s' t hr hstep ih =>
    rcases solverStep_cases ih with ⟨-, hstop⟩ | ⟨s'', hs'', -, -⟩ |
      ⟨t'', s'', hs'', hinv', -, -⟩
    · rw [hstop] at hstep
      simp at hstep
    · rw [hs''] at hstep
      simp at hstep
    · rw [hs''] at hstep
      injection hstep with h
      injection h with h1 h2
      exact h2 ▸ hinv'

theorem nextFuel_ne_outOfFuel {g : Table} :
    ∀ (n : Nat) (s : SudokuSolver), Inv g s → solverMeasure s < n →
      nextFuel n s ≠ NextRes.outOfFuel := by
  intro n
  induction n with
  | zero => intro s _ h; omega
  | succ n ih =>
    intro s hinv hm
    rcases solverStep_cases hinv with ⟨-, hstop⟩ | ⟨s', hs', hinv', hless⟩ |
      ⟨t', s', hs', -, -, -⟩
    · rw [nextFuel, hstop]
      intro h
      cases h
    · rw [nextFuel, hs']
      exact ih s' hinv' (by omega)
    · rw [nextFuel, hs']
      intro h
      cases h

theorem nextFuel_ne_panic {g : Table} :
    ∀ (n : Nat) (s : SudokuSolver), Inv g s →
      nextFuel n s ≠ NextRes.panic := by
  intro n
  induction n with
  | zero =>
    intro s _ h
    cases h
  | succ n ih =>
    intro s hinv
    rcases solverStep_cases hinv with ⟨-, hstop⟩ | ⟨s', hs', hinv', -⟩ |
      ⟨t', s', hs', -, -, -⟩
    · rw [nextFuel, hstop]
      intro h
      cases h
    · rw [nextFuel, hs']
      exact ih s' hinv'
    · rw [nextFuel, hs']
      intro h
      cases h

theorem nextFuel_mono :
    ∀ (n m : Nat) (s : SudokuSolver), n ≤ m →
      nextFuel n s ≠ NextRes.outOfFuel → nextFuel m s = nextFuel n s := by
  intro n
  induction n with
  | zero => intro m s _ h; exact absurd rfl h
  | succ n ih =>
    intro m s hle h
    obtain ⟨m', rfl⟩ : ∃ m', m = m' + 1 := ⟨m - 1, by omega⟩
    rw [nextFuel, nextFuel]
    cases hs : solverStep s with
    | none => rfl
    | some r =>
      cases r with
      | stop s' => rfl
      | emit t s' => rfl
      | cont s' =>
        rw [nextFuel, hs] at h
        exact ih m' s' (by omega) h

theorem solverStep_stop {s s' : SudokuSolver}
    (h : solverStep s = some (StepRes.stop s')) :
    s' = s ∧ s.recursion_stack = [] := by
  obtain ⟨t, stack⟩ := s
  cases stack with
  | nil =>
    simp only [solverStep] at h
    injection h with h1
    injection h1 with h2
    exact ⟨h2.symm, rfl⟩
  | cons top rest =>
    exfalso
    simp only [solverStep] at h
    cases htry : tryNextPossibleValue t top with
    | some p =>
      obtain ⟨t', top'⟩ := p
      simp only [htry, List.head?_cons] at h
      cases hp : presolveNextEmptyCell t' top' with
      | none => simp [hp] at h
      | some o =>
        cases o with
        | none => simp [hp] at h
        | some r => simp [hp] at h
    | none =>
      simp [htry, clearLastTry] at h

theorem nextFuel_stop {n : Nat} :
    ∀ {s s' : SudokuSolver}, nextFuel n s = NextRes.stop s' →
      s'.recursion_stack = [] := by
  induction n with
  | zero => intro s s' h; cases h
  | succ n ih =>
    intro s s' h
    rw [nextFuel] at h
    cases hs : solverStep s with
    | none => rw [hs] at h; cases h
    | some r =>
      rw [hs] at h
      cases r with
      | stop s₀ =>
        injection h with h1
        obtain ⟨h2, h3⟩ := solverStep_stop hs
        rw [← h1, h2]
        exact h3
      | emit t s₀ => cases h
      | cont s₀ => exact ih h

/-! ### Claim theorems for the solver -/

/-- C6: once an advancement reports no more results, the state's frame
stack is empty, and every further advancement reports no more results from
the unchanged state (so the search is never re-entered and nothing more is
emitted). -/
theorem exhausted_solver_stays_exhausted (s s' : SudokuSolver)
    (h : SudokuSolver.next s = NextRes.stop s') :
    s'.recursion_stack = [] ∧ SudokuSolver.next s' = NextRes.stop s' := by
  have hempt : s'.recursion_stack = [] := nextFuel_stop h
  refine ⟨hempt, ?_⟩
  obtain ⟨t', stack'⟩ := s'
  have : stack' = ([] : List RecursionState) := hempt
  subst this
  rfl

/-- C6 witness. -/
theorem exhausted_solver_stays_exhausted_witness :
    (⟨[], []⟩ : SudokuSolver).recursion_stack = [] ∧
      SudokuSolver.next ⟨[], []⟩ = NextRes.stop ⟨[], []⟩ :=
  exhausted_solver_stays_exhausted ⟨[], []⟩ ⟨[], []⟩ rfl

/-- C5: from any reachable state of a solver built on a valid well-formed
grid, the advancement loop terminates: the fuelled loop with fuel
`solverMeasure s + 1` does not run out, and any larger fuel gives the same
result, so `SudokuSolver.next` is the exact result of the unbounded Rust
loop. -/
theorem advancement_terminates (g : Table) (hwf : wfTable g)
    (hvalid : isValidSudoku g = some true) (s : SudokuSolver)
    (hr : Reaches g s) :
    SudokuSolver.next s ≠ NextRes.outOfFuel ∧
    ∀ n, solverMeasure s < n → nextFuel n s = SudokuSolver.next s := by
  have hok := (isValidSudoku_eq_true_iff hwf).mp hvalid
  have hinv := reaches_inv hwf hok hr
  have h1 : nextFuel (solverMeasure s + 1) s ≠ NextRes.outOfFuel :=
    nextFuel_ne_outOfFuel _ s hinv (by omega)
  refine ⟨h1, fun n hn => ?_⟩
  exact nextFuel_mono (solverMeasure s + 1) n s (by omega) h1

/-- C2: every grid emitted by the solver on a valid well-formed input
passes the validity check and has no empty cell. -/
theorem emitted_valid_and_complete (g : Table) (hwf : wfTable g)
    (hvalid : isValidSudoku g = some true) (t : Table) (ht : Emits g t) :
    isValidSudoku t = some true ∧ noEmptyCell t := by
  obtain ⟨s, s', hr, hstep⟩ := ht
  have hok := (isValidSudoku_eq_true_iff hwf).mp hvalid
  have hinv := reaches_inv hwf hok hr
  rcases solverStep_cases hinv with ⟨-, hstop⟩ | ⟨s'', hs'', -, -⟩ |
    ⟨t'', s'', hs'', hinv', htab, hne⟩
  · rw [hstop] at hstep
    simp at hstep
  · rw [hs''] at hstep
    simp at hstep
  · rw [hs''] at hstep
    injection hstep with h
    injection h with h1 h2
    rw [h1] at htab
    refine ⟨?_, h1 ▸ hne⟩
    have hwft : wfTable t := htab ▸ hinv'.wf
    exact (isValidSudoku_eq_true_iff hwft).mpr (htab ▸ hinv'.valid)

/-- C3: every grid emitted by the solver agrees with the input grid on all
originally filled cells. -/
theorem emitted_preserves_givens (g : Table) (hwf : wfTable g)
    (hvalid : isValidSudoku g = some true) (t : Table) (ht : Emits g t) :
    ∀ i j d, digitAt g i j = some d → digitAt t i j = some d := by
  obtain ⟨s, s', hr, hstep⟩ := ht
  have hok := (isValidSudoku_eq_true_iff hwf).mp hvalid
  have hinv := reaches_inv hwf hok hr
  rcases solverStep_cases hinv with ⟨-, hstop⟩ | ⟨s'', hs'', -, -⟩ |
    ⟨t'', s'', hs'', hinv', htab, -⟩
  · rw [hstop] at hstep
    simp at hstep
  · rw [hs''] at hstep
    simp at hstep
  · rw [hs''] at hstep
    injection hstep with h
    injection h with h1 h2
    rw [h1] at htab
    intro i j d hg
    exact htab ▸ hinv'.givens i j d hg

/-- C4: at every reachable state (every point between solver-internal loop
iterations) the working grid passes the validity check, and the candidate
pool of the frame about to place a value contains no digit already present
at another cell of that frame's row, column, or box. -/
theorem working_grid_always_valid (g : Table) (hwf : wfTable g)
    (hvalid : isValidSudoku g = some true) (s : SudokuSolver)
    (hr : Reaches g s) :
    isValidSudoku s.table = some true ∧
    (∀ f rest, s.recursion_stack = f :: rest → ∀ v ∈ f.possible_values,
      ∀ i j, i < 9 → j < 9 → inUnit f.attempted_cell i j →
      ¬(i = f.attempted_cell.row ∧ j = f.attempted_cell.col) →
      digitAt s.table i j ≠ some v) := by
  have hok := (isValidSudoku_eq_true_iff hwf).mp hvalid
  have hinv := reaches_inv hwf hok hr
  refine ⟨(isValidSudoku_eq_true_iff hinv.wf).mpr hinv.valid, ?_⟩
  intro f rest hstack v hv i j hi hj hu hne
  have hfr := hinv.fresh
  rw [hstack] at hfr
  apply hfr.1 v hv i j hi hj hu
  intro m hm
  rcases List.mem_cons.mp hm with rfl | hm'
  · intro hx
    exact hne ⟨congrArg CellLocation.row hx, congrArg CellLocation.col hx⟩
  · cases hm'

/-- C1 (amended): on a fully filled well-formed valid grid the solver
starts with an empty stack and the very first advancement reports no more
results — it emits nothing, rather than yielding the grid itself. -/
theorem complete_grid_no_emission (g : Table) (hwf : wfTable g)
    (_hvalid : isValidSudoku g = some true) (hfull : noEmptyCell g) :
    SudokuSolver.new g = some ⟨g, []⟩ ∧
    SudokuSolver.next ⟨g, []⟩ = NextRes.stop ⟨g, []⟩ := by
  have hscan : nextEmptyCellStartingFrom g ⟨0, 0⟩ = none := by
    cases hscan : nextEmptyCellStartingFrom g ⟨0, 0⟩ with
    | none => rfl
    | some ℓ =>
      exfalso
      obtain ⟨hemp, hr, hc, -, -⟩ :=
        nextEmpty_some_props hwf.1 (by show (0 : Nat) ≤ 9; omega) hscan
      exact hfull ℓ.row hr ℓ.col hc hemp
  exact ⟨by simp only [SudokuSolver.new, hscan], rfl⟩

theorem char_le_toNat {a b : Char} (h : a ≤ b) : a.toNat ≤ b.toNat := by
  rw [Char.le_def] at h
  exact h

theorem goodChar_of_digit_range {c : Char} (h1 : '1' ≤ c) (h2 : c ≤ '9') :
    goodChar c := by
  have hx1 : (49 : Nat) ≤ c.toNat := char_le_toNat h1
  have hx2 : c.toNat ≤ 57 := char_le_toNat h2
  have hc : c = Char.ofNat c.toNat := (Char.ofNat_toNat c).symm
  have hcase : c.toNat = 49 ∨ c.toNat = 50 ∨ c.toNat = 51 ∨ c.toNat = 52 ∨
      c.toNat = 53 ∨ c.toNat = 54 ∨ c.toNat = 55 ∨ c.toNat = 56 ∨
      c.toNat = 57 := by omega
  rcases hcase with h | h | h | h | h | h | h | h | h <;>
    · rw [h] at hc
      rw [hc]
      decide

theorem charToCell_good {c : Char} (h : goodChar c) :
    charToCell c = Except.ok (specCellOfChar c) := by
  simp only [goodChar, List.mem_cons, List.not_mem_nil, or_false] at h
  rcases h with rfl | rfl | rfl | rfl | rfl | rfl | rfl | rfl | rfl | rfl <;> rfl

theorem charToCell_ok_good {c : Char} {cell : SudokuCell}
    (h : charToCell c = Except.ok cell) : goodChar c := by
  unfold charToCell at h
  by_cases h1 : ('1' ≤ c ∧ c ≤ '9')
  · exact goodChar_of_digit_range h1.1 h1.2
  · rw [if_neg h1] at h
    by_cases h2 : c = 'X'
    · subst h2
      decide
    · rw [if_neg h2] at h
      cases h

theorem specCellOfChar_wf {c : Char} (h : goodChar c) :
    cellWF (specCellOfChar c) := by
  simp only [goodChar, List.mem_cons, List.not_mem_nil, or_false] at h
  rcases h with rfl | rfl | rfl | rfl | rfl | rfl | rfl | rfl | rfl | rfl <;> decide

theorem utf8Size_good {c : Char} (h : goodChar c) : c.utf8Size = 1 := by
  simp only [goodChar, List.mem_cons, List.not_mem_nil, or_false] at h
  rcases h with rfl | rfl | rfl | rfl | rfl | rfl | rfl | rfl | rfl | rfl <;> decide

theorem lineByteLength_good {l : List Char} (h : ∀ c ∈ l, goodChar c) :
    lineByteLength l = l.length := by
  induction l with
  | nil => rfl
  | cons c cs ih =>
    unfold lineByteLength at ih ⊢
    rw [List.map_cons, List.sum_cons, utf8Size_good (h c (List.mem_cons_self _ _)),
      ih (fun x hx => h x (List.mem_cons_of_mem _ hx)), List.length_cons]
    omega

theorem extractCells_good {l : List Char} (h : ∀ c ∈ l, goodChar c) :
    extractCells l = Except.ok (l.map specCellOfChar) := by
  induction l with
  | nil => rfl
  | cons c cs ih =>
    rw [extractCells, charToCell_good (h c (List.mem_cons_self _ _)),
      ih (fun x hx => h x (List.mem_cons_of_mem _ hx)), List.map_cons]

theorem extractCells_ok_inv {l : List Char} {row : List SudokuCell}
    (h : extractCells l = Except.ok row) :
    (∀ c ∈ l, goodChar c) ∧ row = l.map specCellOfChar := by
  induction l generalizing row with
  | nil =>
    injection h with h1
    exact ⟨fun c hc => absurd hc (List.not_mem_nil c), h1.symm⟩
  | cons c cs ih =>
    rw [extractCells] at h
    cases hc : charToCell c with
    | error e => rw [hc] at h; cases h
    | ok cell =>
      rw [hc] at h
      cases hcs : extractCells cs with
      | error e => rw [hcs] at h; cases h
      | ok rest =>
        rw [hcs] at h
        injection h with h1
        obtain ⟨hgood, hrest⟩ := ih hcs
        have hgc := charToCell_ok_good hc
        refine ⟨fun x hx => ?_, ?_⟩
        · rcases List.mem_cons.mp hx with rfl | hx'
          · exact hgc
          · exact hgood x hx'
        · subst hrest
          have hcell : cell = specCellOfChar c := by
            have hx := charToCell_good hgc
            rw [hc] at hx
            injection hx
          subst hcell
          exact h1.symm

theorem extractRowFromLine_good {l : List Char} (h : goodLine l) :
    extractRowFromLine l = Except.ok (l.map specCellOfChar) := by
  unfold extractRowFromLine
  rw [if_neg (by rw [lineByteLength_good h.2, h.1]; omega),
    extractCells_good h.2]

theorem extractRowFromLine_ok_inv {l : List Char} {row : List SudokuCell}
    (h : extractRowFromLine l = Except.ok row) :
    goodLine l ∧ row = l.map specCellOfChar := by
  unfold extractRowFromLine at h
  by_cases hlen : lineByteLength l ≠ 9
  · rw [if_pos hlen] at h
    cases h
  · rw [if_neg hlen] at h
    obtain ⟨hgood, hrow⟩ := extractCells_ok_inv h
    have : lineByteLength l = 9 := by omega
    rw [lineByteLength_good hgood] at this
    exact ⟨⟨this, hgood⟩, hrow⟩

theorem collectRows_good :
    ∀ (ls : List (List Char)) (i : Nat), (∀ l ∈ ls, goodLine l) →
      ls.length + i ≤ 9 →
      collectRows ls i = Except.ok (ls.map (fun l => l.map specCellOfChar)) := by
  intro ls
  induction ls with
  | nil => intro i _ _; rfl
  | cons l ls ih =>
    intro i hgood hlen
    rw [collectRows, if_neg (by simp at hlen; omega),
      extractRowFromLine_good (hgood l (List.mem_cons_self _ _)),
      ih (i + 1) (fun x hx => hgood x (List.mem_cons_of_mem _ hx))
        (by simp at hlen; omega), List.map_cons]

theorem collectRows_ok_inv :
    ∀ (ls : List (List Char)) (i : Nat) (rows : List (List SudokuCell)),
      collectRows ls i = Except.ok rows →
      (ls = [] ∨ ls.length + i ≤ 9) ∧ (∀ l ∈ ls, goodLine l) ∧
        rows = ls.map (fun l => l.map specCellOfChar) := by
  intro ls
  induction ls with
  | nil =>
    intro i rows h
    injection h with h1
    exact ⟨Or.inl rfl, fun l hl => absurd hl (List.not_mem_nil l), h1.symm⟩
  | cons l ls ih =>
    intro i rows h
    rw [collectRows] at h
    by_cases hi : 9 ≤ i
    · rw [if_pos hi] at h
      cases h
    · rw [if_neg hi] at h
      cases hex : extractRowFromLine l with
      | error e => rw [hex] at h; cases h
      | ok row =>
        rw [hex] at h
        cases hrec : collectRows ls (i + 1) with
        | error e => rw [hrec] at h; cases h
        | ok rest =>
          rw [hrec] at h
          injection h with h1
          obtain ⟨hlen, hgood, hrest⟩ := ih (i + 1) rest hrec
          obtain ⟨hgl, hrow⟩ := extractRowFromLine_ok_inv hex
          have hlen' : ls.length + (i + 1) ≤ 9 ∨ ls = [] := by
            rcases hlen with h | h
            · exact Or.inr h
            · exact Or.inl h
          refine ⟨Or.inr ?_, fun x hx => ?_, ?_⟩
          · rcases hlen' with h | h
            · simp
              omega
            · subst h
              simp
              omega
          · rcases List.mem_cons.mp hx with rfl | hx'
            · exact hgl
            · exact hgood x hx'
          · rw [← h1, hrest, hrow, List.map_cons]

theorem collectRows_badline :
    ∀ (pre : List (List Char)) (bad : List Char) (post : List (List Char))
      (i : Nat), pre.length + i < 9 → (∀ l ∈ pre, goodLine l) →
      lineByteLength bad ≠ 9 →
      collectRows (pre ++ bad :: post) i = Except.error ParseError.BadLineLength := by
  intro pre
  induction pre with
  | nil =>
    intro bad post i hlen hgood hbad
    rw [List.nil_append, collectRows, if_neg (by simp at hlen; omega)]
    unfold extractRowFromLine
    rw [if_pos hbad]
  | cons l pre ih =>
    intro bad post i hlen hgood hbad
    rw [List.cons_append, collectRows, if_neg (by simp at hlen; omega),
      extractRowFromLine_good (hgood l (List.mem_cons_self _ _)),
      ih bad post (i + 1) (by simp at hlen; omega)
        (fun x hx => hgood x (List.mem_cons_of_mem _ hx)) hbad]

theorem specGrid_wf {lines : List (List Char)} (hlen : lines.length = 9)
    (hgood : ∀ l ∈ lines, goodLine l) : wfTable (specGridOfLines lines) := by
  unfold specGridOfLines
  refine ⟨by simp [hlen], fun i hi => ?_⟩
  have hilt : i < lines.length := by omega
  have hrow : (lines.map (fun l => l.map specCellOfChar)).getD i [] =
      (lines[i]).map specCellOfChar := by
    rw [getD_of_lt [] (by simp; omega)]
    exact List.getElem_map _
  have hgl := hgood lines[i] (List.getElem_mem hilt)
  constructor
  · rw [hrow, List.length_map]
    exact hgl.1
  · intro j hj
    have hjlt : j < (lines[i]).length := by rw [hgl.1]; omega
    unfold getCell
    rw [hrow, getD_of_lt SudokuCell.Empty (by simp; omega), List.getElem_map]
    exact specCellOfChar_wf (hgl.2 _ (List.getElem_mem hjlt))

theorem fromString_ok_inv {lines : List (List Char)} {g : Table}
    (h : fromString lines = some (Except.ok g)) :
    lines.length = 9 ∧ (∀ l ∈ lines, goodLine l) ∧ g = specGridOfLines lines ∧
    wfTable g ∧ isValidSudoku g = some true := by
  unfold fromString at h
  cases hcol : collectRows lines 0 with
  | error e =>
    simp only [hcol] at h
    injection h with h1
    cases h1
  | ok contents =>
    simp only [hcol] at h
    obtain ⟨hlen, hgood, hcont⟩ := collectRows_ok_inv lines 0 contents hcol
    by_cases hlt : contents.length < 9
    · rw [if_pos hlt] at h
      injection h with h1
      cases h1
    · rw [if_neg hlt] at h
      have hcl : contents.length = lines.length := by rw [hcont]; simp
      have hlen9 : lines.length = 9 := by
        rcases hlen with hnil | hle
        · subst hnil
          simp at hcont
          subst hcont
          simp at hlt
        · omega
      cases hval : isValidSudoku contents with
      | none =>
        rw [hval] at h
        cases h
      | some b =>
        simp only [hval] at h
        cases b with
        | false => injection h with h1; cases h1
        | true =>
          injection h with h1
          injection h1 with h2
          subst h2
          exact ⟨hlen9, hgood, hcont, hcont ▸ specGrid_wf hlen9 hgood,
            hcont ▸ hval⟩

/-! ### Claim theorems for parsing and the validity check -/

/-- C8: the validity check returns true exactly when no digit occurs more
than once in any row, column, or 3x3 box (empty cells ignored). -/
theorem validity_checker_iff (t : Table) (hwf : wfTable t) :
    isValidSudoku t = some true ↔ TableOK t :=
  isValidSudoku_eq_true_iff hwf

/-- C7: parsing succeeds exactly on 9 lines of 9 legal characters whose
grid passes the validity check; a wrong-length line (after well-formed
earlier lines) is rejected as the bad-line-length error, a short input of
well-formed lines as too-few-lines (reporting the count found), and a
well-formed 9x9 grid failing the validity check as invalid-puzzle. -/
theorem parsing_characterization :
    (∀ lines : List (List Char),
      (∃ t, fromString lines = some (Except.ok t)) ↔
        (lines.length = 9 ∧ (∀ l ∈ lines, goodLine l) ∧
          isValidSudoku (specGridOfLines lines) = some true)) ∧
    (∀ (pre : List (List Char)) (bad : List Char) (post : List (List Char)),
      pre.length < 9 → (∀ l ∈ pre, goodLine l) → lineByteLength bad ≠ 9 →
      fromString (pre ++ bad :: post) =
        some (Except.error ParseError.BadLineLength)) ∧
    (∀ lines : List (List Char), lines.length < 9 → (∀ l ∈ lines, goodLine l) →
      fromString lines = some (Except.error (ParseError.TooFewLines lines.length))) ∧
    (∀ lines : List (List Char), lines.length = 9 → (∀ l ∈ lines, goodLine l) →
      isValidSudoku (specGridOfLines lines) = some false →
      fromString lines = some (Except.error ParseError.InvalidPuzzle)) := by
  refine ⟨?_, ?_, ?_, ?_⟩
  · intro lines
    constructor
    · rintro ⟨t, ht⟩
      obtain ⟨h1, h2, h3, -, h5⟩ := fromString_ok_inv ht
      exact ⟨h1, h2, by rw [← h3]; exact h5⟩
    · rintro ⟨h1, h2, h3⟩
      refine ⟨specGridOfLines lines, ?_⟩
      unfold fromString
      simp only [collectRows_good lines 0 h2 (by omega)]
      rw [if_neg (by simp [h1])]
      unfold specGridOfLines at h3
      simp only [h3]
      rfl
  · intro pre bad post hlen hgood hbad
    unfold fromString
    simp only [collectRows_badline pre bad post 0 (by omega) hgood hbad]
  · intro lines hlen hgood
    unfold fromString
    simp only [collectRows_good lines 0 hgood (by omega)]
    rw [if_pos (by simp; omega)]
    have hmaplen : (lines.map (fun l => l.map specCellOfChar)).length =
        lines.length := by simp
    rw [hmaplen]
  · intro lines hlen hgood hval
    unfold fromString
    simp only [collectRows_good lines 0 hgood (by omega)]
    rw [if_neg (by simp; omega)]
    unfold specGridOfLines at hval
    simp only [hval]

/-- C10: on any grid produced by parsing, solver construction and every
advancement are total: the `digit - 1` presence-table indexing and the
stack `unwrap`s never panic (`nextFuel` never returns the panic marker, on
any reachable state, with any fuel). -/
theorem parsed_solver_no_panic (lines : List (List Char)) (g : Table)
    (hparse : fromString lines = some (Except.ok g)) :
    SudokuSolver.new g ≠ none ∧
    ∀ s, Reaches g s → ∀ n, nextFuel n s ≠ NextRes.panic := by
  obtain ⟨-, -, -, hwf, hval⟩ := fromString_ok_inv hparse
  have hok := (isValidSudoku_eq_true_iff hwf).mp hval
  constructor
  · obtain ⟨s₀, hs₀, -, -⟩ := new_inv hwf hok
    rw [hs₀]
    intro h
    cases h
  · intro s hr n
    exact nextFuel_ne_panic n s (reaches_inv hwf hok hr)

/-- C1 counterexample: on this concrete fully Filled, valid grid the
solver starts with an empty stack and the FIRST advancement already
reports no more results (`NextRes.stop`), instead of yielding the grid
itself as the claim states. -/
theorem complete_grid_counterexample :
    wfTable fullSolutionGrid ∧ isValidSudoku fullSolutionGrid = some true ∧
    noEmptyCell fullSolutionGrid ∧
    SudokuSolver.new fullSolutionGrid = some ⟨fullSolutionGrid, []⟩ ∧
    SudokuSolver.next ⟨fullSolutionGrid, []⟩ =
      NextRes.stop ⟨fullSolutionGrid, []⟩ :=
  ⟨by decide, by decide, by decide, by decide, by decide⟩

/-- C1 witness for the amended claim. -/
theorem complete_grid_no_emission_witness :
    SudokuSolver.new fullSolutionGrid = some ⟨fullSolutionGrid, []⟩ ∧
    SudokuSolver.next ⟨fullSolutionGrid, []⟩ =
      NextRes.stop ⟨fullSolutionGrid, []⟩ :=
  complete_grid_no_emission fullSolutionGrid (by decide) (by decide) (by decide)

/-- C2 witness: the one-hole puzzle emits the full solution grid, which is
valid and complete. -/
theorem emitted_valid_and_complete_witness :
    isValidSudoku fullSolutionGrid = some true ∧ noEmptyCell fullSolutionGrid :=
  emitted_valid_and_complete oneHoleGrid (by decide) (by decide) fullSolutionGrid
    ⟨⟨oneHoleGrid, [⟨⟨0, 0⟩, [3]⟩]⟩, ⟨fullSolutionGrid, [⟨⟨0, 0⟩, []⟩]⟩,
      Reaches.init ⟨oneHoleGrid, [⟨⟨0, 0⟩, [3]⟩]⟩ (by decide), by decide⟩

/-- C3 witness: the given digit 1 at (0, 2) survives into the emitted
solution. -/
theorem emitted_preserves_givens_witness :
    digitAt fullSolutionGrid 0 2 = some 1 :=
  emitted_preserves_givens oneHoleGrid (by decide) (by decide) fullSolutionGrid
    ⟨⟨oneHoleGrid, [⟨⟨0, 0⟩, [3]⟩]⟩, ⟨fullSolutionGrid, [⟨⟨0, 0⟩, []⟩]⟩,
      Reaches.init ⟨oneHoleGrid, [⟨⟨0, 0⟩, [3]⟩]⟩ (by decide), by decide⟩
    0 2 1 (by decide)

/-- C4 witness: at the initial reachable state the working grid passes the
validity check. -/
theorem working_grid_always_valid_witness :
    isValidSudoku oneHoleGrid = some true :=
  (working_grid_always_valid oneHoleGrid (by decide) (by decide)
    ⟨oneHoleGrid, [⟨⟨0, 0⟩, [3]⟩]⟩
    (Reaches.init ⟨oneHoleGrid, [⟨⟨0, 0⟩, [3]⟩]⟩ (by decide))).1

/-- C5 witness. -/
theorem advancement_terminates_witness :
    SudokuSolver.next ⟨oneHoleGrid, [⟨⟨0, 0⟩, [3]⟩]⟩ ≠ NextRes.outOfFuel :=
  (advancement_terminates oneHoleGrid (by decide) (by decide)
    ⟨oneHoleGrid, [⟨⟨0, 0⟩, [3]⟩]⟩
    (Reaches.init ⟨oneHoleGrid, [⟨⟨0, 0⟩, [3]⟩]⟩ (by decide))).1

/-- C7 witness: a concrete success, a bad-line-length rejection, a
too-few-lines rejection and an invalid-puzzle rejection. -/
theorem parsing_characterization_witness :
    (∃ t, fromString c7goodLines = some (Except.ok t)) ∧
    fromString (c7preLines ++ c7badLine :: c7postLines) =
      some (Except.error ParseError.BadLineLength) ∧
    fromString c7eightLines = some (Except.error (ParseError.TooFewLines 8)) ∧
    fromString c7dupLines = some (Except.error ParseError.InvalidPuzzle) :=
  ⟨(parsing_characterization.1 c7goodLines).mpr
      ⟨by decide, by decide, by decide⟩,
    parsing_characterization.2.1 c7preLines c7badLine c7postLines
      (by decide) (by decide) (by decide),
    parsing_characterization.2.2.1 c7eightLines (by decide) (by decide),
    parsing_characterization.2.2.2 c7dupLines (by decide) (by decide) (by decide)⟩

/-- C8 witness. -/
theorem validity_checker_iff_witness :
    wfTable fullSolutionGrid ∧
      (isValidSudoku fullSolutionGrid = some true ↔ TableOK fullSolutionGrid) :=
  ⟨by decide, validity_checker_iff fullSolutionGrid (by decide)⟩

/-- C10 witness: the parsing-test grid parses and its solver constructs. -/
theorem parsed_solver_no_panic_witness :
    SudokuSolver.new (specGridOfLines c7goodLines) ≠ none :=
  (parsed_solver_no_panic c7goodLines (specGridOfLines c7goodLines) rfl).1

/-! ### Layer 10a: packing toolbox -/

theorem xor_shiftLeft (a b s : Nat) :
    (a ^^^ b) <<< s = (a <<< s) ^^^ (b <<< s) := by
  apply Nat.eq_of_testBit_eq
  intro i
  by_cases h : s ≤ i <;>
    simp [Nat.testBit_shiftLeft, Nat.testBit_xor, h]

theorem xor_shiftRight (a b s : Nat) :
    (a ^^^ b) >>> s = (a >>> s) ^^^ (b >>> s) := by
  apply Nat.eq_of_testBit_eq
  intro i
  simp [Nat.testBit_shiftRight, Nat.testBit_xor]

theorem shiftLeft_shiftRight_self (a s : Nat) : (a <<< s) >>> s = a := by
  apply Nat.eq_of_testBit_eq
  intro i
  simp [Nat.testBit_shiftRight, Nat.testBit_shiftLeft]

theorem shiftRight_eq_zero {a s : Nat} (h : a < 2 ^ s) : a >>> s = 0 := by
  rw [Nat.shiftRight_eq_div_pow]
  exact Nat.div_eq_of_lt h

theorem shiftLeft_shiftLeft (a s t : Nat) :
    (a <<< s) <<< t = a <<< (s + t) := by
  rw [Nat.shiftLeft_eq, Nat.shiftLeft_eq, Nat.shiftLeft_eq, Nat.pow_add,
    Nat.mul_assoc]

theorem testBit_one_shiftLeft (s i : Nat) :
    (1 <<< s).testBit i = decide (s = i) := by
  rw [Nat.shiftLeft_eq, Nat.one_mul, Nat.testBit_two_pow]

theorem packUnits_lt (W : Nat) :
    ∀ l : List Nat, (∀ m ∈ l, m < 2 ^ W) →
      packUnits W l < 2 ^ (W * l.length) := by
  intro l
  induction l with
  | nil => intro _; simp [packUnits]
  | cons m ms ih =>
    intro h
    rw [packUnits, List.length_cons]
    have hW1 : W * 1 ≤ W * (ms.length + 1) := Nat.mul_le_mul_left W (by omega)
    have hW2 : W * ms.length + W = W * (ms.length + 1) := by ring
    have h1 : m < 2 ^ (W * (ms.length + 1)) :=
      Nat.lt_of_lt_of_le (h m (List.mem_cons_self _ _))
        (Nat.pow_le_pow_right (by omega) (by omega))
    have h3 := ih (fun x hx => h x (List.mem_cons_of_mem _ hx))
    have h2 : packUnits W ms <<< W < 2 ^ (W * (ms.length + 1)) := by
      rw [Nat.shiftLeft_eq, ← hW2, Nat.pow_add]
      exact (Nat.mul_lt_mul_right (Nat.two_pow_pos W)).mpr h3
    exact Nat.xor_lt_two_pow h1 h2

theorem packUnits_low {W : Nat} {m : Nat} (ms : List Nat) (h : m < 2 ^ W) :
    packUnits W (m :: ms) &&& (2 ^ W - 1) = m := by
  apply Nat.eq_of_testBit_eq
  intro i
  rw [packUnits]
  by_cases hi : i < W
  · simp [Nat.testBit_and, Nat.testBit_xor, Nat.testBit_shiftLeft,
      Nat.testBit_two_pow_sub_one, hi, Nat.not_le_of_lt hi]
  · have hm : m.testBit i = false :=
      Nat.testBit_lt_two_pow
        (Nat.lt_of_lt_of_le h (Nat.pow_le_pow_right (by omega) (by omega)))
    simp [Nat.testBit_and, Nat.testBit_two_pow_sub_one, hi, hm]

theorem packUnits_shift {W : Nat} {m : Nat} (ms : List Nat) (h : m < 2 ^ W) :
    packUnits W (m :: ms) >>> W = packUnits W ms := by
  rw [packUnits, xor_shiftRight, shiftRight_eq_zero h,
    shiftLeft_shiftRight_self]
  simp

theorem packUnits_extract (W : Nat) :
    ∀ (l : List Nat) (k : Nat), (∀ m ∈ l, m < 2 ^ W) → k < l.length →
      packUnits W l >>> (W * k) &&& (2 ^ W - 1) = l.getD k 0 := by
  intro l
  induction l with
  | nil => intro k _ hk; simp at hk
  | cons m ms ih =>
    intro k h hk
    cases k with
    | zero =>
      rw [Nat.mul_zero, Nat.shiftRight_zero, List.getD_cons_zero]
      exact packUnits_low ms (h m (List.mem_cons_self _ _))
    | succ k =>
      have hmul : W * (k + 1) = W + W * k := by ring
      rw [hmul, Nat.shiftRight_add,
        packUnits_shift ms (h m (List.mem_cons_self _ _)),
        List.getD_cons_succ]
      exact ih k (fun x hx => h x (List.mem_cons_of_mem _ hx)) (by simp at hk; omega)

theorem packUnits_update (W : Nat) :
    ∀ (l l' : List Nat) (k : Nat), l.length = l'.length →
      (∀ n, n ≠ k → l.getD n 0 = l'.getD n 0) →
      packUnits W l' =
        packUnits W l ^^^ ((l.getD k 0 ^^^ l'.getD k 0) <<< (W * k)) := by
  intro l
  induction l with
  | nil =>
    intro l' k hlen _
    have hl : l' = [] := List.eq_nil_of_length_eq_zero (by simpa using hlen.symm)
    subst hl
    simp [packUnits]
  | cons m ms ih =>
    intro l' k hlen hagree
    obtain ⟨m', ms', rfl⟩ : ∃ a as, l' = a :: as := by
      cases l' with
      | nil => simp at hlen
      | cons a as => exact ⟨a, as, rfl⟩
    cases k with
    | zero =>
      have hms : ms = ms' := by
        apply List.ext_getElem (by simpa using hlen)
        intro n h1 h2
        have := hagree (n + 1) (by omega)
        rw [List.getD_cons_succ, List.getD_cons_succ] at this
        rw [← List.getD_eq_getElem _ 0 h1, ← List.getD_eq_getElem _ 0 h2, this]
      subst hms
      rw [Nat.mul_zero, Nat.shiftLeft_zero, List.getD_cons_zero,
        List.getD_cons_zero, packUnits, packUnits]
      apply Nat.eq_of_testBit_eq
      intro i
      simp only [Nat.testBit_xor]
      generalize m.testBit i = x
      generalize m'.testBit i = y
      generalize (packUnits W ms <<< W).testBit i = z
      revert x y z
      decide
    | succ k =>
      have hm : m = m' := by
        have := hagree 0 (by omega)
        simpa using this
      subst hm
      have hih := ih ms' k (by simpa using hlen) (fun n hn => by
        have := hagree (n + 1) (by omega)
        rw [List.getD_cons_succ, List.getD_cons_succ] at this
        exact this)
      have hexp : W * (k + 1) = W * k + W := by ring
      rw [packUnits, packUnits, List.getD_cons_succ, List.getD_cons_succ, hih,
        xor_shiftLeft, shiftLeft_shiftLeft, hexp, Nat.xor_assoc]

/-! ### Layer 10b: extraction from the packed encodings -/

theorem testBit_eq_one_iff (x q : Nat) :
    x.testBit q = decide (x >>> q &&& 1 = 1) := by
  simp [Nat.testBit_to_div_mod, Nat.shiftRight_eq_div_pow, Nat.and_one_is_mod]

theorem shiftLeft_shiftRight_and_eq_zero {x : Nat} (s r w : Nat)
    (h : r + w ≤ s) : (x <<< s) >>> r &&& (2 ^ w - 1) = 0 := by
  apply Nat.eq_of_testBit_eq
  intro q
  simp only [Nat.testBit_and, Nat.testBit_shiftRight, Nat.testBit_shiftLeft,
    Nat.testBit_two_pow_sub_one, Nat.zero_testBit]
  by_cases hq : q < w
  · have hns : ¬ s ≤ r + q := by omega
    simp [hq, hns]
  · simp [hq]

theorem packUnits_drop (W : Nat) :
    ∀ (l : List Nat) (k : Nat), (∀ m ∈ l, m < 2 ^ W) → k ≤ l.length →
      packUnits W l >>> (W * k) = packUnits W (l.drop k) := by
  intro l
  induction l with
  | nil =>
    intro k _ hk
    have : k = 0 := by simpa using hk
    subst this
    simp [packUnits]
  | cons m ms ih =>
    intro k h hk
    cases k with
    | zero => simp
    | succ k =>
      have hm : W * (k + 1) = W + W * k := by ring
      rw [hm, Nat.shiftRight_add, packUnits_shift ms (h m (List.mem_cons_self _ _)),
        List.drop_succ_cons]
      exact ih k (fun x hx => h x (List.mem_cons_of_mem _ hx)) (by simp at hk; omega)

theorem row_cells_wf {t : Table} (hwf : wfTable t) {i : Nat} (hi : i < 9) :
    ∀ c ∈ t.getD i [], cellWF c := by
  intro c hc
  obtain ⟨j, hj, rfl⟩ := List.getElem_of_mem hc
  rw [← getD_of_lt SudokuCell.Empty hj]
  exact getCell_wf hwf i j

theorem getD_map_f {α β : Type} (f : α → β) (d : α) (l : List α) (j : Nat)
    (hj : j < l.length) : (l.map f).getD j (f d) = f (l.getD j d) := by
  rw [getD_of_lt (f d) (by simpa using hj), getD_of_lt d hj, List.getElem_map]

/-- Two-level extraction: the `f`-field of cell (i, j) from the row-packed
encoding. -/
theorem packUnits2_extract (Wi : Nat) (f : SudokuCell → Nat)
    (hf : ∀ c, cellWF c → f c < 2 ^ Wi) {t : Table} (hwf : wfTable t)
    {i j : Nat} (hi : i < 9) (hj : j < 9) :
    packUnits (9 * Wi) (t.map (fun r => packUnits Wi (r.map f))) >>>
        ((9 * Wi) * i + Wi * j) &&& (2 ^ Wi - 1) = f (getCell t i j) := by
  have hlen : t.length = 9 := hwf.1
  have hrowlen : (t.getD i []).length = 9 := (hwf.2 i hi).1
  have hrowbound : ∀ (i' : Nat), i' < 9 →
      packUnits Wi ((t.getD i' []).map f) < 2 ^ (9 * Wi) := by
    intro i' hi9
    have hlen' : (t.getD i' []).length = 9 := (hwf.2 i' hi9).1
    have h := packUnits_lt Wi ((t.getD i' []).map f) (by
      intro x hx
      obtain ⟨c, hc, rfl⟩ := List.mem_map.mp hx
      exact hf c (row_cells_wf hwf hi9 c hc))
    rw [List.length_map, hlen'] at h
    have hcomm : Wi * 9 = 9 * Wi := by ring
    rw [hcomm] at h
    exact h
  have hrows : ∀ m ∈ t.map (fun r => packUnits Wi (r.map f)), m < 2 ^ (9 * Wi) := by
    intro m hm
    obtain ⟨r, hr, rfl⟩ := List.mem_map.mp hm
    obtain ⟨i', hi', rfl⟩ := List.getElem_of_mem hr
    have hi9 : i' < 9 := by omega
    rw [← getD_of_lt [] hi']
    exact hrowbound i' hi9
  have hit : i < t.length := by omega
  have hilen : i < (t.map (fun r => packUnits Wi (r.map f))).length := by
    simp [hlen]; omega
  have h9j : Wi * j + Wi ≤ 9 * Wi := by
    have h1 : Wi * (j + 1) ≤ Wi * 9 := Nat.mul_le_mul_left Wi (by omega)
    have h2 : Wi * (j + 1) = Wi * j + Wi := by ring
    have h3 : Wi * 9 = 9 * Wi := by ring
    omega
  rw [Nat.shiftRight_add,
    packUnits_drop (9 * Wi) _ i hrows (by simp [hlen]; omega),
    List.drop_eq_getElem_cons hilen, packUnits, xor_shiftRight,
    Nat.and_xor_distrib_right,
    shiftLeft_shiftRight_and_eq_zero (9 * Wi) (Wi * j) Wi h9j,
    Nat.xor_zero, List.getElem_map]
  have hext := packUnits_extract Wi ((t[i]).map f) j (by
      intro x hx
      obtain ⟨c, hc, rfl⟩ := List.mem_map.mp hx
      apply hf
      rw [← getD_of_lt [] hit] at hc
      exact row_cells_wf hwf hi c hc)
    (by
      rw [List.length_map, ← getD_of_lt [] hit, hrowlen]
      omega)
  rw [hext, ← getD_of_lt ([] : List SudokuCell) hit]
  have hjr : j < (t.getD i []).length := by omega
  have := getD_map_f f SudokuCell.Empty (t.getD i []) j hjr
  have hjm : j < ((t.getD i []).map f).length := by simpa using hjr
  calc ((t.getD i []).map f).getD j 0
      = ((t.getD i []).map f).getD j (f SudokuCell.Empty) :=
        (getD_of_lt 0 hjm).trans (getD_of_lt (f SudokuCell.Empty) hjm).symm
    _ = f ((t.getD i []).getD j SudokuCell.Empty) :=
        getD_map_f f SudokuCell.Empty (t.getD i []) j hjr
    _ = f (getCell t i j) := rfl

theorem cellDig_lt {c : SudokuCell} (h : cellWF c) : cellDig c < 2 ^ 4 := by
  cases c with
  | Empty => decide
  | Filled d =>
    obtain ⟨h1, h2⟩ := h
    show d < 16
    omega

theorem cellEmp_lt (c : SudokuCell) : cellEmp c < 2 ^ 1 := by
  cases c with
  | Empty => decide
  | Filled d => show (0 : Nat) < 2 ^ 1; decide

/-- Digit extraction from the packed grid. -/
theorem digAt_encGrid {t : Table} (hwf : wfTable t) {i j : Nat}
    (hi : i < 9) (hj : j < 9) :
    digAt (encGrid t) (i * 9 + j) = cellDig (getCell t i j) := by
  have h4 : 4 * (i * 9 + j) = (9 * 4) * i + 4 * j := by ring
  have h15 : (15 : Nat) = 2 ^ 4 - 1 := by norm_num
  rw [digAt, h4, h15]
  exact packUnits2_extract 4 cellDig (fun c hc => cellDig_lt hc) hwf hi hj

/-- Empty-cell bit extraction from the packed bitset. -/
theorem testBit_encEmp {t : Table} (hwf : wfTable t) {i j : Nat}
    (hi : i < 9) (hj : j < 9) :
    (encEmp t).testBit (i * 9 + j) =
      decide (getCell t i j = SudokuCell.Empty) := by
  have h9 : i * 9 + j = (9 * 1) * i + 1 * j := by ring
  rw [testBit_eq_one_iff, h9]
  have hext' : encEmp t >>> ((9 * 1) * i + 1 * j) &&& 1 =
      cellEmp (getCell t i j) :=
    packUnits2_extract 1 cellEmp (fun c _ => cellEmp_lt c) hwf hi hj
  rw [hext']
  cases hcell : getCell t i j <;> simp [cellEmp]

/-! ### Layer 10c: packed encodings under `setCell` -/

theorem packUnits2_update (Wi : Nat) (f : SudokuCell → Nat) {t : Table}
    (hwf : wfTable t) {ℓ : CellLocation} (hr : ℓ.row < 9) (hc : ℓ.col < 9)
    (v : SudokuCell) :
    packUnits (9 * Wi) ((setCell t ℓ v).map (fun r => packUnits Wi (r.map f))) =
      packUnits (9 * Wi) (t.map (fun r => packUnits Wi (r.map f))) ^^^
        ((f (getCell t ℓ.row ℓ.col) ^^^ f v) <<<
          ((9 * Wi) * ℓ.row + Wi * ℓ.col)) := by
  have hlen : t.length = 9 := hwf.1
  have hrowlen : (t.getD ℓ.row []).length = 9 := (hwf.2 ℓ.row hr).1
  have hrt : ℓ.row < t.length := by omega
  have hct : ℓ.col < (t.getD ℓ.row []).length := by omega
  set g := fun r : List SudokuCell => packUnits Wi (r.map f) with hg
  set row := t.getD ℓ.row [] with hrowdef
  have hmaps : (setCell t ℓ v).map g = (t.map g).set ℓ.row (g (row.set ℓ.col v)) := by
    rw [setCell, List.map_set]
  have hinner : g (row.set ℓ.col v) =
      g row ^^^ ((f (getCell t ℓ.row ℓ.col) ^^^ f v) <<< (Wi * ℓ.col)) := by
    have hmapset : (row.set ℓ.col v).map f = (row.map f).set ℓ.col (f v) :=
      List.map_set
    have hup := packUnits_update Wi (row.map f) ((row.map f).set ℓ.col (f v))
      ℓ.col (by rw [List.length_set]) (fun n hn => (getD_set_ne (Ne.symm hn)).symm)
    rw [hg]
    show packUnits Wi ((row.set ℓ.col v).map f) = _
    rw [hmapset, hup, getD_set_self (by simpa using hct)]
    congr 2
    rw [getD_of_lt 0 (by simpa using hct), List.getElem_map,
      ← getD_of_lt SudokuCell.Empty hct]
    rfl
  have houter := packUnits_update (9 * Wi) (t.map g)
    ((t.map g).set ℓ.row (g (row.set ℓ.col v))) ℓ.row
    (by rw [List.length_set]) (fun n hn => (getD_set_ne (Ne.symm hn)).symm)
  rw [hmaps, houter, getD_set_self (by simpa using hrt)]
  have hgetrow : (t.map g).getD ℓ.row 0 = g row := by
    rw [getD_of_lt 0 (by simpa using hrt), List.getElem_map, hrowdef,
      getD_of_lt [] hrt]
  rw [hgetrow, hinner, Nat.xor_cancel_left, shiftLeft_shiftLeft]
  congr 2
  ring

theorem encGrid_setCell {t : Table} (hwf : wfTable t) {ℓ : CellLocation}
    (hr : ℓ.row < 9) (hc : ℓ.col < 9) (v : SudokuCell) :
    encGrid (setCell t ℓ v) = encGrid t ^^^
      ((cellDig (getCell t ℓ.row ℓ.col) ^^^ cellDig v) <<< (4 * rmIdx ℓ)) := by
  have h := packUnits2_update 4 cellDig hwf hr hc v
  have hexp : (9 * 4) * ℓ.row + 4 * ℓ.col = 4 * rmIdx ℓ := by
    unfold rmIdx; ring
  rw [encGrid, encGrid]
  show packUnits (9 * 4) _ = packUnits (9 * 4) _ ^^^ _
  rw [h, hexp]

theorem encEmp_setCell {t : Table} (hwf : wfTable t) {ℓ : CellLocation}
    (hr : ℓ.row < 9) (hc : ℓ.col < 9) (v : SudokuCell) :
    encEmp (setCell t ℓ v) = encEmp t ^^^
      ((cellEmp (getCell t ℓ.row ℓ.col) ^^^ cellEmp v) <<< rmIdx ℓ) := by
  have h := packUnits2_update 1 cellEmp hwf hr hc v
  have hexp : (9 * 1) * ℓ.row + 1 * ℓ.col = rmIdx ℓ := by
    unfold rmIdx; ring
  rw [encEmp, encEmp]
  show packUnits (9 * 1) _ = packUnits (9 * 1) _ ^^^ _
  rw [h, hexp]

/-- Generic update of a position-list mask encoding: if position `ℓ`
appears exactly in unit `b0` (at some index, nowhere else), the packed
masks change by toggling the old and new cell masks in field `b0`. -/
theorem packMask_update (pl : Nat → List (Nat × Nat)) (t : Table)
    (ℓ : CellLocation) (v : SudokuCell) (hlen : t.length = 9)
    (hrowl : (t.getD ℓ.row []).length = 9) (hr : ℓ.row < 9) (hc : ℓ.col < 9)
    (b0 k0 : Nat) (hb0 : b0 < 9) (hk0 : k0 < (pl b0).length)
    (hat : (pl b0).getD k0 (0, 0) = (ℓ.row, ℓ.col))
    (hoff : ∀ b, b < 9 → ∀ n, n < (pl b).length → ¬(b = b0 ∧ n = k0) →
      (pl b).getD n (0, 0) ≠ (ℓ.row, ℓ.col)) :
    packUnits 9 ((List.range 9).map (fun b => unitMaskAt (setCell t ℓ v) (pl b))) =
      packUnits 9 ((List.range 9).map (fun b => unitMaskAt t (pl b))) ^^^
        ((cellMask (getCell t ℓ.row ℓ.col) ^^^ cellMask v) <<< (9 * b0)) := by
  have hcellch : ∀ q : Nat × Nat, q ≠ (ℓ.row, ℓ.col) →
      getCell (setCell t ℓ v) q.1 q.2 = getCell t q.1 q.2 := by
    intro q hq
    rw [getCell_setCell t ℓ v hlen hrowl hr hc q.1 q.2, if_neg]
    intro hcontra
    apply hq
    obtain ⟨x, y⟩ := q
    simp only at hcontra
    rw [hcontra.1, hcontra.2]
  have hunit_ne : ∀ b, b < 9 → b ≠ b0 →
      unitMaskAt (setCell t ℓ v) (pl b) = unitMaskAt t (pl b) := by
    intro b hb hbne
    unfold unitMaskAt
    congr 1
    apply List.map_congr_left
    intro q hq
    obtain ⟨n, hn, rfl⟩ := List.getElem_of_mem hq
    congr 1
    apply hcellch
    have := hoff b hb n (by omega) (by intro h; exact hbne h.1)
    rw [getD_of_lt (0, 0) hn] at this
    exact this
  have hunit_b0 : unitMaskAt (setCell t ℓ v) (pl b0) =
      unitMaskAt t (pl b0) ^^^
        (cellMask (getCell t ℓ.row ℓ.col) ^^^ cellMask v) := by
    unfold unitMaskAt
    have hup := packUnits_update 0
      ((pl b0).map (fun q => cellMask (getCell t q.1 q.2)))
      ((pl b0).map (fun q => cellMask (getCell (setCell t ℓ v) q.1 q.2)))
      k0 (by rw [List.length_map, List.length_map])
      (fun n hn => by
        by_cases hnl : n < (pl b0).length
        · rw [getD_of_lt 0 (by simpa using hnl), getD_of_lt 0 (by simpa using hnl),
            List.getElem_map, List.getElem_map]
          congr 1
          apply (hcellch _ ?_).symm
          have := hoff b0 hb0 n hnl (by intro h; exact hn h.2)
          rw [getD_of_lt (0, 0) hnl] at this
          exact this
        · rw [List.getD_eq_default _ _ (by simpa using Nat.le_of_not_lt hnl),
            List.getD_eq_default _ _ (by simpa using Nat.le_of_not_lt hnl)])
    rw [hup, Nat.zero_mul, Nat.shiftLeft_zero]
    congr 1
    rw [getD_of_lt 0 (by simpa using hk0), getD_of_lt 0 (by simpa using hk0),
      List.getElem_map, List.getElem_map, ← getD_of_lt (0, 0) hk0, hat]
    show cellMask (getCell t ℓ.row ℓ.col) ^^^
        cellMask (getCell (setCell t ℓ v) ℓ.row ℓ.col) = _
    rw [getCell_setCell t ℓ v hlen hrowl hr hc ℓ.row ℓ.col, if_pos ⟨rfl, rfl⟩]
  have houter := packUnits_update 9
    ((List.range 9).map (fun b => unitMaskAt t (pl b)))
    ((List.range 9).map (fun b => unitMaskAt (setCell t ℓ v) (pl b)))
    b0 (by rw [List.length_map, List.length_map])
    (fun n hn => by
      by_cases hnl : n < 9
      · rw [getD_of_lt 0 (by simpa using hnl), getD_of_lt 0 (by simpa using hnl)]
        simp only [List.getElem_map, List.getElem_range]
        exact (hunit_ne n hnl hn).symm
      · rw [List.getD_eq_default _ _ (by simpa using Nat.le_of_not_lt hnl),
          List.getD_eq_default _ _ (by simpa using Nat.le_of_not_lt hnl)])
  rw [houter]
  congr 2
  rw [getD_of_lt 0 (by simpa using hb0), getD_of_lt 0 (by simpa using hb0)]
  simp only [List.getElem_map, List.getElem_range]
  rw [hunit_b0, Nat.xor_cancel_left]

/-! ### Layer 10d: mask updates under `setCell` -/

theorem rowsM_setCell {t : Table} (hwf : wfTable t) {ℓ : CellLocation}
    (hr : ℓ.row < 9) (hc : ℓ.col < 9) (v : SudokuCell) :
    rowsM (setCell t ℓ v) = rowsM t ^^^
      ((cellMask (getCell t ℓ.row ℓ.col) ^^^ cellMask v) <<< (9 * ℓ.row)) := by
  apply packMask_update unitCellsRow t ℓ v hwf.1 (hwf.2 ℓ.row hr).1 hr hc
    ℓ.row ℓ.col hr (by simp [unitCellsRow]; omega)
  · rw [unitCellsRow, getD_of_lt (0, 0) (by simp; omega)]
    simp
  · intro b hb n hn hne
    rw [unitCellsRow] at hn ⊢
    simp only [List.length_map, List.length_range] at hn
    rw [getD_of_lt (0, 0) (by simp; omega)]
    simp only [List.getElem_map, List.getElem_range, ne_eq, Prod.mk.injEq,
      not_and]
    intro hb' hn'
    exact absurd ⟨hb', hn'⟩ hne

theorem colsM_setCell {t : Table} (hwf : wfTable t) {ℓ : CellLocation}
    (hr : ℓ.row < 9) (hc : ℓ.col < 9) (v : SudokuCell) :
    colsM (setCell t ℓ v) = colsM t ^^^
      ((cellMask (getCell t ℓ.row ℓ.col) ^^^ cellMask v) <<< (9 * ℓ.col)) := by
  apply packMask_update unitCellsCol t ℓ v hwf.1 (hwf.2 ℓ.row hr).1 hr hc
    ℓ.col ℓ.row hc (by simp [unitCellsCol]; omega)
  · rw [unitCellsCol, getD_of_lt (0, 0) (by simp; omega)]
    simp
  · intro b hb n hn hne
    rw [unitCellsCol] at hn ⊢
    simp only [List.length_map, List.length_range] at hn
    rw [getD_of_lt (0, 0) (by simp; omega)]
    simp only [List.getElem_map, List.getElem_range, ne_eq, Prod.mk.injEq,
      not_and]
    intro hn' hb'
    exact absurd ⟨hb', hn'⟩ hne

theorem unitCellsBox_getD (b : Nat) : ∀ n, n < 9 →
    (unitCellsBox b).getD n (0, 0) = (b / 3 * 3 + n / 3, b % 3 * 3 + n % 3) := by
  intro n hn
  rw [unitCellsBox, getD_of_lt (0, 0) (by simp [boxOffsets]; omega)]
  interval_cases n <;> rfl

theorem boxesM_setCell {t : Table} (hwf : wfTable t) {ℓ : CellLocation}
    (hr : ℓ.row < 9) (hc : ℓ.col < 9) (v : SudokuCell) :
    boxesM (setCell t ℓ v) = boxesM t ^^^
      ((cellMask (getCell t ℓ.row ℓ.col) ^^^ cellMask v) <<<
        (9 * (ℓ.row / 3 * 3 + ℓ.col / 3))) := by
  apply packMask_update unitCellsBox t ℓ v hwf.1 (hwf.2 ℓ.row hr).1 hr hc
    (ℓ.row / 3 * 3 + ℓ.col / 3) (ℓ.row % 3 * 3 + ℓ.col % 3)
    (by omega) (by simp [unitCellsBox, boxOffsets]; omega)
  · rw [unitCellsBox_getD _ _ (by omega)]
    have h1 : (ℓ.row / 3 * 3 + ℓ.col / 3) / 3 * 3 +
        (ℓ.row % 3 * 3 + ℓ.col % 3) / 3 = ℓ.row := by omega
    have h2 : (ℓ.row / 3 * 3 + ℓ.col / 3) % 3 * 3 +
        (ℓ.row % 3 * 3 + ℓ.col % 3) % 3 = ℓ.col := by omega
    rw [h1, h2]
  · intro b hb n hn hne
    have hn9 : n < 9 := by
      simpa [unitCellsBox, boxOffsets] using hn
    rw [unitCellsBox_getD _ _ hn9]
    simp only [ne_eq, Prod.mk.injEq, not_and]
    intro h1 h2
    apply hne
    constructor <;> omega

/-! ### Layer 10e: bit characterization of masks and pools -/

theorem cellMask_lt {c : SudokuCell} (h : cellWF c) : cellMask c < 2 ^ 9 := by
  cases c with
  | Empty => decide
  | Filled d =>
    obtain ⟨h1, h2⟩ := h
    show 1 <<< (d - 1) < 2 ^ 9
    rw [Nat.shiftLeft_eq, Nat.one_mul]
    exact Nat.pow_lt_pow_right (by omega) (by omega)

theorem unitMaskAt_lt (t : Table) (hwf : wfTable t) (pl : List (Nat × Nat)) :
    unitMaskAt t pl < 2 ^ 9 := by
  unfold unitMaskAt
  induction pl with
  | nil => show (0 : Nat) < 2 ^ 9; decide
  | cons q qs ih =>
    rw [List.map_cons, packUnits, Nat.shiftLeft_zero]
    exact Nat.xor_lt_two_pow (cellMask_lt (getCell_wf hwf q.1 q.2)) ih

theorem unitMaskAt_testBit (t : Table) (k : Nat) :
    ∀ pl : List (Nat × Nat),
      List.Pairwise (fun q1 q2 => ∀ d, getCell t q1.1 q1.2 = SudokuCell.Filled d →
        getCell t q2.1 q2.2 ≠ SudokuCell.Filled d) pl →
      (∀ q ∈ pl, cellWF (getCell t q.1 q.2)) →
      ((unitMaskAt t pl).testBit k =
        decide (∃ q ∈ pl, getCell t q.1 q.2 = SudokuCell.Filled (k + 1))) := by
  intro pl
  induction pl with
  | nil => intro _ _; simp [unitMaskAt, packUnits]
  | cons q qs ih =>
    intro hpair hwfc
    obtain ⟨hhead, htail⟩ := List.pairwise_cons.mp hpair
    have hrest := ih htail (fun x hx => hwfc x (List.mem_cons_of_mem _ hx))
    rw [unitMaskAt] at hrest ⊢
    rw [List.map_cons, packUnits, Nat.shiftLeft_zero, Nat.testBit_xor, hrest]
    cases hcell : getCell t q.1 q.2 with
    | Empty =>
      have hmask : cellMask SudokuCell.Empty = 0 := rfl
      rw [hmask, Nat.zero_testBit]
      simp only [Bool.false_xor, List.mem_cons, decide_eq_decide]
      constructor
      · rintro ⟨x, hx, hfx⟩
        exact ⟨x, Or.inr hx, hfx⟩
      · rintro ⟨x, hx, hfx⟩
        rcases hx with rfl | hx'
        · rw [hcell] at hfx
          cases hfx
        · exact ⟨x, hx', hfx⟩
    | Filled d =>
      have hdwf : cellWF (SudokuCell.Filled d) := hcell ▸ hwfc q (List.mem_cons_self _ _)
      obtain ⟨hd1, hd9⟩ := hdwf
      have hmask : cellMask (SudokuCell.Filled d) = 1 <<< (d - 1) := rfl
      rw [hmask, testBit_one_shiftLeft]
      by_cases hdk : d = k + 1
      · have hbit : decide (d - 1 = k) = true := by
          subst hdk; simp
        have hnone : ¬ ∃ x ∈ qs, getCell t x.1 x.2 = SudokuCell.Filled (k + 1) := by
          rintro ⟨x, hx, hfx⟩
          exact hhead x hx (k + 1) (hdk ▸ hcell) hfx
        have hex : ∃ x ∈ q :: qs, getCell t x.1 x.2 = SudokuCell.Filled (k + 1) :=
          ⟨q, List.mem_cons_self _ _, hdk ▸ hcell⟩
        rw [hbit, decide_eq_false hnone, decide_eq_true hex]
        rfl
      · have hbit : decide (d - 1 = k) = false := by
          apply decide_eq_false
          omega
        rw [hbit]
        simp only [Bool.false_xor, List.mem_cons, decide_eq_decide]
        constructor
        · rintro ⟨x, hx, hfx⟩
          exact ⟨x, Or.inr hx, hfx⟩
        · rintro ⟨x, hx, hfx⟩
          rcases hx with rfl | hx'
          · exfalso
            rw [hcell] at hfx
            injection hfx with he
            exact hdk he
          · exact ⟨x, hx', hfx⟩

theorem extract_unit (u : Nat → Nat) (hb : ∀ b, b < 9 → u b < 2 ^ 9)
    {i : Nat} (hi : i < 9) :
    packUnits 9 ((List.range 9).map u) >>> (9 * i) &&& 511 = u i := by
  rw [show (511 : Nat) = 2 ^ 9 - 1 by norm_num]
  rw [packUnits_extract 9 _ i (by
      intro m hm
      obtain ⟨b, hbm, rfl⟩ := List.mem_map.mp hm
      exact hb b (List.mem_range.mp hbm)) (by simp; omega)]
  rw [getD_of_lt 0 (by simp; omega)]
  simp

theorem pairwise_row_cells {t : Table} (hwf : wfTable t) (hok : RowsOK t)
    {i : Nat} (hi : i < 9) :
    List.Pairwise (fun q1 q2 : Nat × Nat => ∀ d,
      getCell t q1.1 q1.2 = SudokuCell.Filled d →
      getCell t q2.1 q2.2 ≠ SudokuCell.Filled d) (unitCellsRow i) := by
  rw [List.pairwise_iff_getElem]
  intro a b ha hb hab
  simp only [unitCellsRow, List.length_map, List.length_range] at ha hb
  simp only [unitCellsRow, List.getElem_map, List.getElem_range]
  intro d h1 h2
  exact hok i hi a ha b hb (by omega) d (digitAt_eq_some.mpr h1)
    (digitAt_eq_some.mpr h2)

theorem pairwise_col_cells {t : Table} (hwf : wfTable t) (hok : ColsOK t)
    {j : Nat} (hj : j < 9) :
    List.Pairwise (fun q1 q2 : Nat × Nat => ∀ d,
      getCell t q1.1 q1.2 = SudokuCell.Filled d →
      getCell t q2.1 q2.2 ≠ SudokuCell.Filled d) (unitCellsCol j) := by
  rw [List.pairwise_iff_getElem]
  intro a b ha hb hab
  simp only [unitCellsCol, List.length_map, List.length_range] at ha hb
  simp only [unitCellsCol, List.getElem_map, List.getElem_range]
  intro d h1 h2
  exact hok j hj a ha b hb (by omega) d (digitAt_eq_some.mpr h1)
    (digitAt_eq_some.mpr h2)

theorem pairwise_box_cells {t : Table} (hwf : wfTable t) (hok : BoxesOK t)
    {b0 : Nat} (hb0 : b0 < 9) :
    List.Pairwise (fun q1 q2 : Nat × Nat => ∀ d,
      getCell t q1.1 q1.2 = SudokuCell.Filled d →
      getCell t q2.1 q2.2 ≠ SudokuCell.Filled d) (unitCellsBox b0) := by
  rw [List.pairwise_iff_getElem]
  intro a b ha hb hab
  simp only [unitCellsBox, boxOffsets, List.length_map] at ha hb
  simp only [List.length_cons, List.length_nil] at ha hb
  have hga := unitCellsBox_getD b0 a (by omega)
  have hgb := unitCellsBox_getD b0 b (by omega)
  rw [← getD_of_lt (0, 0) (by simp [unitCellsBox, boxOffsets]; omega), hga,
    ← getD_of_lt (0, 0) (by simp [unitCellsBox, boxOffsets]; omega), hgb]
  intro d h1 h2
  apply hok (b0 / 3 * 3 + a / 3) (by omega) (b0 % 3 * 3 + a % 3) (by omega)
    (b0 / 3 * 3 + b / 3) (by omega) (b0 % 3 * 3 + b % 3) (by omega)
    (by omega) (by omega) (by omega) d
    (digitAt_eq_some.mpr h1) (digitAt_eq_some.mpr h2)

theorem mem_rowCells_iff {t : Table} (hwf : wfTable t) {i : Nat} (hi : i < 9)
    (c : SudokuCell) :
    c ∈ rowCellsOf t i ↔ ∃ q ∈ unitCellsRow i, getCell t q.1 q.2 = c := by
  have hlen : (t.getD i []).length = 9 := (hwf.2 i hi).1
  constructor
  · intro hc
    obtain ⟨j, hj, rfl⟩ := List.getElem_of_mem hc
    refine ⟨(i, j), ?_, ?_⟩
    · exact List.mem_map.mpr ⟨j, List.mem_range.mpr
        (by rw [rowCellsOf] at hj; omega), rfl⟩
    · show getCell t i j = _
      rw [getCell, getD_of_lt SudokuCell.Empty (by
        rw [rowCellsOf] at hj; exact hj)]
      rfl
  · rintro ⟨q, hq, rfl⟩
    simp only [unitCellsRow, List.mem_map, List.mem_range] at hq
    obtain ⟨j, hj, rfl⟩ := hq
    show getCell t i j ∈ _
    rw [getCell, rowCellsOf]
    have hjl : j < (t.getD i []).length := by omega
    rw [getD_of_lt SudokuCell.Empty hjl]
    exact List.getElem_mem _

theorem mem_colCells_iff {t : Table} (hwf : wfTable t) {j : Nat} (hj : j < 9)
    (c : SudokuCell) :
    c ∈ colCellsOf t j ↔ ∃ q ∈ unitCellsCol j, getCell t q.1 q.2 = c := by
  have hlen : t.length = 9 := hwf.1
  constructor
  · intro hc
    obtain ⟨r, hr, rfl⟩ := List.mem_map.mp hc
    obtain ⟨i, hi, rfl⟩ := List.getElem_of_mem hr
    refine ⟨(i, j), ?_, ?_⟩
    · exact List.mem_map.mpr ⟨i, List.mem_range.mpr (by omega), rfl⟩
    · show getCell t i j = _
      rw [getCell, getD_of_lt [] hi]
  · rintro ⟨q, hq, rfl⟩
    simp only [unitCellsCol, List.mem_map, List.mem_range] at hq
    obtain ⟨i, hi, rfl⟩ := hq
    show getCell t i j ∈ _
    rw [colCellsOf]
    apply List.mem_map.mpr
    have hil : i < t.length := by omega
    refine ⟨t[i], List.getElem_mem _, ?_⟩
    rw [getCell, getD_of_lt [] hil]

theorem unitCellsBox_map_eq {t : Table} {ℓ : CellLocation}
    (hr : ℓ.row < 9) (hc : ℓ.col < 9) :
    (unitCellsBox (ℓ.row / 3 * 3 + ℓ.col / 3)).map
        (fun q => getCell t q.1 q.2) = boxCellsOf t ℓ := by
  have h1 : (ℓ.row / 3 * 3 + ℓ.col / 3) / 3 = ℓ.row / 3 := by omega
  have h2 : (ℓ.row / 3 * 3 + ℓ.col / 3) % 3 = ℓ.col / 3 := by omega
  unfold unitCellsBox boxCellsOf cellsInside3By3Cell indexOf3By3Cell boxOffsets
  simp only [List.map_cons, List.map_nil, h1, h2, Nat.add_zero]

theorem mem_boxCells_iff {t : Table} {ℓ : CellLocation}
    (hr : ℓ.row < 9) (hc : ℓ.col < 9) (c : SudokuCell) :
    c ∈ boxCellsOf t ℓ ↔
      ∃ q ∈ unitCellsBox (ℓ.row / 3 * 3 + ℓ.col / 3),
        getCell t q.1 q.2 = c := by
  rw [← unitCellsBox_map_eq hr hc, List.mem_map]

/-! ### Layer 10f: candidate-pool masks -/

theorem dmask_lt {pv : List Nat} (hbnd : ∀ v ∈ pv, v ≤ 9) :
    dmask pv < 2 ^ 9 := by
  induction pv with
  | nil => decide
  | cons d ds ih =>
    rw [dmask]
    refine Nat.xor_lt_two_pow ?_ (ih (fun x hx => hbnd x (List.mem_cons_of_mem _ hx)))
    rw [Nat.shiftLeft_eq, Nat.one_mul]
    exact Nat.pow_lt_pow_right (by omega)
      (by have := hbnd d (List.mem_cons_self _ _); omega)

theorem dmask_testBit {pv : List Nat} (k : Nat) (hnodup : pv.Nodup)
    (hbnd : ∀ v ∈ pv, 1 ≤ v) :
    (dmask pv).testBit k = decide (k + 1 ∈ pv) := by
  induction pv with
  | nil => simp [dmask]
  | cons d ds ih =>
    obtain ⟨hhead, htail⟩ := List.nodup_cons.mp hnodup
    have hd1 : 1 ≤ d := hbnd d (List.mem_cons_self _ _)
    rw [dmask, Nat.testBit_xor, testBit_one_shiftLeft,
      ih htail (fun x hx => hbnd x (List.mem_cons_of_mem _ hx))]
    by_cases hdk : d = k + 1
    · have hbit : decide (d - 1 = k) = true := by subst hdk; simp
      have hnmem : ¬ (k + 1 ∈ ds) := hdk ▸ hhead
      have hmem : k + 1 ∈ d :: ds := hdk ▸ List.mem_cons_self _ _
      rw [hbit, decide_eq_false hnmem, decide_eq_true hmem]
      rfl
    · have hbit : decide (d - 1 = k) = false := by
        apply decide_eq_false; omega
      rw [hbit]
      simp only [Bool.false_xor, List.mem_cons, decide_eq_decide]
      constructor
      · exact Or.inr
      · rintro (he | hm)
        · exact absurd he.symm hdk
        · exact hm

theorem dmask_ne_zero {pv : List Nat} (hne : pv ≠ [])
    (hnodup : pv.Nodup) (hbnd : ∀ v ∈ pv, 1 ≤ v) : dmask pv ≠ 0 := by
  obtain ⟨d, ds, rfl⟩ : ∃ d ds, pv = d :: ds := by
    cases pv with
    | nil => exact absurd rfl hne
    | cons d ds => exact ⟨d, ds, rfl⟩
  intro h0
  have hd1 : 1 ≤ d := hbnd d (List.mem_cons_self _ _)
  have hbit := dmask_testBit (d - 1) hnodup hbnd
  rw [h0, Nat.zero_testBit] at hbit
  have hdm : d - 1 + 1 = d := by omega
  rw [hdm] at hbit
  rw [decide_eq_true (List.mem_cons_self d ds)] at hbit
  cases hbit

theorem sorted_le_getLast {l : List Nat} (hs : List.Pairwise (· < ·) l) :
    ∀ (hne : l ≠ []), ∀ x ∈ l, x ≤ l.getLast hne := by
  induction l with
  | nil => intro hne; exact absurd rfl hne
  | cons a as ih =>
    intro hne x hx
    obtain ⟨hhead, htail⟩ := List.pairwise_cons.mp hs
    by_cases hasne : as = []
    · subst hasne
      rcases List.mem_cons.mp hx with rfl | hx'
      · exact Nat.le_refl _
      · cases hx'
    · rw [List.getLast_cons hasne]
      rcases List.mem_cons.mp hx with rfl | hx'
      · have hlast : as.getLast hasne ∈ as := List.getLast_mem hasne
        exact Nat.le_of_lt (hhead _ hlast)
      · exact ih htail hasne x hx'

theorem dmask_bounds {pv : List Nat} (hne : pv ≠ [])
    (hs : List.Pairwise (· < ·) pv) (hbnd : ∀ v ∈ pv, 1 ≤ v ∧ v ≤ 9) :
    2 ^ (pv.getLast hne - 1) ≤ dmask pv ∧
      dmask pv < 2 ^ (pv.getLast hne) := by
  have hnodup : pv.Nodup := hs.nodup
  have hLmem : pv.getLast hne ∈ pv := List.getLast_mem hne
  have hL1 : 1 ≤ pv.getLast hne := (hbnd _ hLmem).1
  constructor
  · apply Nat.testBit_implies_ge
    rw [dmask_testBit _ hnodup (fun x hx => (hbnd x hx).1)]
    have : pv.getLast hne - 1 + 1 = pv.getLast hne := by omega
    rw [this]
    exact decide_eq_true hLmem
  · apply Nat.lt_pow_two_of_testBit
    intro i hi
    rw [dmask_testBit _ hnodup (fun x hx => (hbnd x hx).1)]
    apply decide_eq_false
    intro hmem
    have := sorted_le_getLast hs hne _ hmem
    omega

theorem hiBit9_spec {m k : Nat} (hk : k < 9) (h1 : 2 ^ k ≤ m)
    (h2 : m < 2 ^ (k + 1)) : hiBit9 m = k := by
  interval_cases k <;>
    (simp only [hiBit9]; norm_num at h1 h2 ⊢; split_ifs <;> omega)

theorem dmask_hiBit {pv : List Nat} (hne : pv ≠ [])
    (hs : List.Pairwise (· < ·) pv) (hbnd : ∀ v ∈ pv, 1 ≤ v ∧ v ≤ 9) :
    hiBit9 (dmask pv) = pv.getLast hne - 1 := by
  obtain ⟨hlo, hhi⟩ := dmask_bounds hne hs hbnd
  have hLmem : pv.getLast hne ∈ pv := List.getLast_mem hne
  obtain ⟨hL1, hL9⟩ := hbnd _ hLmem
  apply hiBit9_spec (by omega) hlo
  have : pv.getLast hne - 1 + 1 = pv.getLast hne := by omega
  rw [this]
  exact hhi

theorem dmask_dropLast {pv : List Nat} :
    ∀ (hne : pv ≠ []),
      dmask pv.dropLast = dmask pv ^^^ (1 <<< (pv.getLast hne - 1)) := by
  induction pv with
  | nil => intro hne; exact absurd rfl hne
  | cons d ds ih =>
    intro hne
    by_cases hdsne : ds = []
    · subst hdsne
      show dmask [] = dmask [d] ^^^ (1 <<< (d - 1))
      rw [dmask, dmask, dmask, Nat.xor_zero, Nat.xor_self]
    · rw [List.getLast_cons hdsne]
      have hdrop : (d :: ds).dropLast = d :: ds.dropLast := by
        rw [List.dropLast_cons_of_ne_nil hdsne]
      rw [hdrop, dmask, dmask, ih hdsne, Nat.xor_assoc]

/-- The packed pool at a cell agrees with the candidate list produced by
`possible_values`, as a mask. -/
theorem poolAt_abs {t : Table} (hwf : wfTable t) (hok : TableOK t)
    {ℓ : CellLocation} (hr : ℓ.row < 9) (hc : ℓ.col < 9) {pv : List Nat}
    (hnodup : pv.Nodup)
    (hmem : ∀ v, v ∈ pv ↔ (1 ≤ v ∧ v ≤ 9 ∧
      SudokuCell.Filled v ∉ rowCellsOf t ℓ.row ∧
      SudokuCell.Filled v ∉ colCellsOf t ℓ.col ∧
      SudokuCell.Filled v ∉ boxCellsOf t ℓ)) :
    poolAt (rowsM t) (colsM t) (boxesM t) (rmIdx ℓ) = dmask pv := by
  obtain ⟨hrok, hcok, hbok⟩ := hok
  have hrow : rowIx (rmIdx ℓ) = ℓ.row := by unfold rowIx rmIdx; omega
  have hcol : colIx (rmIdx ℓ) = ℓ.col := by unfold colIx rmIdx; omega
  have hbox : boxIx (rmIdx ℓ) = ℓ.row / 3 * 3 + ℓ.col / 3 := by
    unfold boxIx rmIdx; omega
  have hbmem : ∀ v ∈ pv, 1 ≤ v := fun v hv => ((hmem v).mp hv).1
  apply Nat.eq_of_testBit_eq
  intro k
  rw [poolAt, hrow, hcol, hbox, rowsM, colsM, boxesM,
    extract_unit _ (fun b hb => unitMaskAt_lt t hwf _) hr,
    extract_unit _ (fun b hb => unitMaskAt_lt t hwf _) hc,
    extract_unit _ (fun b hb => unitMaskAt_lt t hwf _) (by omega :
      ℓ.row / 3 * 3 + ℓ.col / 3 < 9),
    dmask_testBit k hnodup hbmem, Nat.testBit_xor, Nat.testBit_or,
    Nat.testBit_or,
    unitMaskAt_testBit t k _ (pairwise_row_cells hwf hrok hr)
      (fun q _ => getCell_wf hwf q.1 q.2),
    unitMaskAt_testBit t k _ (pairwise_col_cells hwf hcok hc)
      (fun q _ => getCell_wf hwf q.1 q.2),
    unitMaskAt_testBit t k _ (pairwise_box_cells hwf hbok (by omega))
      (fun q _ => getCell_wf hwf q.1 q.2)]
  have h511 : Nat.testBit 511 k = decide (k < 9) := by
    rw [show (511 : Nat) = 2 ^ 9 - 1 by norm_num, Nat.testBit_two_pow_sub_one]
  rw [h511]
  by_cases hk : k < 9
  · have hkk : k + 1 ≤ 9 := by omega
    rw [decide_eq_true hk]
    have hiff := hmem (k + 1)
    rw [mem_rowCells_iff hwf hr, mem_colCells_iff hwf hc,
      mem_boxCells_iff hr hc] at hiff
    by_cases hp : k + 1 ∈ pv
    · have hprops := hiff.mp hp
      rw [decide_eq_true hp,
        decide_eq_false (by simpa using hprops.2.2.1),
        decide_eq_false (by simpa using hprops.2.2.2.1),
        decide_eq_false (by simpa using hprops.2.2.2.2)]
      rfl
    · have hor : (∃ q ∈ unitCellsRow ℓ.row,
          getCell t q.1 q.2 = SudokuCell.Filled (k + 1)) ∨
          (∃ q ∈ unitCellsCol ℓ.col,
            getCell t q.1 q.2 = SudokuCell.Filled (k + 1)) ∨
          (∃ q ∈ unitCellsBox (ℓ.row / 3 * 3 + ℓ.col / 3),
            getCell t q.1 q.2 = SudokuCell.Filled (k + 1)) := by
        by_contra hno
        rw [not_or, not_or] at hno
        exact hp (hiff.mpr ⟨by omega, hkk, hno.1, hno.2.1, hno.2.2⟩)
      rw [decide_eq_false hp]
      rcases hor with h | h | h <;> rw [decide_eq_true h] <;> simp
  · have hnp : ¬ (k + 1 ∈ pv) := fun hp => by
      have := ((hmem (k + 1)).mp hp).2.1
      omega
    have hcellno : ∀ pl : List (Nat × Nat),
        ¬ ∃ q ∈ pl, getCell t q.1 q.2 = SudokuCell.Filled (k + 1) := by
      rintro pl ⟨q, hq, hfq⟩
      have hcw := getCell_wf hwf q.1 q.2
      rw [hfq] at hcw
      obtain ⟨-, h9⟩ := hcw
      omega
    rw [decide_eq_false hk, decide_eq_false hnp, decide_eq_false (hcellno _),
      decide_eq_false (hcellno _), decide_eq_false (hcellno _)]
    rfl

/-! ### Layer 10g: scanning, sortedness, injectivity, run composition -/

theorem scanAux_some (e : Nat) : ∀ (n p q : Nat), scanAux e p n = some q →
    p ≤ q ∧ q < p + n ∧ e.testBit q = true ∧
      ∀ r, p ≤ r → r < q → e.testBit r = false := by
  intro n
  induction n with
  | zero => intro p q h; cases h
  | succ n ih =>
    intro p q h
    rw [scanAux] at h
    by_cases hb : e.testBit p
    · rw [if_pos hb] at h
      injection h with hq
      subst hq
      exact ⟨Nat.le_refl _, by omega, hb, fun r h1 h2 => by omega⟩
    · rw [if_neg hb] at h
      obtain ⟨h1, h2, h3, h4⟩ := ih (p + 1) q h
      refine ⟨by omega, by omega, h3, fun r hr1 hr2 => ?_⟩
      rcases Nat.eq_or_lt_of_le hr1 with rfl | hlt
      · exact Bool.eq_false_iff.mpr hb
      · exact h4 r hlt hr2

theorem scanAux_none (e : Nat) : ∀ (n p : Nat), scanAux e p n = none →
    ∀ q, p ≤ q → q < p + n → e.testBit q = false := by
  intro n
  induction n with
  | zero => intro p _ q h1 h2; omega
  | succ n ih =>
    intro p h q h1 h2
    rw [scanAux] at h
    by_cases hb : e.testBit p
    · rw [if_pos hb] at h; cases h
    · rw [if_neg hb] at h
      rcases Nat.eq_or_lt_of_le h1 with rfl | hlt
      · exact Bool.eq_false_iff.mpr hb
      · exact ih (p + 1) h q hlt (by omega)

theorem scanAux_first (e : Nat) : ∀ (n p q : Nat), p ≤ q → q < p + n →
    e.testBit q = true → (∀ r, p ≤ r → r < q → e.testBit r = false) →
    scanAux e p n = some q := by
  intro n
  induction n with
  | zero => intro p q h1 h2 _ _; omega
  | succ n ih =>
    intro p q h1 h2 h3 h4
    rw [scanAux]
    rcases Nat.eq_or_lt_of_le h1 with rfl | hlt
    · rw [if_pos h3]
    · rw [if_neg (by rw [h4 p (Nat.le_refl _) hlt]; intro h; cases h)]
      exact ih (p + 1) q hlt (by omega) h3 (fun r hr1 hr2 => h4 r (by omega) hr2)

/-- The packed scan agrees with `next_empty_cell_starting_from` (as a
row-major position). -/
theorem fscan_abs {t : Table} (hwf : wfTable t) {ℓ : CellLocation}
    (hrow : ℓ.row < 9) (hcol : ℓ.col ≤ 9) :
    fscan (encEmp t) (rmIdx ℓ) = (nextEmptyCellStartingFrom t ℓ).map rmIdx := by
  have hstart : rmIdx ℓ ≤ 81 := by unfold rmIdx; omega
  cases hscan : nextEmptyCellStartingFrom t ℓ with
  | some ℓ' =>
    obtain ⟨hemp, hr', hc', hge, hmin⟩ := nextEmpty_some_props hwf.1 hcol hscan
    show scanAux (encEmp t) (rmIdx ℓ) (81 - rmIdx ℓ) = some (rmIdx ℓ')
    apply scanAux_first
    · exact hge
    · unfold rmIdx
      omega
    · rw [show rmIdx ℓ' = ℓ'.row * 9 + ℓ'.col from rfl,
        testBit_encEmp hwf hr' hc']
      exact decide_eq_true hemp
    · intro r hr1 hr2
      have hr81 : r < 81 := by
        have : rmIdx ℓ' ≤ 80 := by unfold rmIdx; omega
        omega
      have hdec : r = (r / 9) * 9 + r % 9 := by omega
      rw [hdec, testBit_encEmp hwf (by omega) (by omega)]
      apply decide_eq_false
      apply hmin (r / 9) (r % 9) (by omega) (by omega)
      · unfold rmIdx at hr1 ⊢; omega
      · unfold rmIdx at hr2 ⊢; omega
  | none =>
    show fscan (encEmp t) (rmIdx ℓ) = none
    cases hf : fscan (encEmp t) (rmIdx ℓ) with
    | none => rfl
    | some q =>
      exfalso
      obtain ⟨h1, h2, h3, -⟩ :=
        scanAux_some (encEmp t) (81 - rmIdx ℓ) (rmIdx ℓ) q hf
      have hq81 : q < 81 := by omega
      have hqd : q = q / 9 * 9 + q % 9 := by omega
      rw [hqd, testBit_encEmp hwf (by omega) (by omega)] at h3
      have hqe := of_decide_eq_true h3
      exact nextEmpty_none_props hwf.1 hscan (q / 9) (q % 9) (by omega)
        (by omega) (by unfold rmIdx at h1 ⊢; omega) hqe

theorem pairwise_filterMap_lt (p : Nat → Bool) :
    ∀ l : List Nat, List.Pairwise (· < ·) l →
      List.Pairwise (· < ·)
        (l.filterMap (fun k => if p k then none else some (k + 1))) := by
  intro l
  induction l with
  | nil => intro _; exact List.Pairwise.nil
  | cons a as ih =>
    intro hs
    obtain ⟨hhead, htail⟩ := List.pairwise_cons.mp hs
    rw [List.filterMap_cons]
    by_cases hp : p a
    · rw [if_pos hp]
      exact ih htail
    · rw [if_neg hp]
      refine List.pairwise_cons.mpr ⟨?_, ih htail⟩
      intro b hb
      obtain ⟨k, hk, hfk⟩ := List.mem_filterMap.mp hb
      by_cases hpk : p k
      · rw [if_pos hpk] at hfk; cases hfk
      · rw [if_neg hpk] at hfk
        injection hfk with hbk
        subst hbk
        have := hhead k hk
        omega

theorem possibleValues_sorted {t : Table} {ℓ : CellLocation} {pv : List Nat}
    (h : possibleValues t ℓ = some pv) : List.Pairwise (· < ·) pv := by
  unfold possibleValues at h
  split at h
  · cases h
  · split at h
    · cases h
    · split at h
      · cases h
      · rename_i a3 h3
        injection h with hpv
        subst hpv
        have henum : a3.enum = List.enumFrom 0 a3 := rfl
        rw [henum, enumFrom_filter_map_form a3 0]
        exact pairwise_filterMap_lt (fun k => a3.getD (k - 0) false) _
          (List.pairwise_lt_range' 0 a3.length 1)

theorem encGrid_inj {t₁ t₂ : Table} (h₁ : wfTable t₁) (h₂ : wfTable t₂)
    (h : encGrid t₁ = encGrid t₂) : t₁ = t₂ := by
  apply table_ext h₁ h₂
  intro i hi j hj
  have e1 := digAt_encGrid h₁ hi hj
  have e2 := digAt_encGrid h₂ hi hj
  rw [h] at e1
  have hdig : cellDig (getCell t₁ i j) = cellDig (getCell t₂ i j) := by
    rw [← e1, ← e2]
  have w1 := getCell_wf h₁ i j
  have w2 := getCell_wf h₂ i j
  cases hc1 : getCell t₁ i j with
  | Empty =>
    cases hc2 : getCell t₂ i j with
    | Empty => rfl
    | Filled d =>
      rw [hc1, hc2] at hdig
      rw [hc2] at w2
      exfalso
      have hd : (0 : Nat) = d := hdig
      obtain ⟨hd1, -⟩ := w2
      omega
  | Filled d =>
    cases hc2 : getCell t₂ i j with
    | Empty =>
      rw [hc1, hc2] at hdig
      rw [hc1] at w1
      exfalso
      have hd : d = (0 : Nat) := hdig
      obtain ⟨hd1, -⟩ := w1
      omega
    | Filled d' =>
      rw [hc1, hc2] at hdig
      have : d = d' := hdig
      rw [this]

theorem ffuel_oof_add (m : Nat) : ∀ (n : Nat) (fs fs' : FS),
    ffuel n fs = FRes.oof fs' → ffuel (n + m) fs = ffuel m fs' := by
  intro n
  induction n with
  | zero =>
    intro fs fs' h
    have h0 : FRes.oof fs = FRes.oof fs' := h
    injection h0 with hfs
    subst hfs
    rw [Nat.zero_add]
  | succ n ih =>
    intro fs fs' h
    have hsum : n + 1 + m = (n + m) + 1 := by omega
    rw [hsum]
    have hstep : ffuel ((n + m) + 1) fs =
        (match fstep fs with
          | FStep.cont fs2 => ffuel (n + m) fs2
          | FStep.emit g fs2 => FRes.emit g fs2
          | FStep.stop fs2 => FRes.stop fs2) := rfl
    have hstep' : ffuel (n + 1) fs =
        (match fstep fs with
          | FStep.cont fs2 => ffuel n fs2
          | FStep.emit g fs2 => FRes.emit g fs2
          | FStep.stop fs2 => FRes.stop fs2) := rfl
    rw [hstep'] at h
    rw [hstep]
    cases hc : fstep fs with
    | cont fs2 =>
      rw [hc] at h
      exact ih fs2 fs' h
    | emit g fs2 =>
      rw [hc] at h
      cases h
    | stop fs2 =>
      rw [hc] at h
      cases h

theorem measAux_pos : ∀ (l : List RecursionState) (e : Nat), l ≠ [] →
    11 ^ e ≤ measAux l e := by
  intro l e hl
  cases l with
  | nil => exact absurd rfl hl
  | cons f rest =>
    rw [measAux]
    calc 11 ^ e = 1 * 11 ^ e := (Nat.one_mul _).symm
      _ ≤ (f.possible_values.length + 1) * 11 ^ e :=
          Nat.mul_le_mul_right _ (by omega)
      _ ≤ _ := Nat.le_add_right _ _

theorem solverMeasure_lb {s : SudokuSolver} (h : s.recursion_stack ≠ []) :
    11 ^ 81 ≤ solverMeasure s := by
  unfold solverMeasure
  apply measAux_pos
  intro hrev
  exact h (by simpa using congrArg List.reverse hrev)

/-! ### Layer 10h: packed operations abstract the table operations -/

theorem fwrite_zero {G E R C B : Nat} {st st' : List (Nat × Nat)} {p v : Nat}
    (hz : digAt G p = 0) :
    fwrite ⟨G, E, R, C, B, st'⟩ st p v =
      ⟨G ^^^ (v <<< (4 * p)), E ^^^ (1 <<< p),
       R ^^^ (1 <<< (9 * rowIx p + (v - 1))),
       C ^^^ (1 <<< (9 * colIx p + (v - 1))),
       B ^^^ (1 <<< (9 * boxIx p + (v - 1))), st⟩ := by
  unfold fwrite
  rw [hz]

theorem fwrite_succ {G E R C B : Nat} {st st' : List (Nat × Nat)} {p v o : Nat}
    (hz : digAt G p = o + 1) :
    fwrite ⟨G, E, R, C, B, st'⟩ st p v =
      ⟨G ^^^ ((o + 1) <<< (4 * p)) ^^^ (v <<< (4 * p)), E,
       R ^^^ (1 <<< (9 * rowIx p + o)) ^^^ (1 <<< (9 * rowIx p + (v - 1))),
       C ^^^ (1 <<< (9 * colIx p + o)) ^^^ (1 <<< (9 * colIx p + (v - 1))),
       B ^^^ (1 <<< (9 * boxIx p + o)) ^^^ (1 <<< (9 * boxIx p + (v - 1))),
       st⟩ := by
  unfold fwrite
  rw [hz]

theorem fclear_zero {G E R C B : Nat} {st' rest : List (Nat × Nat)} {p : Nat}
    (hz : digAt G p = 0) :
    fclear ⟨G, E, R, C, B, st'⟩ rest p = ⟨G, E, R, C, B, rest⟩ := by
  unfold fclear
  rw [hz]

theorem fclear_succ {G E R C B : Nat} {st' rest : List (Nat × Nat)} {p o : Nat}
    (hz : digAt G p = o + 1) :
    fclear ⟨G, E, R, C, B, st'⟩ rest p =
      ⟨G ^^^ ((o + 1) <<< (4 * p)), E ^^^ (1 <<< p),
       R ^^^ (1 <<< (9 * rowIx p + o)),
       C ^^^ (1 <<< (9 * colIx p + o)),
       B ^^^ (1 <<< (9 * boxIx p + o)), rest⟩ := by
  unfold fclear
  rw [hz]

/-- Writing digit `v` in the packed state tracks `setCell` on the table. -/
theorem fwrite_abs {t : Table} (hwf : wfTable t) {ℓ : CellLocation}
    (hr : ℓ.row < 9) (hc : ℓ.col < 9) (v : Nat)
    (st st' : List (Nat × Nat)) :
    fwrite ⟨encGrid t, encEmp t, rowsM t, colsM t, boxesM t, st'⟩ st
        (rmIdx ℓ) v =
      ⟨encGrid (setCell t ℓ (SudokuCell.Filled v)),
       encEmp (setCell t ℓ (SudokuCell.Filled v)),
       rowsM (setCell t ℓ (SudokuCell.Filled v)),
       colsM (setCell t ℓ (SudokuCell.Filled v)),
       boxesM (setCell t ℓ (SudokuCell.Filled v)), st⟩ := by
  have hrowp : rowIx (rmIdx ℓ) = ℓ.row := by unfold rowIx rmIdx; omega
  have hcolp : colIx (rmIdx ℓ) = ℓ.col := by unfold colIx rmIdx; omega
  have hboxp : boxIx (rmIdx ℓ) = ℓ.row / 3 * 3 + ℓ.col / 3 := by
    unfold boxIx rmIdx; omega
  have hdig : digAt (encGrid t) (rmIdx ℓ) = cellDig (getCell t ℓ.row ℓ.col) :=
    digAt_encGrid hwf hr hc
  have hG := encGrid_setCell hwf hr hc (SudokuCell.Filled v)
  have hE := encEmp_setCell hwf hr hc (SudokuCell.Filled v)
  have hR := rowsM_setCell hwf hr hc (SudokuCell.Filled v)
  have hC := colsM_setCell hwf hr hc (SudokuCell.Filled v)
  have hB := boxesM_setCell hwf hr hc (SudokuCell.Filled v)
  cases hcell : getCell t ℓ.row ℓ.col with
  | Empty =>
    rw [hcell] at hdig hG hE hR hC hB
    simp only [cellDig, cellEmp, cellMask, Nat.zero_xor, Nat.xor_zero]
      at hdig hG hE hR hC hB
    rw [fwrite_zero hdig, hG, hE, hR, hC, hB]
    simp only [FS.mk.injEq]
    refine ⟨by trivial, by trivial, ?_, ?_, ?_, by trivial⟩
    · rw [shiftLeft_shiftLeft, hrowp]
      exact congrArg (fun k => rowsM t ^^^ 1 <<< k) (by omega)
    · rw [shiftLeft_shiftLeft, hcolp]
      exact congrArg (fun k => colsM t ^^^ 1 <<< k) (by omega)
    · rw [shiftLeft_shiftLeft, hboxp]
      exact congrArg (fun k => boxesM t ^^^ 1 <<< k) (by omega)
  | Filled o =>
    have how := getCell_wf hwf ℓ.row ℓ.col
    rw [hcell] at how
    obtain ⟨ho1, -⟩ := how
    rw [hcell] at hdig hG hE hR hC hB
    simp only [cellDig, cellEmp, cellMask, Nat.zero_xor, Nat.xor_zero,
      Nat.xor_self] at hdig hG hE hR hC hB
    have hzz : digAt (encGrid t) (rmIdx ℓ) = (o - 1) + 1 := by
      rw [hdig]; omega
    rw [fwrite_succ hzz, hG, hE, hR, hC, hB]
    have hoo : o - 1 + 1 = o := by omega
    rw [hoo]
    simp only [FS.mk.injEq]
    refine ⟨?_, by rw [Nat.zero_shiftLeft, Nat.xor_zero], ?_, ?_, ?_,
      by trivial⟩
    · rw [xor_shiftLeft, Nat.xor_assoc]
    · rw [xor_shiftLeft, shiftLeft_shiftLeft, shiftLeft_shiftLeft, hrowp,
        ← Nat.xor_assoc]
      exact congrArg₂ (fun a b => rowsM t ^^^ 1 <<< a ^^^ 1 <<< b)
        (by omega) (by omega)
    · rw [xor_shiftLeft, shiftLeft_shiftLeft, shiftLeft_shiftLeft, hcolp,
        ← Nat.xor_assoc]
      exact congrArg₂ (fun a b => colsM t ^^^ 1 <<< a ^^^ 1 <<< b)
        (by omega) (by omega)
    · rw [xor_shiftLeft, shiftLeft_shiftLeft, shiftLeft_shiftLeft, hboxp,
        ← Nat.xor_assoc]
      exact congrArg₂ (fun a b => boxesM t ^^^ 1 <<< a ^^^ 1 <<< b)
        (by omega) (by omega)

/-- Clearing a cell in the packed state tracks `setCell _ _ Empty`. -/
theorem fclear_abs {t : Table} (hwf : wfTable t) {ℓ : CellLocation}
    (hr : ℓ.row < 9) (hc : ℓ.col < 9) (rest st' : List (Nat × Nat)) :
    fclear ⟨encGrid t, encEmp t, rowsM t, colsM t, boxesM t, st'⟩ rest
        (rmIdx ℓ) =
      ⟨encGrid (setCell t ℓ SudokuCell.Empty),
       encEmp (setCell t ℓ SudokuCell.Empty),
       rowsM (setCell t ℓ SudokuCell.Empty),
       colsM (setCell t ℓ SudokuCell.Empty),
       boxesM (setCell t ℓ SudokuCell.Empty), rest⟩ := by
  have hrowp : rowIx (rmIdx ℓ) = ℓ.row := by unfold rowIx rmIdx; omega
  have hcolp : colIx (rmIdx ℓ) = ℓ.col := by unfold colIx rmIdx; omega
  have hboxp : boxIx (rmIdx ℓ) = ℓ.row / 3 * 3 + ℓ.col / 3 := by
    unfold boxIx rmIdx; omega
  have hdig : digAt (encGrid t) (rmIdx ℓ) = cellDig (getCell t ℓ.row ℓ.col) :=
    digAt_encGrid hwf hr hc
  have hG := encGrid_setCell hwf hr hc SudokuCell.Empty
  have hE := encEmp_setCell hwf hr hc SudokuCell.Empty
  have hR := rowsM_setCell hwf hr hc SudokuCell.Empty
  have hC := colsM_setCell hwf hr hc SudokuCell.Empty
  have hB := boxesM_setCell hwf hr hc SudokuCell.Empty
  cases hcell : getCell t ℓ.row ℓ.col with
  | Empty =>
    rw [hcell] at hdig hG hE hR hC hB
    simp only [cellDig, cellEmp, cellMask, Nat.xor_self] at hdig hG hE hR hC hB
    rw [fclear_zero hdig, hG, hE, hR, hC, hB]
    simp only [FS.mk.injEq]
    have h0s : ∀ s : Nat, (0 : Nat) <<< s = 0 := fun s => Nat.zero_shiftLeft s
    rw [h0s, h0s, h0s, h0s, h0s, Nat.xor_zero, Nat.xor_zero, Nat.xor_zero,
      Nat.xor_zero, Nat.xor_zero]
    refine ⟨?_, ?_, ?_, ?_, ?_, ?_⟩ <;> trivial
  | Filled o =>
    have how := getCell_wf hwf ℓ.row ℓ.col
    rw [hcell] at how
    obtain ⟨ho1, -⟩ := how
    rw [hcell] at hdig hG hE hR hC hB
    simp only [cellDig, cellEmp, cellMask, Nat.zero_xor, Nat.xor_zero]
      at hdig hG hE hR hC hB
    have hzz : digAt (encGrid t) (rmIdx ℓ) = (o - 1) + 1 := by
      rw [hdig]; omega
    rw [fclear_succ hzz, hG, hE, hR, hC, hB]
    have hoo : o - 1 + 1 = o := by omega
    rw [hoo]
    simp only [FS.mk.injEq]
    refine ⟨by trivial, by trivial, ?_, ?_, ?_, by trivial⟩
    · rw [shiftLeft_shiftLeft, hrowp]
      exact congrArg (fun k => rowsM t ^^^ 1 <<< k) (by omega)
    · rw [shiftLeft_shiftLeft, hcolp]
      exact congrArg (fun k => colsM t ^^^ 1 <<< k) (by omega)
    · rw [shiftLeft_shiftLeft, hboxp]
      exact congrArg (fun k => boxesM t ^^^ 1 <<< k) (by omega)

theorem fstep_nil {G E R C B : Nat} :
    fstep ⟨G, E, R, C, B, []⟩ = FStep.stop ⟨G, E, R, C, B, []⟩ := rfl

theorem fstep_cons_zero {G E R C B p : Nat} {rest : List (Nat × Nat)} :
    fstep ⟨G, E, R, C, B, (p, 0) :: rest⟩ =
      FStep.cont (fclear ⟨G, E, R, C, B, (p, 0) :: rest⟩ rest p) := by
  simp only [fstep]
  rw [if_pos trivial]

theorem fstep_cons_ne {G E R C B p m : Nat} {rest : List (Nat × Nat)}
    (hm : m ≠ 0) (fs1 : FS)
    (hfs1 : fwrite ⟨G, E, R, C, B, (p, m) :: rest⟩
      ((p, m ^^^ (1 <<< hiBit9 m)) :: rest) p (hiBit9 m + 1) = fs1) :
    fstep ⟨G, E, R, C, B, (p, m) :: rest⟩ =
      (match fscan fs1.emp (p + 1) with
       | some p2 => FStep.cont ⟨fs1.grid, fs1.emp, fs1.rows, fs1.cols,
           fs1.boxes, (p2, poolAt fs1.rows fs1.cols fs1.boxes p2) :: fs1.stack⟩
       | none => FStep.emit fs1.grid fs1) := by
  subst hfs1
  simp only [fstep]
  rw [if_neg hm]

/-- One packed step simulates one `solverStep`, preserving the invariant
and sortedness of the candidate pools. -/
theorem fstep_sim {g : Table} {s : SudokuSolver} (hInv : Inv g s)
    (hsort : ∀ f ∈ s.recursion_stack,
      List.Pairwise (· < ·) f.possible_values) :
    (s.recursion_stack = [] ∧ solverStep s = some (StepRes.stop s) ∧
      fstep (absFS s) = FStep.stop (absFS s)) ∨
    (∃ s', solverStep s = some (StepRes.cont s') ∧ Inv g s' ∧
      solverMeasure s' < solverMeasure s ∧
      (∀ f ∈ s'.recursion_stack, List.Pairwise (· < ·) f.possible_values) ∧
      fstep (absFS s) = FStep.cont (absFS s')) ∨
    (∃ t' s', solverStep s = some (StepRes.emit t' s') ∧ Inv g s' ∧
      s'.table = t' ∧ noEmptyCell t' ∧
      (∀ f ∈ s'.recursion_stack, List.Pairwise (· < ·) f.possible_values) ∧
      fstep (absFS s) = FStep.emit (encGrid t') (absFS s')) := by
  obtain ⟨t, stack⟩ := s
  cases stack with
  | nil => exact Or.inl ⟨rfl, rfl, rfl⟩
  | cons top rest =>
    obtain ⟨ℓ, pv⟩ := top
    have hwf : wfTable t := hInv.wf
    obtain ⟨hr, hc, -⟩ := hInv.locs ⟨ℓ, pv⟩ (List.mem_cons_self _ _)
    dsimp only at hr hc
    have hsorttop : List.Pairwise (· < ·) pv :=
      hsort ⟨ℓ, pv⟩ (List.mem_cons_self _ _)
    have hbnd : ∀ x ∈ pv, 1 ≤ x ∧ x ≤ 9 :=
      hInv.pools ⟨ℓ, pv⟩ (List.mem_cons_self _ _)
    by_cases hpvne : pv = []
    · subst hpvne
      have hsolve : solverStep ⟨t, ⟨ℓ, []⟩ :: rest⟩ =
          some (StepRes.cont ⟨setCell t ℓ SudokuCell.Empty, rest⟩) := by
        simp only [solverStep, tryNextPossibleValue, List.getLast?_nil,
          clearLastTry]
      have hfstep : fstep (absFS ⟨t, ⟨ℓ, []⟩ :: rest⟩) =
          FStep.cont (fclear ⟨encGrid t, encEmp t, rowsM t, colsM t, boxesM t,
            (rmIdx ℓ, 0) :: rest.map absFrame⟩ (rest.map absFrame)
            (rmIdx ℓ)) := fstep_cons_zero
      rw [fclear_abs hwf hr hc] at hfstep
      rcases solverStep_cases hInv with ⟨hnil, -⟩ |
        ⟨s', heq, hinv', hmeas⟩ | ⟨t'', s'', heq, -, -, -⟩
      · cases hnil
      · rw [hsolve] at heq
        injection heq with h1
        injection h1 with h2
        subst h2
        refine Or.inr (Or.inl ⟨_, hsolve, hinv', hmeas, ?_, ?_⟩)
        · intro f hf
          exact hsort f (List.mem_cons_of_mem _ hf)
        · exact hfstep
      · rw [hsolve] at heq
        injection heq with h1
        cases h1
    · have v := pv.getLast hpvne
      have hlast : pv.getLast? = some (pv.getLast hpvne) :=
        List.getLast?_eq_getLast pv hpvne
      obtain ⟨hv1, hv9⟩ := hbnd _ (List.getLast_mem hpvne)
      have htry : tryNextPossibleValue t ⟨ℓ, pv⟩ =
          some (setCell t ℓ (SudokuCell.Filled (pv.getLast hpvne)),
            ⟨ℓ, pv.dropLast⟩) := by
        simp only [tryNextPossibleValue, hlast]
      have hwf2 : wfTable (setCell t ℓ (SudokuCell.Filled (pv.getLast hpvne))) :=
        wfTable_setCell hwf hr hc ⟨hv1, hv9⟩
      have hm : dmask pv ≠ 0 :=
        dmask_ne_zero hpvne hsorttop.nodup (fun x hx => (hbnd x hx).1)
      have hhi : hiBit9 (dmask pv) = pv.getLast hpvne - 1 :=
        dmask_hiBit hpvne hsorttop hbnd
      have hvv : hiBit9 (dmask pv) + 1 = pv.getLast hpvne := by
        rw [hhi]; omega
      have hdl : dmask pv ^^^ 1 <<< hiBit9 (dmask pv) = dmask pv.dropLast := by
        rw [hhi]
        exact (dmask_dropLast hpvne).symm
      have hfs1 : fwrite ⟨encGrid t, encEmp t, rowsM t, colsM t, boxesM t,
          (rmIdx ℓ, dmask pv) :: rest.map absFrame⟩
          ((rmIdx ℓ, dmask pv ^^^ 1 <<< hiBit9 (dmask pv)) :: rest.map absFrame)
          (rmIdx ℓ) (hiBit9 (dmask pv) + 1) =
          ⟨encGrid (setCell t ℓ (SudokuCell.Filled (pv.getLast hpvne))),
           encEmp (setCell t ℓ (SudokuCell.Filled (pv.getLast hpvne))),
           rowsM (setCell t ℓ (SudokuCell.Filled (pv.getLast hpvne))),
           colsM (setCell t ℓ (SudokuCell.Filled (pv.getLast hpvne))),
           boxesM (setCell t ℓ (SudokuCell.Filled (pv.getLast hpvne))),
           (rmIdx ℓ, dmask pv.dropLast) :: rest.map absFrame⟩ := by
        rw [hvv, hdl]
        exact fwrite_abs hwf hr hc _ _ _
      have hfstep : fstep (absFS ⟨t, ⟨ℓ, pv⟩ :: rest⟩) = _ :=
        fstep_cons_ne hm _ hfs1
      have hdrs : ∀ f ∈ (⟨ℓ, pv.dropLast⟩ : RecursionState) :: rest,
          List.Pairwise (· < ·) f.possible_values := by
        intro f hf
        rcases List.mem_cons.mp hf with rfl | hf'
        · exact hsorttop.sublist (List.dropLast_sublist pv)
        · exact hsort f (List.mem_cons_of_mem _ hf')
      cases hscan : nextEmptyCellStartingFrom
          (setCell t ℓ (SudokuCell.Filled (pv.getLast hpvne)))
          ⟨ℓ.row, ℓ.col + 1⟩ with
      | some ℓ₂ =>
        have hfscan : fscan
            (encEmp (setCell t ℓ (SudokuCell.Filled (pv.getLast hpvne))))
            (rmIdx ℓ + 1) = some (rmIdx ℓ₂) := by
          have h := fscan_abs hwf2 (ℓ := ⟨ℓ.row, ℓ.col + 1⟩) hr
            (show ℓ.col + 1 ≤ 9 by omega)
          rw [hscan] at h
          exact h
        obtain ⟨hemp2, hr2, hc2, -, -⟩ :=
          nextEmpty_some_props hwf2.1
            (show ℓ.col + 1 ≤ 9 by omega) hscan
        obtain ⟨pv₂, hpv₂, -, hmem₂⟩ := possibleValues_spec hwf2 ℓ₂
        have hsolve : solverStep ⟨t, ⟨ℓ, pv⟩ :: rest⟩ =
            some (StepRes.cont
              ⟨setCell t ℓ (SudokuCell.Filled (pv.getLast hpvne)),
               ⟨ℓ₂, pv₂⟩ :: ⟨ℓ, pv.dropLast⟩ :: rest⟩) := by
          simp only [solverStep, tryNextPossibleValue, hlast, List.head?_cons,
            presolveNextEmptyCell, hscan, hpv₂]
        rcases solverStep_cases hInv with ⟨hnil, -⟩ |
          ⟨s', heq, hinv', hmeas⟩ | ⟨t'', s'', heq, -, -, -⟩
        · cases hnil
        · rw [hsolve] at heq
          injection heq with h1
          injection h1 with h2
          subst h2
          have hsorted₂ : List.Pairwise (· < ·) pv₂ :=
            possibleValues_sorted hpv₂
          have hpool : poolAt
              (rowsM (setCell t ℓ (SudokuCell.Filled (pv.getLast hpvne))))
              (colsM (setCell t ℓ (SudokuCell.Filled (pv.getLast hpvne))))
              (boxesM (setCell t ℓ (SudokuCell.Filled (pv.getLast hpvne))))
              (rmIdx ℓ₂) = dmask pv₂ :=
            poolAt_abs hwf2 hinv'.valid hr2 hc2 hsorted₂.nodup hmem₂
          refine Or.inr (Or.inl ⟨_, hsolve, hinv', hmeas, ?_, ?_⟩)
          · intro f hf
            rcases List.mem_cons.mp hf with rfl | hf'
            · exact hsorted₂
            · exact hdrs f hf'
          · rw [hfscan] at hfstep
            dsimp only at hfstep
            rw [hpool] at hfstep
            exact hfstep
        · rw [hsolve] at heq
          injection heq with h1
          cases h1
      | none =>
        have hfscan : fscan
            (encEmp (setCell t ℓ (SudokuCell.Filled (pv.getLast hpvne))))
            (rmIdx ℓ + 1) = none := by
          have h := fscan_abs hwf2 (ℓ := ⟨ℓ.row, ℓ.col + 1⟩) hr
            (show ℓ.col + 1 ≤ 9 by omega)
          rw [hscan] at h
          exact h
        have hsolve : solverStep ⟨t, ⟨ℓ, pv⟩ :: rest⟩ =
            some (StepRes.emit
              (setCell t ℓ (SudokuCell.Filled (pv.getLast hpvne)))
              ⟨setCell t ℓ (SudokuCell.Filled (pv.getLast hpvne)),
               ⟨ℓ, pv.dropLast⟩ :: rest⟩) := by
          simp only [solverStep, tryNextPossibleValue, hlast, List.head?_cons,
            presolveNextEmptyCell, hscan]
        rcases solverStep_cases hInv with ⟨hnil, -⟩ |
          ⟨s', heq, -, -⟩ | ⟨t'', s'', heq, hinv', htab, hnoemp⟩
        · cases hnil
        · rw [hsolve] at heq
          injection heq with h1
          cases h1
        · rw [hsolve] at heq
          injection heq with h1
          injection h1 with h2 h3
          subst h2
          subst h3
          refine Or.inr (Or.inr ⟨_, _, hsolve, hinv', htab, hnoemp, hdrs, ?_⟩)
          rw [hfscan] at hfstep
          dsimp only at hfstep
          exact hfstep

theorem ffuel_succ (n : Nat) (fs : FS) :
    ffuel (n + 1) fs =
      (match fstep fs with
       | FStep.cont fs2 => ffuel n fs2
       | FStep.emit g fs2 => FRes.emit g fs2
       | FStep.stop fs2 => FRes.stop fs2) := rfl

theorem nextFuel_succ (n : Nat) (s : SudokuSolver) :
    nextFuel (n + 1) s =
      (match solverStep s with
       | none => NextRes.panic
       | some (StepRes.stop s') => NextRes.stop s'
       | some (StepRes.emit t s') => NextRes.emit t s'
       | some (StepRes.cont s') => nextFuel n s') := rfl

/-- A packed run lifts to a run of the source loop with the same fuel:
an emitted packed grid comes from an emitted table, a packed stop from a
loop exit. -/
theorem ffuel_lift {g : Table} : ∀ (n : Nat) (s : SudokuSolver), Inv g s →
    (∀ f ∈ s.recursion_stack, List.Pairwise (· < ·) f.possible_values) →
    (∀ gr fs', ffuel n (absFS s) = FRes.emit gr fs' →
      ∃ t' s', nextFuel n s = NextRes.emit t' s' ∧ Inv g s' ∧ s'.table = t' ∧
        noEmptyCell t' ∧
        (∀ f ∈ s'.recursion_stack, List.Pairwise (· < ·) f.possible_values) ∧
        encGrid t' = gr ∧ absFS s' = fs') ∧
    (∀ fs', ffuel n (absFS s) = FRes.stop fs' →
      ∃ s', nextFuel n s = NextRes.stop s') := by
  intro n
  induction n with
  | zero =>
    intro s _ _
    constructor
    · intro gr fs' h
      have h0 : FRes.oof (absFS s) = FRes.emit gr fs' := h
      cases h0
    · intro fs' h
      have h0 : FRes.oof (absFS s) = FRes.stop fs' := h
      cases h0
  | succ n ih =>
    intro s hInv hsort
    rcases fstep_sim hInv hsort with ⟨hnil, hsolve, hfs⟩ |
      ⟨s', hsolve, hinv', hmeas, hsort', hfs⟩ |
      ⟨t', s', hsolve, hinv', htab, hnoemp, hsort', hfs⟩
    · have hrun : ffuel (n + 1) (absFS s) = FRes.stop (absFS s) := by
        rw [ffuel_succ, hfs]
      constructor
      · intro gr fs' h
        rw [hrun] at h
        cases h
      · intro fs' h
        exact ⟨s, by rw [nextFuel_succ, hsolve]⟩
    · have hrun : ffuel (n + 1) (absFS s) = ffuel n (absFS s') := by
        rw [ffuel_succ, hfs]
      have hnrun : nextFuel (n + 1) s = nextFuel n s' := by
        rw [nextFuel_succ, hsolve]
      obtain ⟨ihemit, ihstop⟩ := ih s' hinv' hsort'
      constructor
      · intro gr fs' h
        rw [hrun] at h
        obtain ⟨t'', s'', hn, rest⟩ := ihemit gr fs' h
        exact ⟨t'', s'', by rw [hnrun]; exact hn, rest⟩
      · intro fs' h
        rw [hrun] at h
        obtain ⟨s'', hs''⟩ := ihstop fs' h
        exact ⟨s'', by rw [hnrun]; exact hs''⟩
    · have hrun : ffuel (n + 1) (absFS s) =
          FRes.emit (encGrid t') (absFS s') := by
        rw [ffuel_succ, hfs]
      constructor
      · intro gr fs' h
        rw [hrun] at h
        injection h with h1 h2
        exact ⟨t', s', by rw [nextFuel_succ, hsolve], hinv', htab, hnoemp,
          hsort', h1, h2⟩
      · intro fs' h
        rw [hrun] at h
        cases h

/-- Fuel glue: an emitting packed run below the measure bound determines
the result of `SudokuSolver.next`. -/
theorem next_emit_glue {g : Table} {s : SudokuSolver} (hInv : Inv g s)
    (hsort : ∀ f ∈ s.recursion_stack, List.Pairwise (· < ·) f.possible_values)
    {n gr : Nat} {fs' : FS} (hrun : ffuel n (absFS s) = FRes.emit gr fs')
    (hn : n ≤ 11 ^ 81) (hne : s.recursion_stack ≠ []) :
    ∃ t' s', SudokuSolver.next s = NextRes.emit t' s' ∧ Inv g s' ∧
      s'.table = t' ∧ noEmptyCell t' ∧
      (∀ f ∈ s'.recursion_stack, List.Pairwise (· < ·) f.possible_values) ∧
      encGrid t' = gr ∧ absFS s' = fs' := by
  obtain ⟨t', s', hn1, hinv', htab, hnoemp, hsort', hgr, habs⟩ :=
    (ffuel_lift n s hInv hsort).1 gr fs' hrun
  refine ⟨t', s', ?_, hinv', htab, hnoemp, hsort', hgr, habs⟩
  unfold SudokuSolver.next
  rw [← hn1]
  refine nextFuel_mono n (solverMeasure s + 1) s ?_
    (by rw [hn1]; intro h; cases h)
  have := solverMeasure_lb hne
  omega

/-- Fuel glue: a stopping packed run below the measure bound determines
the result of `SudokuSolver.next`. -/
theorem next_stop_glue {g : Table} {s : SudokuSolver} (hInv : Inv g s)
    (hsort : ∀ f ∈ s.recursion_stack, List.Pairwise (· < ·) f.possible_values)
    {n : Nat} {fs' : FS} (hrun : ffuel n (absFS s) = FRes.stop fs')
    (hn : n ≤ 11 ^ 81) (hne : s.recursion_stack ≠ []) :
    ∃ s', SudokuSolver.next s = NextRes.stop s' := by
  obtain ⟨s', hn1⟩ := (ffuel_lift n s hInv hsort).2 fs' hrun
  refine ⟨s', ?_⟩
  unfold SudokuSolver.next
  rw [← hn1]
  refine nextFuel_mono n (solverMeasure s + 1) s ?_
    (by rw [hn1]; intro h; cases h)
  have := solverMeasure_lb hne
  omega

/-- Packaging: an emitted grid with the solution encoding plus a stopping
second run give the two claimed advancements. -/
theorem c9final_package {s0 : SudokuSolver} {g sol : Table} {fE fZ : FS}
    {n2 : Nat}
    (hstep : ∃ t' s', SudokuSolver.next s0 = NextRes.emit t' s' ∧ Inv g s' ∧
      s'.table = t' ∧ noEmptyCell t' ∧
      (∀ f ∈ s'.recursion_stack, List.Pairwise (· < ·) f.possible_values) ∧
      encGrid t' = encGrid sol ∧ absFS s' = fE)
    (hsolwf : wfTable sol)
    (hstE : ([] : List (Nat × Nat)) ≠ fE.stack)
    (hB : ffuel n2 fE = FRes.stop fZ)
    (hn2 : n2 ≤ 11 ^ 81) :
    ∃ s₁, SudokuSolver.next s0 = NextRes.emit sol s₁ ∧
      ∃ s₂, SudokuSolver.next s₁ = NextRes.stop s₂ := by
  obtain ⟨t₁, s₁, hnx, hinv₁, htab₁, hnoemp₁, hsort₁, hgr₁, habs₁⟩ := hstep
  have ht₁ : t₁ = sol := encGrid_inj (htab₁ ▸ hinv₁.wf) hsolwf hgr₁
  have hne1 : s₁.recursion_stack ≠ [] := by
    intro h
    have hst : s₁.recursion_stack.map absFrame = fE.stack :=
      congrArg FS.stack habs₁
    rw [h] at hst
    exact hstE hst
  have hrun2 : ffuel n2 (absFS s₁) = FRes.stop fZ := by
    rw [habs₁]; exact hB
  obtain ⟨s₂, hstop⟩ := next_stop_glue hinv₁ hsort₁ hrun2 hn2 hne1
  exact ⟨s₁, by rw [hnx, ht₁], s₂, hstop⟩

/-! ### Layer 10j: the packed run on the concrete puzzle, in hops -/

set_option maxRecDepth 1100000 in
set_option maxHeartbeats 4000000 in
theorem c9hopA0 : ffuel 2500 c9fA0 = FRes.oof c9fA1 := by decide

set_option maxRecDepth 1100000 in
set_option maxHeartbeats 4000000 in
theorem c9hopA1 : ffuel 2500 c9fA1 = FRes.oof c9fA2 := by decide

set_option maxRecDepth 1100000 in
set_option maxHeartbeats 4000000 in
theorem c9hopA2 : ffuel 2500 c9fA2 = FRes.oof c9fA3 := by decide

set_option maxRecDepth 1100000 in
set_option maxHeartbeats 4000000 in
theorem c9hopA3 : ffuel 2500 c9fA3 = FRes.oof c9fA4 := by decide

set_option maxRecDepth 1100000 in
set_option maxHeartbeats 4000000 in
theorem c9hopA4 : ffuel 2500 c9fA4 = FRes.oof c9fA5 := by decide

set_option maxRecDepth 1100000 in
set_option maxHeartbeats 4000000 in
theorem c9hopA5 : ffuel 2500 c9fA5 = FRes.oof c9fA6 := by decide

set_option maxRecDepth 1100000 in
set_option maxHeartbeats 4000000 in
theorem c9hopA6 : ffuel 2500 c9fA6 = FRes.oof c9fA7 := by decide

set_option maxRecDepth 1100000 in
set_option maxHeartbeats 4000000 in
theorem c9hopA7 : ffuel 2500 c9fA7 = FRes.oof c9fA8 := by decide

set_option maxRecDepth 1100000 in
set_option maxHeartbeats 4000000 in
theorem c9hopA8 : ffuel 2500 c9fA8 = FRes.oof c9fA9 := by decide

set_option maxRecDepth 1100000 in
set_option maxHeartbeats 4000000 in
theorem c9hopA9 : ffuel 2500 c9fA9 = FRes.oof c9fA10 := by decide

set_option maxRecDepth 1100000 in
set_option maxHeartbeats 4000000 in
theorem c9hopA10 : ffuel 2500 c9fA10 = FRes.oof c9fA11 := by decide

set_option maxRecDepth 1100000 in
set_option maxHeartbeats 4000000 in
theorem c9hopA11 : ffuel 2500 c9fA11 = FRes.oof c9fA12 := by decide

set_option maxRecDepth 1100000 in
set_option maxHeartbeats 4000000 in
theorem c9hopA12 : ffuel 2500 c9fA12 = FRes.oof c9fA13 := by decide

set_option maxRecDepth 1100000 in
set_option maxHeartbeats 4000000 in
theorem c9hopA13 : ffuel 2500 c9fA13 = FRes.oof c9fA14 := by decide

set_option maxRecDepth 1100000 in
set_option maxHeartbeats 4000000 in
theorem c9hopA14 : ffuel 2500 c9fA14 = FRes.oof c9fA15 := by decide

set_option maxRecDepth 1100000 in
set_option maxHeartbeats 4000000 in
theorem c9hopA15 : ffuel 2500 c9fA15 = FRes.oof c9fA16 := by decide

set_option maxRecDepth 1100000 in
set_option maxHeartbeats 4000000 in
theorem c9hopA16 : ffuel 2500 c9fA16 = FRes.oof c9fA17 := by decide

set_option maxRecDepth 1100000 in
set_option maxHeartbeats 4000000 in
theorem c9hopA17 : ffuel 2500 c9fA17 = FRes.oof c9fA18 := by decide

set_option maxRecDepth 1100000 in
set_option maxHeartbeats 4000000 in
theorem c9hopA18 : ffuel 2500 c9fA18 = FRes.oof c9fA19 := by decide

set_option maxRecDepth 1100000 in
set_option maxHeartbeats 4000000 in
theorem c9hopA19 : ffuel 2500 c9fA19 = FRes.oof c9fA20 := by decide

set_option maxRecDepth 1100000 in
set_option maxHeartbeats 4000000 in
theorem c9hopA20 : ffuel 2500 c9fA20 = FRes.oof c9fA21 := by decide

set_option maxRecDepth 1100000 in
set_option maxHeartbeats 4000000 in
theorem c9hopA21 : ffuel 2500 c9fA21 = FRes.oof c9fA22 := by decide

set_option maxRecDepth 1100000 in
set_option maxHeartbeats 4000000 in
theorem c9hopA22 : ffuel 2500 c9fA22 = FRes.oof c9fA23 := by decide

set_option maxRecDepth 1100000 in
set_option maxHeartbeats 4000000 in
theorem c9hopA23 : ffuel 2500 c9fA23 = FRes.oof c9fA24 := by decide

set_option maxRecDepth 1100000 in
set_option maxHeartbeats 4000000 in
theorem c9hopA24 : ffuel 2500 c9fA24 = FRes.oof c9fA25 := by decide

set_option maxRecDepth 1100000 in
set_option maxHeartbeats 4000000 in
theorem c9hopA25 : ffuel 987 c9fA25 = FRes.emit (encGrid fullSolutionGrid) c9fE := by decide

set_option maxRecDepth 1100000 in
set_option maxHeartbeats 4000000 in
theorem c9hopB0 : ffuel 2500 c9fE = FRes.oof c9fB1 := by decide

set_option maxRecDepth 1100000 in
set_option maxHeartbeats 4000000 in
theorem c9hopB1 : ffuel 2500 c9fB1 = FRes.oof c9fB2 := by decide

set_option maxRecDepth 1100000 in
set_option maxHeartbeats 4000000 in
theorem c9hopB2 : ffuel 2500 c9fB2 = FRes.oof c9fB3 := by decide

set_option maxRecDepth 1100000 in
set_option maxHeartbeats 4000000 in
theorem c9hopB3 : ffuel 2500 c9fB3 = FRes.oof c9fB4 := by decide

set_option maxRecDepth 1100000 in
set_option maxHeartbeats 4000000 in
theorem c9hopB4 : ffuel 2500 c9fB4 = FRes.oof c9fB5 := by decide

set_option maxRecDepth 1100000 in
set_option maxHeartbeats 4000000 in
theorem c9hopB5 : ffuel 2500 c9fB5 = FRes.oof c9fB6 := by decide

set_option maxRecDepth 1100000 in
set_option maxHeartbeats 4000000 in
theorem c9hopB6 : ffuel 2500 c9fB6 = FRes.oof c9fB7 := by decide

set_option maxRecDepth 1100000 in
set_option maxHeartbeats 4000000 in
theorem c9hopB7 : ffuel 2500 c9fB7 = FRes.oof c9fB8 := by decide

set_option maxRecDepth 1100000 in
set_option maxHeartbeats 4000000 in
theorem c9hopB8 : ffuel 2500 c9fB8 = FRes.oof c9fB9 := by decide

set_option maxRecDepth 1100000 in
set_option maxHeartbeats 4000000 in
theorem c9hopB9 : ffuel 2500 c9fB9 = FRes.oof c9fB10 := by decide

set_option maxRecDepth 1100000 in
set_option maxHeartbeats 4000000 in
theorem c9hopB10 : ffuel 2500 c9fB10 = FRes.oof c9fB11 := by decide

set_option maxRecDepth 1100000 in
set_option maxHeartbeats 4000000 in
theorem c9hopB11 : ffuel 2500 c9fB11 = FRes.oof c9fB12 := by decide

set_option maxRecDepth 1100000 in
set_option maxHeartbeats 4000000 in
theorem c9hopB12 : ffuel 2500 c9fB12 = FRes.oof c9fB13 := by decide

set_option maxRecDepth 1100000 in
set_option maxHeartbeats 4000000 in
theorem c9hopB13 : ffuel 2500 c9fB13 = FRes.oof c9fB14 := by decide

set_option maxRecDepth 1100000 in
set_option maxHeartbeats 4000000 in
theorem c9hopB14 : ffuel 2500 c9fB14 = FRes.oof c9fB15 := by decide

set_option maxRecDepth 1100000 in
set_option maxHeartbeats 4000000 in
theorem c9hopB15 : ffuel 2500 c9fB15 = FRes.oof c9fB16 := by decide

set_option maxRecDepth 1100000 in
set_option maxHeartbeats 4000000 in
theorem c9hopB16 : ffuel 2500 c9fB16 = FRes.oof c9fB17 := by decide

set_option maxRecDepth 1100000 in
set_option maxHeartbeats 4000000 in
theorem c9hopB17 : ffuel 2500 c9fB17 = FRes.oof c9fB18 := by decide

set_option maxRecDepth 1100000 in
set_option maxHeartbeats 4000000 in
theorem c9hopB18 : ffuel 2500 c9fB18 = FRes.oof c9fB19 := by decide

set_option maxRecDepth 1100000 in
set_option maxHeartbeats 4000000 in
theorem c9hopB19 : ffuel 2500 c9fB19 = FRes.oof c9fB20 := by decide

set_option maxRecDepth 1100000 in
set_option maxHeartbeats 4000000 in
theorem c9hopB20 : ffuel 2500 c9fB20 = FRes.oof c9fB21 := by decide

set_option maxRecDepth 1100000 in
set_option maxHeartbeats 4000000 in
theorem c9hopB21 : ffuel 2500 c9fB21 = FRes.oof c9fB22 := by decide

set_option maxRecDepth 1100000 in
set_option maxHeartbeats 4000000 in
theorem c9hopB22 : ffuel 2500 c9fB22 = FRes.oof c9fB23 := by decide

set_option maxRecDepth 1100000 in
set_option maxHeartbeats 4000000 in
theorem c9hopB23 : ffuel 2500 c9fB23 = FRes.oof c9fB24 := by decide

set_option maxRecDepth 1100000 in
set_option maxHeartbeats 4000000 in
theorem c9hopB24 : ffuel 2500 c9fB24 = FRes.oof c9fB25 := by decide

set_option maxRecDepth 1100000 in
set_option maxHeartbeats 4000000 in
theorem c9hopB25 : ffuel 2500 c9fB25 = FRes.oof c9fB26 := by decide

set_option maxRecDepth 1100000 in
set_option maxHeartbeats 4000000 in
theorem c9hopB26 : ffuel 2500 c9fB26 = FRes.oof c9fB27 := by decide

set_option maxRecDepth 1100000 in
set_option maxHeartbeats 4000000 in
theorem c9hopB27 : ffuel 2500 c9fB27 = FRes.oof c9fB28 := by decide

set_option maxRecDepth 1100000 in
set_option maxHeartbeats 4000000 in
theorem c9hopB28 : ffuel 2500 c9fB28 = FRes.oof c9fB29 := by decide

set_option maxRecDepth 1100000 in
set_option maxHeartbeats 4000000 in
theorem c9hopB29 : ffuel 2500 c9fB29 = FRes.oof c9fB30 := by decide

set_option maxRecDepth 1100000 in
set_option maxHeartbeats 4000000 in
theorem c9hopB30 : ffuel 2500 c9fB30 = FRes.oof c9fB31 := by decide

set_option maxRecDepth 1100000 in
set_option maxHeartbeats 4000000 in
theorem c9hopB31 : ffuel 2500 c9fB31 = FRes.oof c9fB32 := by decide

set_option maxRecDepth 1100000 in
set_option maxHeartbeats 4000000 in
theorem c9hopB32 : ffuel 2500 c9fB32 = FRes.oof c9fB33 := by decide

set_option maxRecDepth 1100000 in
set_option maxHeartbeats 4000000 in
theorem c9hopB33 : ffuel 2500 c9fB33 = FRes.oof c9fB34 := by decide

set_option maxRecDepth 1100000 in
set_option maxHeartbeats 4000000 in
theorem c9hopB34 : ffuel 2500 c9fB34 = FRes.oof c9fB35 := by decide

set_option maxRecDepth 1100000 in
set_option maxHeartbeats 4000000 in
theorem c9hopB35 : ffuel 2500 c9fB35 = FRes.oof c9fB36 := by decide

set_option maxRecDepth 1100000 in
set_option maxHeartbeats 4000000 in
theorem c9hopB36 : ffuel 2500 c9fB36 = FRes.oof c9fB37 := by decide

set_option maxRecDepth 1100000 in
set_option maxHeartbeats 4000000 in
theorem c9hopB37 : ffuel 2500 c9fB37 = FRes.oof c9fB38 := by decide

set_option maxRecDepth 1100000 in
set_option maxHeartbeats 4000000 in
theorem c9hopB38 : ffuel 2500 c9fB38 = FRes.oof c9fB39 := by decide

set_option maxRecDepth 1100000 in
set_option maxHeartbeats 4000000 in
theorem c9hopB39 : ffuel 2278 c9fB39 = FRes.stop c9fZ := by decide

theorem c9runA : ffuel 63487 c9fA0 = FRes.emit (encGrid fullSolutionGrid) c9fE := by
  have h25 := c9hopA25
  have h24 : ffuel 3487 c9fA24 = FRes.emit (encGrid fullSolutionGrid) c9fE :=
    (ffuel_oof_add 987 2500 _ _ c9hopA24).trans h25
  have h23 : ffuel 5987 c9fA23 = FRes.emit (encGrid fullSolutionGrid) c9fE :=
    (ffuel_oof_add 3487 2500 _ _ c9hopA23).trans h24
  have h22 : ffuel 8487 c9fA22 = FRes.emit (encGrid fullSolutionGrid) c9fE :=
    (ffuel_oof_add 5987 2500 _ _ c9hopA22).trans h23
  have h21 : ffuel 10987 c9fA21 = FRes.emit (encGrid fullSolutionGrid) c9fE :=
    (ffuel_oof_add 8487 2500 _ _ c9hopA21).trans h22
  have h20 : ffuel 13487 c9fA20 = FRes.emit (encGrid fullSolutionGrid) c9fE :=
    (ffuel_oof_add 10987 2500 _ _ c9hopA20).trans h21
  have h19 : ffuel 15987 c9fA19 = FRes.emit (encGrid fullSolutionGrid) c9fE :=
    (ffuel_oof_add 13487 2500 _ _ c9hopA19).trans h20
  have h18 : ffuel 18487 c9fA18 = FRes.emit (encGrid fullSolutionGrid) c9fE :=
    (ffuel_oof_add 15987 2500 _ _ c9hopA18).trans h19
  have h17 : ffuel 20987 c9fA17 = FRes.emit (encGrid fullSolutionGrid) c9fE :=
    (ffuel_oof_add 18487 2500 _ _ c9hopA17).trans h18
  have h16 : ffuel 23487 c9fA16 = FRes.emit (encGrid fullSolutionGrid) c9fE :=
    (ffuel_oof_add 20987 2500 _ _ c9hopA16).trans h17
  have h15 : ffuel 25987 c9fA15 = FRes.emit (encGrid fullSolutionGrid) c9fE :=
    (ffuel_oof_add 23487 2500 _ _ c9hopA15).trans h16
  have h14 : ffuel 28487 c9fA14 = FRes.emit (encGrid fullSolutionGrid) c9fE :=
    (ffuel_oof_add 25987 2500 _ _ c9hopA14).trans h15
  have h13 : ffuel 30987 c9fA13 = FRes.emit (encGrid fullSolutionGrid) c9fE :=
    (ffuel_oof_add 28487 2500 _ _ c9hopA13).trans h14
  have h12 : ffuel 33487 c9fA12 = FRes.emit (encGrid fullSolutionGrid) c9fE :=
    (ffuel_oof_add 30987 2500 _ _ c9hopA12).trans h13
  have h11 : ffuel 35987 c9fA11 = FRes.emit (encGrid fullSolutionGrid) c9fE :=
    (ffuel_oof_add 33487 2500 _ _ c9hopA11).trans h12
  have h10 : ffuel 38487 c9fA10 = FRes.emit (encGrid fullSolutionGrid) c9fE :=
    (ffuel_oof_add 35987 2500 _ _ c9hopA10).trans h11
  have h9 : ffuel 40987 c9fA9 = FRes.emit (encGrid fullSolutionGrid) c9fE :=
    (ffuel_oof_add 38487 2500 _ _ c9hopA9).trans h10
  have h8 : ffuel 43487 c9fA8 = FRes.emit (encGrid fullSolutionGrid) c9fE :=
    (ffuel_oof_add 40987 2500 _ _ c9hopA8).trans h9
  have h7 : ffuel 45987 c9fA7 = FRes.emit (encGrid fullSolutionGrid) c9fE :=
    (ffuel_oof_add 43487 2500 _ _ c9hopA7).trans h8
  have h6 : ffuel 48487 c9fA6 = FRes.emit (encGrid fullSolutionGrid) c9fE :=
    (ffuel_oof_add 45987 2500 _ _ c9hopA6).trans h7
  have h5 : ffuel 50987 c9fA5 = FRes.emit (encGrid fullSolutionGrid) c9fE :=
    (ffuel_oof_add 48487 2500 _ _ c9hopA5).trans h6
  have h4 : ffuel 53487 c9fA4 = FRes.emit (encGrid fullSolutionGrid) c9fE :=
    (ffuel_oof_add 50987 2500 _ _ c9hopA4).trans h5
  have h3 : ffuel 55987 c9fA3 = FRes.emit (encGrid fullSolutionGrid) c9fE :=
    (ffuel_oof_add 53487 2500 _ _ c9hopA3).trans h4
  have h2 : ffuel 58487 c9fA2 = FRes.emit (encGrid fullSolutionGrid) c9fE :=
    (ffuel_oof_add 55987 2500 _ _ c9hopA2).trans h3
  have h1 : ffuel 60987 c9fA1 = FRes.emit (encGrid fullSolutionGrid) c9fE :=
    (ffuel_oof_add 58487 2500 _ _ c9hopA1).trans h2
  have h0 : ffuel 63487 c9fA0 = FRes.emit (encGrid fullSolutionGrid) c9fE :=
    (ffuel_oof_add 60987 2500 _ _ c9hopA0).trans h1
  exact h0

theorem c9runB : ffuel 99778 c9fE = FRes.stop c9fZ := by
  have h39 := c9hopB39
  have h38 : ffuel 4778 c9fB38 = FRes.stop c9fZ :=
    (ffuel_oof_add 2278 2500 _ _ c9hopB38).trans h39
  have h37 : ffuel 7278 c9fB37 = FRes.stop c9fZ :=
    (ffuel_oof_add 4778 2500 _ _ c9hopB37).trans h38
  have h36 : ffuel 9778 c9fB36 = FRes.stop c9fZ :=
    (ffuel_oof_add 7278 2500 _ _ c9hopB36).trans h37
  have h35 : ffuel 12278 c9fB35 = FRes.stop c9fZ :=
    (ffuel_oof_add 9778 2500 _ _ c9hopB35).trans h36
  have h34 : ffuel 14778 c9fB34 = FRes.stop c9fZ :=
    (ffuel_oof_add 12278 2500 _ _ c9hopB34).trans h35
  have h33 : ffuel 17278 c9fB33 = FRes.stop c9fZ :=
    (ffuel_oof_add 14778 2500 _ _ c9hopB33).trans h34
  have h32 : ffuel 19778 c9fB32 = FRes.stop c9fZ :=
    (ffuel_oof_add 17278 2500 _ _ c9hopB32).trans h33
  have h31 : ffuel 22278 c9fB31 = FRes.stop c9fZ :=
    (ffuel_oof_add 19778 2500 _ _ c9hopB31).trans h32
  have h30 : ffuel 24778 c9fB30 = FRes.stop c9fZ :=
    (ffuel_oof_add 22278 2500 _ _ c9hopB30).trans h31
  have h29 : ffuel 27278 c9fB29 = FRes.stop c9fZ :=
    (ffuel_oof_add 24778 2500 _ _ c9hopB29).trans h30
  have h28 : ffuel 29778 c9fB28 = FRes.stop c9fZ :=
    (ffuel_oof_add 27278 2500 _ _ c9hopB28).trans h29
  have h27 : ffuel 32278 c9fB27 = FRes.stop c9fZ :=
    (ffuel_oof_add 29778 2500 _ _ c9hopB27).trans h28
  have h26 : ffuel 34778 c9fB26 = FRes.stop c9fZ :=
    (ffuel_oof_add 32278 2500 _ _ c9hopB26).trans h27
  have h25 : ffuel 37278 c9fB25 = FRes.stop c9fZ :=
    (ffuel_oof_add 34778 2500 _ _ c9hopB25).trans h26
  have h24 : ffuel 39778 c9fB24 = FRes.stop c9fZ :=
    (ffuel_oof_add 37278 2500 _ _ c9hopB24).trans h25
  have h23 : ffuel 42278 c9fB23 = FRes.stop c9fZ :=
    (ffuel_oof_add 39778 2500 _ _ c9hopB23).trans h24
  have h22 : ffuel 44778 c9fB22 = FRes.stop c9fZ :=
    (ffuel_oof_add 42278 2500 _ _ c9hopB22).trans h23
  have h21 : ffuel 47278 c9fB21 = FRes.stop c9fZ :=
    (ffuel_oof_add 44778 2500 _ _ c9hopB21).trans h22
  have h20 : ffuel 49778 c9fB20 = FRes.stop c9fZ :=
    (ffuel_oof_add 47278 2500 _ _ c9hopB20).trans h21
  have h19 : ffuel 52278 c9fB19 = FRes.stop c9fZ :=
    (ffuel_oof_add 49778 2500 _ _ c9hopB19).trans h20
  have h18 : ffuel 54778 c9fB18 = FRes.stop c9fZ :=
    (ffuel_oof_add 52278 2500 _ _ c9hopB18).trans h19
  have h17 : ffuel 57278 c9fB17 = FRes.stop c9fZ :=
    (ffuel_oof_add 54778 2500 _ _ c9hopB17).trans h18
  have h16 : ffuel 59778 c9fB16 = FRes.stop c9fZ :=
    (ffuel_oof_add 57278 2500 _ _ c9hopB16).trans h17
  have h15 : ffuel 62278 c9fB15 = FRes.stop c9fZ :=
    (ffuel_oof_add 59778 2500 _ _ c9hopB15).trans h16
  have h14 : ffuel 64778 c9fB14 = FRes.stop c9fZ :=
    (ffuel_oof_add 62278 2500 _ _ c9hopB14).trans h15
  have h13 : ffuel 67278 c9fB13 = FRes.stop c9fZ :=
    (ffuel_oof_add 64778 2500 _ _ c9hopB13).trans h14
  have h12 : ffuel 69778 c9fB12 = FRes.stop c9fZ :=
    (ffuel_oof_add 67278 2500 _ _ c9hopB12).trans h13
  have h11 : ffuel 72278 c9fB11 = FRes.stop c9fZ :=
    (ffuel_oof_add 69778 2500 _ _ c9hopB11).trans h12
  have h10 : ffuel 74778 c9fB10 = FRes.stop c9fZ :=
    (ffuel_oof_add 72278 2500 _ _ c9hopB10).trans h11
  have h9 : ffuel 77278 c9fB9 = FRes.stop c9fZ :=
    (ffuel_oof_add 74778 2500 _ _ c9hopB9).trans h10
  have h8 : ffuel 79778 c9fB8 = FRes.stop c9fZ :=
    (ffuel_oof_add 77278 2500 _ _ c9hopB8).trans h9
  have h7 : ffuel 82278 c9fB7 = FRes.stop c9fZ :=
    (ffuel_oof_add 79778 2500 _ _ c9hopB7).trans h8
  have h6 : ffuel 84778 c9fB6 = FRes.stop c9fZ :=
    (ffuel_oof_add 82278 2500 _ _ c9hopB6).trans h7
  have h5 : ffuel 87278 c9fB5 = FRes.stop c9fZ :=
    (ffuel_oof_add 84778 2500 _ _ c9hopB5).trans h6
  have h4 : ffuel 89778 c9fB4 = FRes.stop c9fZ :=
    (ffuel_oof_add 87278 2500 _ _ c9hopB4).trans h5
  have h3 : ffuel 92278 c9fB3 = FRes.stop c9fZ :=
    (ffuel_oof_add 89778 2500 _ _ c9hopB3).trans h4
  have h2 : ffuel 94778 c9fB2 = FRes.stop c9fZ :=
    (ffuel_oof_add 92278 2500 _ _ c9hopB2).trans h3
  have h1 : ffuel 97278 c9fB1 = FRes.stop c9fZ :=
    (ffuel_oof_add 94778 2500 _ _ c9hopB1).trans h2
  have h0 : ffuel 99778 c9fE = FRes.stop c9fZ :=
    (ffuel_oof_add 97278 2500 _ _ c9hopB0).trans h1
  exact h0

theorem c9wf : wfTable c9grid := by decide

theorem c9valid : isValidSudoku c9grid = some true := by rfl

theorem c9new : SudokuSolver.new c9grid = some c9s0 := by decide

theorem c9abs0 : absFS c9s0 = c9fA0 := by decide

theorem c9solwf : wfTable fullSolutionGrid := by decide

theorem c9solrow : rowDigitsAt fullSolutionGrid 0 = [3, 9, 1, 8, 6, 7, 5, 4, 2] := by
  decide

theorem c9parse : fromString c9lines = some (Except.ok c9grid) := by rfl

theorem c9pow1 : (63487 : Nat) ≤ 11 ^ 81 := by decide

theorem c9pow2 : (99778 : Nat) ≤ 11 ^ 81 := by decide

theorem c9sortpool : List.Pairwise (· < ·) ([3, 4, 6] : List Nat) := by decide

theorem c9stackE : ([] : List (Nat × Nat)) ≠ c9fE.stack := by decide

theorem c9stack0 : c9s0.recursion_stack ≠ [] := by decide

theorem c9inv : Inv c9grid c9s0 := by
  obtain ⟨s0h, hnew, hInv0, -⟩ :=
    new_inv c9wf ((isValidSudoku_eq_true_iff c9wf).mp c9valid)
  have hs0 : s0h = c9s0 := by
    rw [c9new] at hnew
    injection hnew with h
    exact h.symm
  rwa [hs0] at hInv0

theorem c9sort0 : ∀ f ∈ c9s0.recursion_stack,
    List.Pairwise (· < ·) f.possible_values := by
  intro f hf
  rcases List.mem_cons.mp hf with rfl | h
  · exact c9sortpool
  · cases h

theorem c9hA : ffuel 63487 (absFS c9s0) =
    FRes.emit (encGrid fullSolutionGrid) c9fE := by
  rw [c9abs0]
  exact c9runA

theorem c9step1 : ∃ t' s', SudokuSolver.next c9s0 = NextRes.emit t' s' ∧
    Inv c9grid s' ∧ s'.table = t' ∧ noEmptyCell t' ∧
    (∀ f ∈ s'.recursion_stack, List.Pairwise (· < ·) f.possible_values) ∧
    encGrid t' = encGrid fullSolutionGrid ∧ absFS s' = c9fE :=
  next_emit_glue c9inv c9sort0 c9hA c9pow1 c9stack0

/-- C9: on the concrete classic puzzle the first advancement returns the
grid whose first row is 391867542, and the second advancement returns no
further solution. -/
theorem concrete_puzzle_solution :
    fromString c9lines = some (Except.ok c9grid) ∧
    SudokuSolver.new c9grid = some c9s0 ∧
    rowDigitsAt fullSolutionGrid 0 = [3, 9, 1, 8, 6, 7, 5, 4, 2] ∧
    ∃ s₁, SudokuSolver.next c9s0 = NextRes.emit fullSolutionGrid s₁ ∧
      ∃ s₂, SudokuSolver.next s₁ = NextRes.stop s₂ :=
  ⟨c9parse, c9new, c9solrow,
   c9final_package c9step1 c9solwf c9stackE c9runB c9pow2⟩

end Sudoku
